import Mathlib

/-!
# Build-scheduling worker (toolkit/tools/scheduler/schedulerutils/buildworker.go)

A shallow embedding of the worker of the package-build scheduler.

* Pointers to graph nodes (`*pkggraph.PkgNode`) are node identifiers (`Nat`) into a
  store `Nat → PkgNode`; two equal identifiers are two aliases of one node.  Nil node
  pointers, on which the Go code would dereference nil, are outside the model.
* A channel is its buffer of values that a receive can take without waiting, plus a
  closed flag.  `select` over several ready cases is resolved by an explicit pick
  number; a `select` with no ready case and no `default` waits, which is `none`.
* External collaborators (the build agent, the cache query, the file system, the clock)
  are deterministic oracles indexed by the number of agent invocations made so far.
* A log file is its sequence of raw lines; what the code reads of it is what a
  `bufio.Scanner` yields (`scannerLines`), which ends at the first line too long for the
  scanner's buffer.
* Every call that leaves the worker is recorded, in order, in `World.trace`.
* Logger calls and the graph mutex are not modelled (one worker is run at a time).
-/

namespace schedulerutils

/-! ## Data model -/

/-- Node kinds (`pkggraph.NodeType`); `TypeOther n` stands for every integer value that
is none of the named constants. -/
inductive NodeType
  | TypeUnknown
  | TypeLocalBuild
  | TypeLocalRun
  | TypeGoal
  | TypeRemoteRun
  | TypePureMeta
  | TypePreBuilt
  | TypeTest
  | TypeOther (n : Nat)
  deriving DecidableEq, Repr

/-- Node states (`pkggraph.NodeState`); the worker only ever writes `StateUpToDate` and
`StateBuildError`, every other state set upstream is `StateOther n`. -/
inductive NodeState
  | StateUpToDate
  | StateBuildError
  | StateOther (n : Nat)
  deriving DecidableEq, Repr

/-- Modelled from the spec: `pkgjson.PackageVer` is declared outside the given sources; the
spec identifies a package on the ignore list by its (name, version) pair. -/
structure PackageVer where
  Name : String
  Version : String
  deriving DecidableEq, Repr

/-- The fields of `pkggraph.PkgNode` that the worker reads or writes; the Go field `Type`
is `Type_` here, `Type` being reserved. -/
structure PkgNode where
  VersionedPkg : PackageVer
  State : NodeState
  Type_ : NodeType
  SrpmPath : String
  RpmPath : String
  Architecture : String
  deriving DecidableEq, Repr

/-- The package graph as the traversal sees it: directed edges between node identifiers,
in the order in which `From` enumerates them. -/
structure PkgGraph where
  edges : List (Nat × Nat)
  deriving DecidableEq, Repr

/-- Successors of a node, as enumerated by the graph. -/
def PkgGraph.From (g : PkgGraph) (id : Nat) : List Nat :=
  (g.edges.filter (fun e => e.1 == id)).map (fun e => e.2)

/-- Go `error` values that the worker handles; `none : Option Error` is the nil error. -/
inductive Error
  | external (msg : String)
  | invalidNodeType (t : NodeType) (node : Nat)
  | testFailed (line : String)
  deriving DecidableEq, Repr

/-- A unit of work (`BuildRequest`). -/
structure BuildRequest where
  Node : Nat
  PkgGraph : PkgGraph
  AncillaryNodes : List Nat
  CanUseCache : Bool
  IsDelta : Bool
  deriving DecidableEq, Repr

/-- The outcome of one request (`BuildResult`); a nil slice and an empty slice are both
`[]`. -/
structure BuildResult where
  AncillaryNodes : List Nat
  BuiltFiles : List String
  Err : Option Error
  LogFile : String
  Node : Nat
  Ignored : Bool
  UsedCache : Bool
  WasDelta : Bool
  deriving DecidableEq, Repr

/-- A receive end of a Go channel: the values a receive can take without waiting, oldest
first, and whether the channel has been closed. -/
structure Chan (α : Type) where
  buf : List α
  closed : Bool
  deriving DecidableEq, Repr

/-- A non-waiting receive: the oldest buffered value, else the zero value when the
channel is closed, else `none` (the receive would wait). -/
def Chan.recv {α : Type} (zero : α) (c : Chan α) : Option (α × Chan α) :=
  match c.buf with
  | x :: xs => some (x, { c with buf := xs })
  | [] => if c.closed then some (zero, c) else none

/-- The channel set (`BuildChannels`).  Requests are pointers, so a received request may
be nil (`none`).  `Results` holds the results sent so far, oldest first. -/
structure BuildChannels where
  Requests : Chan (Option BuildRequest)
  PriorityRequests : Chan (Option BuildRequest)
  Results : List BuildResult
  Cancel : Chan Unit
  Done : Chan Unit
  deriving DecidableEq, Repr

/-! ## Request selection -/

/-- The four cases of the innermost, waiting `select` of `selectNextBuildRequest`, in
source order, each with the outcome it produces when it is the one that proceeds. -/
def waitingSelectCases (channels : BuildChannels) :
    List (Option ((Option BuildRequest × Bool) × BuildChannels)) :=
  [ (channels.PriorityRequests.recv none).map
      (fun r => ((r.1, false), { channels with PriorityRequests := r.2 })),
    (channels.Requests.recv none).map
      (fun r => ((r.1, false), { channels with Requests := r.2 })),
    (channels.Cancel.recv ()).map
      (fun r => ((none, true), { channels with Cancel := r.2 })),
    (channels.Done.recv ()).map
      (fun r => ((none, true), { channels with Done := r.2 })) ]

/-- Embedding of `selectNextBuildRequest`: the returned `(req, finish)` and the channels after the
receive; `none` when the innermost `select` has no ready case and the worker waits.
`pick` resolves the choice among several ready cases of the innermost `select`. -/
def selectNextBuildRequest (pick : Nat) (channels : BuildChannels) :
    Option ((Option BuildRequest × Bool) × BuildChannels) :=
  match channels.Cancel.recv () with
  | some (_, c) => some ((none, true), { channels with Cancel := c })
  | none =>
    match channels.PriorityRequests.recv none with
    | some (req, p) => some ((req, false), { channels with PriorityRequests := p })
    | none =>
      let ready := (waitingSelectCases channels).filterMap id
      ready[pick % ready.length]?

/-! ## The world outside the worker -/

/-- Calls that leave the worker, and the worker's own receive, status and publish steps. -/
inductive Event
  | cacheQuery (srpmPath : String)
  | resolveDeps (node : Nat)
  | agentCall (srpmFile logBaseName outArch : String) (runCheck : Bool)
      (dependencies : List String)
  | sleep
  | openLog (logFile : String)
  | copyLog (src dst : String)
  | setStatus (nodes : List Nat) (nodeState : NodeState)
  | receive (req : BuildRequest)
  | publish (res : BuildResult)
  deriving DecidableEq, Repr

/-- Whether an event is an invocation of the build agent. -/
def Event.isAgentCall : Event → Bool
  | .agentCall _ _ _ _ _ => true
  | _ => false

/-- Whether an event is a dependency resolution. -/
def Event.isResolveDeps : Event → Bool
  | .resolveDeps _ => true
  | _ => false

/-- Whether an event is a status propagation. -/
def Event.isSetStatus : Event → Bool
  | .setStatus _ _ => true
  | _ => false

/-- The node store and the record of what the worker has done so far. -/
structure World where
  store : Nat → PkgNode
  trace : List Event

/-- Append one event to the record. -/
def World.emit (w : World) (e : Event) : World :=
  { w with trace := w.trace ++ [e] }

/-- Number of build-agent invocations recorded so far. -/
def World.agentCallCount (w : World) : Nat :=
  w.trace.countP Event.isAgentCall

/-- The build agent (`buildagents.BuildAgent`): the reply `(builtFiles, logFile, err)` of
`BuildPackage`, which may depend on how many invocations came before. -/
structure BuildAgent where
  BuildPackage : Nat → String → String → String → Bool → List String →
    List String × String × Option Error

/-- What the worker uses and the given sources do not define: the `pkggraph.NoRPMPath`
constant, the cache query `pkggraph.IsSRPMPrebuilt` (reply `(valid, existing, missing)`),
the log files (`openLog`: the error of `os.Open`, or else the raw lines of the file in
order, a raw line being the bytes between two newline bytes with a final carriage return
still in place, the unterminated rest of the file counting as the last line when it is
not empty, and a file that cannot be read to its end ending where the read fails),
`file.Copy` and the clock, each a function of the number of agent invocations made so
far. -/
structure Env where
  NoRPMPath : String
  IsSRPMPrebuilt : Nat → String → PkgGraph → (Nat → PkgNode) →
    Bool × List String × List String
  openLog : Nat → String → Except Error (List String)
  copyFile : Nat → String → String → Option Error
  unixMilli : Nat → Int

/-! ## Library functions used by the worker -/

/-- Whether `p` is an initial segment of `l`. -/
def startsWith : List Char → List Char → Bool
  | [], _ => true
  | _ :: _, [] => false
  | a :: p, b :: l => a == b && startsWith p l

/-- Go `strings.Contains` on character lists. -/
def containsChars (sub : List Char) : List Char → Bool
  | [] => sub.isEmpty
  | c :: cs => startsWith sub (c :: cs) || containsChars sub cs

/-- Go `strings.Contains`. -/
def stringsContains (s sub : String) : Bool :=
  containsChars sub.data s.data

/-- Go `strings.TrimSuffix`: `s` without the trailing `suffix`, or `s` itself when it
does not end in `suffix`. -/
def stringsTrimSuffix (s suffix : String) : String :=
  if startsWith suffix.data.reverse s.data.reverse then
    String.mk (s.data.take (s.data.length - suffix.data.length))
  else s

/-- Go `filepath.Base` (Unix): the last element of the path, trailing slashes removed;
`.` for the empty path and `/` for a path of slashes only. -/
def filepathBase (path : String) : String :=
  if path.data = [] then "."
  else
    let stripped := (path.data.reverse.dropWhile (fun c => c == '/'))
    let last := (stripped.takeWhile (fun c => c != '/')).reverse
    if last = [] then "/" else String.mk last

/-- Modelled from the spec: `sliceutils.Contains` with `sliceutils.PackageVerMatch` is
outside the given sources; per the spec, ignore-list membership is an exact match test
against a (name, version) pair. -/
def ignoreListContains (ignoredPackages : List PackageVer) (pkg : PackageVer) : Bool :=
  ignoredPackages.any (fun given => decide (pkg = given))

/-- Modelled from the spec: `retry.Run` is outside the given sources.  Per the spec it
invokes the operation up to `remaining` times, sleeping a fixed delay between attempts,
returns on the first success, and after the last attempt returns the last error.
`last` is the error to return when no attempt is left. -/
def retryLoop {σ : Type} (operation : σ → Option Error × σ) (sleep : σ → σ) :
    Nat → Option Error → σ → Option Error × σ
  | 0, last, s => (last, s)
  | n + 1, _, s =>
    match operation s with
    | (none, s1) => (none, s1)
    | (some e, s1) =>
      if n = 0 then (some e, s1) else retryLoop operation sleep n (some e) (sleep s1)

/-- Modelled from the spec: `retry.Run(function, attempts, sleep)`, see `retryLoop`; a
limit below one leaves the operation uninvoked and the error nil. -/
def retryRun {σ : Type} (operation : σ → Option Error × σ) (sleep : σ → σ)
    (attempts : Int) (s : σ) : Option Error × σ :=
  retryLoop operation sleep attempts.toNat none s

/-! ## Dependency resolution -/

/-- One pass of the inner loop of gonum `BreadthFirst.Walk` over the successors of the dequeued node
`t`: a successor is skipped when the `Traverse` filter rejects the edge or when it was
visited before, else it is marked visited and enqueued.  The pair is `(queue, visited)`. -/
def enqueueSuccessors (traverse : Nat → Nat → Bool) (t : Nat) (succs : List Nat)
    (qv : List Nat × List Nat) : List Nat × List Nat :=
  succs.foldl
    (fun acc n =>
      if !traverse t n then acc
      else if n ∈ acc.2 then acc
      else (acc.1 ++ [n], acc.2 ++ [n]))
    qv

/-- The main loop of gonum `BreadthFirst.Walk` with an `until` callback that never stops
the search: the nodes in the order in which they are dequeued and handed to the callback. -/
def breadthFirstLoop (g : PkgGraph) (traverse : Nat → Nat → Bool) :
    Nat → List Nat → List Nat → List Nat
  | 0, _, _ => []
  | _ + 1, [], _ => []
  | fuel + 1, t :: queue, visited =>
    let qv := enqueueSuccessors traverse t (g.From t) (queue, visited)
    t :: breadthFirstLoop g traverse fuel qv.1 qv.2

/-- Embedding of `search.Walk(pkgGraph, node, ...)`: the start node is enqueued and marked visited,
then the loop runs; every dequeued node is the start node or the target of an edge and is
dequeued once, so `edges.length + 1` rounds exhaust the queue. -/
def breadthFirstWalk (g : PkgGraph) (traverse : Nat → Nat → Bool) (start : Nat) : List Nat :=
  breadthFirstLoop g traverse (g.edges.length + 1) [start] [start]

/-- The walk callback of `getBuildDependencies` folded over the visited nodes: the
artifact paths put into `dependencyLookup`, each kept once, in first-insertion order. -/
def collectDependencies (env : Env) (store : Nat → PkgNode) (node : Nat) :
    List Nat → List String → List String
  | [], lookup => lookup
  | n :: rest, lookup =>
    let rpmPath := (store n).RpmPath
    if rpmPath = "" ∨ rpmPath = env.NoRPMPath ∨ rpmPath = (store node).RpmPath then
      collectDependencies env store node rest lookup
    else if rpmPath ∈ lookup then
      collectDependencies env store node rest lookup
    else
      collectDependencies env store node rest (lookup ++ [rpmPath])

/-- Embedding of `getBuildDependencies`: breadth-first walk from `node` that does not follow an edge
into a `TypeLocalBuild` node, collecting artifact paths.  `sliceutils.SetToSlice` returns
the keys of the map in an unspecified order; here it is first-insertion order. -/
def getBuildDependencies (env : Env) (node : Nat) (pkgGraph : PkgGraph)
    (store : Nat → PkgNode) : List String :=
  let traverse := fun (_ : Nat) (toNode : Nat) => decide ((store toNode).Type_ ≠ NodeType.TypeLocalBuild)
  collectDependencies env store node (breadthFirstWalk pkgGraph traverse node) []

/-! ## Check-section parsing -/

/-- Go `bufio.MaxScanTokenSize`, the size beyond which the buffer of a `bufio.Scanner`
does not grow. -/
def maxScanTokenSize : Nat := 64 * 1024

/-- Go `bufio` `dropCR`: the line without one final carriage return. -/
def dropCR (line : String) : String :=
  if line.data.getLast? = some (Char.ofNat 13) then String.mk line.data.dropLast else line

/-- The values of `scanner.Text()` over the successful calls of `scanner.Scan()`, for a
`bufio.Scanner` with the default split function `ScanLines` on a file with the raw lines
`lines`: each raw line without its final carriage return, up to the first raw line of
`maxScanTokenSize` bytes or more.  Such a line fills the buffer before its newline is
found, `Scan` returns false with the error `ErrTooLong`, and the lines after it are never
read.  Sizes are those of the UTF-8 encoding. -/
def scannerLines (lines : List String) : List String :=
  (lines.takeWhile (fun line => decide (line.utf8ByteSize < maxScanTokenSize))).map dropCR

/-- The body of the loop of `parseCheckSection` over the lines that the scanner yields;
when they are used up `scanner.Scan()` is false and the function returns its nil error,
`scanner.Err()` not being looked at.  `t` is the number of agent invocations so far. -/
def scanCheckSection (env : Env) (t : Nat) (logFile : String) :
    List String → World → Option Error × World
  | [], w => (none, w)
  | currLine :: rest, w =>
    if stringsContains currLine "CHECK DONE" then
      if stringsContains currLine "EXIT STATUS 0" then (none, w)
      else
        let failedLogFile := stringsTrimSuffix logFile ".test.log"
        let failedLogFile := failedLogFile ++ "-FAILED_TEST-" ++ toString (env.unixMilli t) ++ ".log"
        let w1 := w.emit (Event.copyLog logFile failedLogFile)
        match env.copyFile t logFile failedLogFile with
        | some e => (some e, w1)
        | none => (some (Error.testFailed currLine), w1)
    else scanCheckSection env t logFile rest w

/-- Embedding of `parseCheckSection`: the error of opening the log, else the verdict of
the loop over the lines that the scanner yields. -/
def parseCheckSection (env : Env) (logFile : String) (w : World) : Option Error × World :=
  let w1 := w.emit (Event.openLog logFile)
  match env.openLog w.agentCallCount logFile with
  | .error e => (some e, w1)
  | .ok lines => scanCheckSection env w.agentCallCount logFile (scannerLines lines) w1

/-! ## Agent invocation under the retry policy -/

/-- One invocation of `agent.BuildPackage`, recorded in the trace. -/
def callBuildPackage (agent : BuildAgent) (srpmFile logBaseName outArch : String)
    (runCheck : Bool) (dependencies : List String) (w : World) :
    (List String × String × Option Error) × World :=
  (agent.BuildPackage w.agentCallCount srpmFile logBaseName outArch runCheck dependencies,
   w.emit (Event.agentCall srpmFile logBaseName outArch runCheck dependencies))

/-- The variables captured by the closure of `buildSRPMFile`. -/
structure BuildVars where
  builtFiles : List String
  logFile : String
  world : World

/-- Embedding of `buildSRPMFile`: returns `(builtFiles, logFile, err)`. -/
def buildSRPMFile (agent : BuildAgent) (buildAttempts : Int) (srpmFile outArch : String)
    (dependencies : List String) (w : World) :
    (List String × String × Option Error) × World :=
  let runCheck := false
  let logBaseName := filepathBase srpmFile ++ ".log"
  let operation := fun (v : BuildVars) =>
    let r := callBuildPackage agent srpmFile logBaseName outArch runCheck dependencies v.world
    (r.1.2.2, ({ builtFiles := r.1.1, logFile := r.1.2.1, world := r.2 } : BuildVars))
  let out := retryRun operation (fun v => { v with world := v.world.emit Event.sleep })
    buildAttempts { builtFiles := [], logFile := "", world := w }
  ((out.2.builtFiles, out.2.logFile, out.1), out.2.world)

/-- The variables captured by the closure of `testSRPMFile`. -/
structure TestVars where
  logFile : String
  checkFailed : Bool
  world : World

/-- Embedding of `testSRPMFile`: returns `(logFile, err)`. -/
def testSRPMFile (env : Env) (agent : BuildAgent) (checkAttempts : Int)
    (srpmFile outArch : String) (dependencies : List String) (w : World) :
    (String × Option Error) × World :=
  let runCheck := true
  let logBaseName := filepathBase srpmFile ++ ".test.log"
  let operation := fun (v : TestVars) =>
    let r := callBuildPackage agent srpmFile logBaseName outArch runCheck dependencies v.world
    match r.1.2.2 with
    | some buildErr => (some buildErr, ({ v with logFile := r.1.2.1, world := r.2 } : TestVars))
    | none =>
      let p := parseCheckSection env r.1.2.1 r.2
      (p.1, ({ logFile := r.1.2.1, checkFailed := p.1.isSome, world := p.2 } : TestVars))
  let out := retryRun operation (fun v => { v with world := v.world.emit Event.sleep })
    checkAttempts { logFile := "", checkFailed := false, world := w }
  let err := if out.1.isSome && out.2.checkFailed then none else out.1
  ((out.2.logFile, err), out.2.world)

/-! ## Status propagation -/

/-- The assignment `node.State = nodeState` through the pointer `node`. -/
def setNodeState (store : Nat → PkgNode) (node : Nat) (nodeState : NodeState) :
    Nat → PkgNode :=
  fun id => if id = node then { store id with State := nodeState } else store id

/-- The loop of `setAncillaryBuildNodesStatus` over the ancillary list. -/
def setAncillaryLoop (nodeState : NodeState) : List Nat → (Nat → PkgNode) → (Nat → PkgNode)
  | [], store => store
  | node :: rest, store =>
    if (store node).Type_ = NodeType.TypeLocalBuild then
      setAncillaryLoop nodeState rest (setNodeState store node nodeState)
    else
      setAncillaryLoop nodeState rest store

/-- Embedding of `setAncillaryBuildNodesStatus`; the call is recorded as one `setStatus` event. -/
def setAncillaryBuildNodesStatus (req : BuildRequest) (nodeState : NodeState) (w : World) :
    World :=
  { store := setAncillaryLoop nodeState req.AncillaryNodes w.store,
    trace := w.trace ++ [Event.setStatus req.AncillaryNodes nodeState] }

/-! ## Node executor -/

/-- The named results of `buildBuildNode`. -/
structure BuildNodeOut where
  usedCache : Bool
  ignored : Bool
  builtFiles : List String
  logFile : String
  err : Option Error
  deriving DecidableEq, Repr

/-- Embedding of `buildBuildNode`. -/
def buildBuildNode (env : Env) (node : Nat) (pkgGraph : PkgGraph) (agent : BuildAgent)
    (canUseCache : Bool) (buildAttempts : Int) (ignoredPackages : List PackageVer)
    (w : World) : BuildNodeOut × World :=
  let n := w.store node
  let q := env.IsSRPMPrebuilt w.agentCallCount n.SrpmPath pkgGraph w.store
  let w1 := w.emit (Event.cacheQuery n.SrpmPath)
  let usedCache := q.1
  let builtFiles := q.2.1
  let ignored := ignoreListContains ignoredPackages n.VersionedPkg
  if ignored then
    ({ usedCache := usedCache, ignored := ignored, builtFiles := builtFiles,
       logFile := "", err := none }, w1)
  else if canUseCache && usedCache then
    ({ usedCache := usedCache, ignored := ignored, builtFiles := builtFiles,
       logFile := "", err := none }, w1)
  else
    let usedCache := false
    let dependencies := getBuildDependencies env node pkgGraph w1.store
    let w2 := w1.emit (Event.resolveDeps node)
    let r := buildSRPMFile agent buildAttempts n.SrpmPath n.Architecture dependencies w2
    ({ usedCache := usedCache, ignored := ignored, builtFiles := r.1.1,
       logFile := r.1.2.1, err := r.1.2.2 }, r.2)

/-- The named results of `buildTestNode`. -/
structure TestNodeOut where
  ignored : Bool
  logFile : String
  err : Option Error
  deriving DecidableEq, Repr

/-- Embedding of `buildTestNode`. -/
def buildTestNode (env : Env) (node : Nat) (pkgGraph : PkgGraph) (agent : BuildAgent)
    (canUseCache : Bool) (checkAttempts : Int) (ignoredPackages : List PackageVer)
    (w : World) : TestNodeOut × World :=
  let n := w.store node
  let ignored := ignoreListContains ignoredPackages n.VersionedPkg
  if ignored then
    ({ ignored := ignored, logFile := "", err := none }, w)
  else if canUseCache then
    ({ ignored := ignored, logFile := "", err := none }, w)
  else
    let dependencies := getBuildDependencies env node pkgGraph w.store
    let w1 := w.emit (Event.resolveDeps node)
    let r := testSRPMFile env agent checkAttempts n.SrpmPath n.Architecture dependencies w1
    ({ ignored := ignored, logFile := r.1.1, err := r.1.2 }, r.2)

/-! ## Worker -/

/-- The body of the loop of `BuildNodeWorker` up to, not including, the send on
`Results`: the result built for `req` and the world after the dispatch on the node type. -/
def processRequest (env : Env) (agent : BuildAgent) (buildAttempts checkAttempts : Int)
    (ignoredPackages : List PackageVer) (req : BuildRequest) (w : World) :
    BuildResult × World :=
  let res : BuildResult :=
    { Node := req.Node, AncillaryNodes := req.AncillaryNodes, WasDelta := req.IsDelta,
      BuiltFiles := [], Err := none, LogFile := "", Ignored := false, UsedCache := false }
  match (w.store req.Node).Type_ with
  | NodeType.TypeLocalBuild =>
    let b := buildBuildNode env req.Node req.PkgGraph agent req.CanUseCache buildAttempts
      ignoredPackages w
    let res := { res with UsedCache := b.1.usedCache, Ignored := b.1.ignored,
                          BuiltFiles := b.1.builtFiles, LogFile := b.1.logFile, Err := b.1.err }
    if res.Err = none then
      (res, setAncillaryBuildNodesStatus req NodeState.StateUpToDate b.2)
    else
      (res, setAncillaryBuildNodesStatus req NodeState.StateBuildError b.2)
  | NodeType.TypeTest =>
    let t := buildTestNode env req.Node req.PkgGraph agent req.CanUseCache checkAttempts
      ignoredPackages w
    let res := { res with Ignored := t.1.ignored, LogFile := t.1.logFile, Err := t.1.err }
    if res.Err = none then
      (res, setAncillaryBuildNodesStatus req NodeState.StateUpToDate t.2)
    else
      (res, setAncillaryBuildNodesStatus req NodeState.StateBuildError t.2)
  | NodeType.TypeLocalRun | NodeType.TypeGoal | NodeType.TypeRemoteRun
  | NodeType.TypePureMeta | NodeType.TypePreBuilt =>
    ({ res with UsedCache := req.CanUseCache }, w)
  | NodeType.TypeUnknown | NodeType.TypeOther _ =>
    ({ res with Err := some (Error.invalidNodeType (w.store req.Node).Type_ req.Node) }, w)

/-- One round of the loop of `BuildNodeWorker` after the selection returned the non-nil
request `req`: the dispatch on the node type, then the send `channels.Results <- res`. -/
def workerBody (env : Env) (agent : BuildAgent) (buildAttempts checkAttempts : Int)
    (ignoredPackages : List PackageVer) (req : BuildRequest) (channels : BuildChannels)
    (w : World) : BuildChannels × World :=
  let w1 := w.emit (Event.receive req)
  let r := processRequest env agent buildAttempts checkAttempts ignoredPackages req w1
  ({ channels with Results := channels.Results ++ [r.1] }, r.2.emit (Event.publish r.1))

/-- How a run of the worker ends: the loop condition failed (`stopped`), the selection
waits for a channel to become ready (`waiting`), or the round budget of the model was
used up (`outOfRounds`, shown not to happen). -/
inductive WorkerExit
  | stopped
  | waiting
  | outOfRounds
  deriving DecidableEq, Repr

/-- The loop of `BuildNodeWorker`; `picks i` resolves the selection of round `i`. -/
def workerLoop (env : Env) (agent : BuildAgent) (buildAttempts checkAttempts : Int)
    (ignoredPackages : List PackageVer) :
    Nat → (Nat → Nat) → BuildChannels → World → WorkerExit × BuildChannels × World
  | 0, _, channels, w => (WorkerExit.outOfRounds, channels, w)
  | rounds + 1, picks, channels, w =>
    match selectNextBuildRequest (picks 0) channels with
    | none => (WorkerExit.waiting, channels, w)
    | some ((some req, false), channels1) =>
      let b := workerBody env agent buildAttempts checkAttempts ignoredPackages req channels1 w
      workerLoop env agent buildAttempts checkAttempts ignoredPackages rounds
        (fun i => picks (i + 1)) b.1 b.2
    | some (_, channels1) => (WorkerExit.stopped, channels1, w)

/-- Embedding of `BuildNodeWorker`, run on the channel contents at hand: every round but the last
takes one buffered request, so one round more than the buffered requests is enough. -/
def BuildNodeWorker (env : Env) (picks : Nat → Nat) (channels : BuildChannels)
    (agent : BuildAgent) (buildAttempts checkAttempts : Int)
    (ignoredPackages : List PackageVer) (w : World) : WorkerExit × BuildChannels × World :=
  workerLoop env agent buildAttempts checkAttempts ignoredPackages
    (channels.PriorityRequests.buf.length + channels.Requests.buf.length + 1)
    picks channels w

/-! ## Observations used in the statements -/

/-- Whether a receive on the channel can proceed at once: a value is buffered or the
channel is closed. -/
def Chan.ready {α : Type} (c : Chan α) : Bool :=
  !c.buf.isEmpty || c.closed

/-- The requests received by the worker, in order, as recorded in a trace. -/
def receivedRequests (trace : List Event) : List BuildRequest :=
  trace.filterMap (fun e => match e with
    | Event.receive req => some req
    | _ => none)

/-- Number of non-nil requests buffered on the two inbound streams. -/
def BuildChannels.pendingRequests (channels : BuildChannels) : Nat :=
  channels.PriorityRequests.buf.countP Option.isSome +
    channels.Requests.buf.countP Option.isSome

/-- Events that the node executor (`buildBuildNode`, `buildTestNode` and what they call)
can produce. -/
def Event.isExecutorEvent : Event → Bool
  | .cacheQuery _ => true
  | .resolveDeps _ => true
  | .agentCall _ _ _ _ _ => true
  | .sleep => true
  | .openLog _ => true
  | .copyLog _ _ => true
  | _ => false

/-- The executor's footprint between two worlds: the node store is the same and the trace
grew by executor events only. -/
def World.executorStep (w w1 : World) : Prop :=
  w1.store = w.store ∧
    ∃ ex, w1.trace = w.trace ++ ex ∧ ∀ e ∈ ex, Event.isExecutorEvent e = true

/-- The five structural node types for which the worker runs nothing. -/
def NodeType.isPassThrough : NodeType → Bool
  | .TypeLocalRun => true
  | .TypeGoal => true
  | .TypeRemoteRun => true
  | .TypePureMeta => true
  | .TypePreBuilt => true
  | _ => false

/-- The result the worker starts from for a request, before the dispatch on the node type. -/
def initialResult (req : BuildRequest) : BuildResult :=
  { Node := req.Node, AncillaryNodes := req.AncillaryNodes, WasDelta := req.IsDelta,
    BuiltFiles := [], Err := none, LogFile := "", Ignored := false, UsedCache := false }

/-- The state the worker propagates for a result: `StateUpToDate` when the error is nil,
`StateBuildError` otherwise. -/
def outcomeState (err : Option Error) : NodeState :=
  if err = none then NodeState.StateUpToDate else NodeState.StateBuildError

/-- The non-nil requests buffered on the two inbound streams, those of the priority stream
first. -/
def BuildChannels.bufferedRequests (channels : BuildChannels) : List BuildRequest :=
  (channels.PriorityRequests.buf ++ channels.Requests.buf).filterMap id

/-- The non-nil requests that `selectNextBuildRequest` delivers in the successive rounds
of a run, in order, up to the first selection that stops the loop or waits; `picks i`
resolves the selection of round `i`.  Only the selection is run here, each time on the
channels that the selection before left behind: no request is executed and `Results`,
which the selection does not read, stays as it is. -/
def deliveredRequests : Nat → (Nat → Nat) → BuildChannels → List BuildRequest
  | 0, _, _ => []
  | rounds + 1, picks, channels =>
    match selectNextBuildRequest (picks 0) channels with
    | some ((some req, false), channels1) =>
      req :: deliveredRequests rounds (fun i => picks (i + 1)) channels1
    | _ => []

/-! ## Concrete inputs -/

/-- A request for node `node` with no ancillary nodes that may use the cache. -/
def exampleRequest (node : Nat) : BuildRequest :=
  { Node := node, PkgGraph := { edges := [] }, AncillaryNodes := [], CanUseCache := true,
    IsDelta := false }

/-- Three queued requests with the cancel channel closed. -/
def cancelledChannels : BuildChannels :=
  { Requests := { buf := [some (exampleRequest 1), some (exampleRequest 2)], closed := false },
    PriorityRequests := { buf := [some (exampleRequest 0)], closed := false },
    Results := [],
    Cancel := { buf := [], closed := true },
    Done := { buf := [], closed := false } }

/-- One priority and one normal request queued; cancel and done are silent. -/
def priorityAndNormalChannels : BuildChannels :=
  { Requests := { buf := [some (exampleRequest 1)], closed := false },
    PriorityRequests := { buf := [some (exampleRequest 0)], closed := false },
    Results := [],
    Cancel := { buf := [], closed := false },
    Done := { buf := [], closed := false } }

/-- One queued normal request with the done channel closed and no cancellation. -/
def doneWithPendingChannels : BuildChannels :=
  { Requests := { buf := [some (exampleRequest 1)], closed := false },
    PriorityRequests := { buf := [], closed := false },
    Results := [],
    Cancel := { buf := [], closed := false },
    Done := { buf := [], closed := true } }

/-- A node of the given type in an upstream state, with fixed paths. -/
def exampleNode (t : NodeType) : PkgNode :=
  { VersionedPkg := { Name := "pkg", Version := "1.0" }, State := NodeState.StateOther 0,
    Type_ := t, SrpmPath := "/SRPMS/pkg.src.rpm", RpmPath := "/RPMS/pkg.rpm",
    Architecture := "x86_64" }

/-- A store with a build node (0), a run node (1), a second build node (2), a test node
(3) and nodes of unknown type elsewhere. -/
def exampleStore : Nat → PkgNode
  | 0 => exampleNode NodeType.TypeLocalBuild
  | 1 => exampleNode NodeType.TypeLocalRun
  | 2 => exampleNode NodeType.TypeLocalBuild
  | 3 => exampleNode NodeType.TypeTest
  | _ => exampleNode NodeType.TypeUnknown

/-- The example store with nothing recorded yet. -/
def exampleWorld : World :=
  { store := exampleStore, trace := [] }

/-- An environment with no valid cache, unreadable logs, a working copy and a stopped clock. -/
def exampleEnv : Env :=
  { NoRPMPath := "<NO_RPM_PATH>",
    IsSRPMPrebuilt := fun _ _ _ _ => (false, [], []),
    openLog := fun _ _ => Except.error (Error.external "no log"),
    copyFile := fun _ _ _ => none,
    unixMilli := fun _ => 0 }

/-- An agent whose every invocation succeeds with one artifact. -/
def exampleAgent : BuildAgent :=
  { BuildPackage := fun _ _ logBaseName _ _ _ => (["/RPMS/pkg.rpm"], logBaseName, none) }

/-- A request for the test node 3 that lists the test node itself and the build node 0 as
ancillary nodes and may use the cache. -/
def exampleTestRequest : BuildRequest :=
  { Node := 3, PkgGraph := { edges := [] }, AncillaryNodes := [3, 0], CanUseCache := true,
    IsDelta := false }

/-- A request for the build node 0 whose ancillary nodes are the run node 1 and the build
node 2, not the target itself. -/
def exampleBuildRequest : BuildRequest :=
  { Node := 0, PkgGraph := { edges := [] }, AncillaryNodes := [1, 2], CanUseCache := false,
    IsDelta := false }

/-- No channel holds anything. -/
def idleChannels : BuildChannels :=
  { Requests := { buf := [], closed := false },
    PriorityRequests := { buf := [], closed := false },
    Results := [],
    Cancel := { buf := [], closed := false },
    Done := { buf := [], closed := false } }

/-- What a published result must repeat from the request it answers. -/
def BuildResult.answers (res : BuildResult) (req : BuildRequest) : Prop :=
  res.Node = req.Node ∧ res.AncillaryNodes = req.AncillaryNodes ∧ res.WasDelta = req.IsDelta

/-! ## Reference notions for the executor claims -/

/-- The events of `n` attempts of one agent call under the retry policy: the call, then
a sleep and the call again for every further attempt. -/
def attemptEvents (call : Event) : Nat → List Event
  | 0 => []
  | n + 1 => if n = 0 then [call] else call :: Event.sleep :: attemptEvents call n

/-- The closure that `buildSRPMFile` hands to `retry.Run`: one agent invocation that
stores its artifacts and log file in the captured variables and returns its error. -/
def buildOperation (agent : BuildAgent) (srpmFile outArch : String)
    (dependencies : List String) (v : BuildVars) : Option Error × BuildVars :=
  let r := callBuildPackage agent srpmFile (filepathBase srpmFile ++ ".log") outArch false
    dependencies v.world
  (r.1.2.2, { builtFiles := r.1.1, logFile := r.1.2.1, world := r.2 })

/-- The pause between two attempts, on the captured variables of `buildSRPMFile`. -/
def buildSleep (v : BuildVars) : BuildVars :=
  { v with world := v.world.emit Event.sleep }

/-- An environment whose cache query reports a valid cache with one existing artifact. -/
def cachedEnv : Env :=
  { NoRPMPath := "<NO_RPM_PATH>",
    IsSRPMPrebuilt := fun _ _ _ _ => (true, ["/RPMS/pkg.rpm"], []),
    openLog := fun _ _ => Except.error (Error.external "no log"),
    copyFile := fun _ _ _ => none,
    unixMilli := fun _ => 0 }

/-- An agent that fails on its first two invocations and succeeds from the third on. -/
def flakyAgent : BuildAgent :=
  { BuildPackage := fun n _ logBaseName _ _ _ =>
      if n < 2 then ([], logBaseName, some (Error.external "transient"))
      else (["/RPMS/pkg.rpm"], logBaseName, none) }

/-- An agent whose every invocation fails. -/
def brokenAgent : BuildAgent :=
  { BuildPackage := fun _ _ logBaseName _ _ _ =>
      ([], logBaseName, some (Error.external "broken")) }

/-- The result that the worker fills in from the results of `buildBuildNode`. -/
def buildResultOf (req : BuildRequest) (b : BuildNodeOut) : BuildResult :=
  { initialResult req with
    UsedCache := b.usedCache, Ignored := b.ignored, BuiltFiles := b.builtFiles,
    LogFile := b.logFile, Err := b.err }

/-- The result that the worker fills in from the results of `buildTestNode`. -/
def testResultOf (req : BuildRequest) (t : TestNodeOut) : BuildResult :=
  { initialResult req with Ignored := t.ignored, LogFile := t.logFile, Err := t.err }

/-- A request for the build node 0 that lists the target and the build node 2 as ancillary
nodes and may not use the cache. -/
def rebuildRequest : BuildRequest :=
  { Node := 0, PkgGraph := { edges := [] }, AncillaryNodes := [0, 2], CanUseCache := false,
    IsDelta := false }

/-- The closure that `testSRPMFile` hands to `retry.Run`: one agent invocation in test
mode; when it succeeds, the check section of its log is parsed and `checkFailed` records
whether the parse returned an error. -/
def testOperation (env : Env) (agent : BuildAgent) (srpmFile outArch : String)
    (dependencies : List String) (v : TestVars) : Option Error × TestVars :=
  let r := callBuildPackage agent srpmFile (filepathBase srpmFile ++ ".test.log") outArch true
    dependencies v.world
  match r.1.2.2 with
  | some buildErr => (some buildErr, { v with logFile := r.1.2.1, world := r.2 })
  | none =>
    let p := parseCheckSection env r.1.2.1 r.2
    (p.1, { logFile := r.1.2.1, checkFailed := p.1.isSome, world := p.2 })

/-- The pause between two attempts, on the captured variables of `testSRPMFile`. -/
def testSleep (v : TestVars) : TestVars :=
  { v with world := v.world.emit Event.sleep }

/-- Whether a log line carries the check-section marker. -/
def isCheckDone (line : String) : Bool :=
  stringsContains line "CHECK DONE"

/-- Whether a log line reports exit status zero. -/
def isExitStatusZero (line : String) : Bool :=
  stringsContains line "EXIT STATUS 0"

/-- The path under which `parseCheckSection` archives the log of a failed test. -/
def failedLogName (env : Env) (t : Nat) (logFile : String) : String :=
  stringsTrimSuffix logFile ".test.log" ++ "-FAILED_TEST-" ++ toString (env.unixMilli t) ++ ".log"

/-- An environment in which every log is readable and its check section reports exit
status one. -/
def failingCheckEnv : Env :=
  { NoRPMPath := "<NO_RPM_PATH>",
    IsSRPMPrebuilt := fun _ _ _ _ => (false, [], []),
    openLog := fun _ _ => Except.ok ["building", "CHECK DONE EXIT STATUS 1", "CHECK DONE EXIT STATUS 0"],
    copyFile := fun _ _ _ => none,
    unixMilli := fun _ => 0 }

/-- A line of `maxScanTokenSize` bytes, each the letter x. -/
def longLine : String :=
  String.mk (List.replicate maxScanTokenSize (Char.ofNat 120))

/-- An environment whose logs all open and hold a line of `maxScanTokenSize` bytes before
a marker line that reports exit status one. -/
def longLineEnv : Env :=
  { NoRPMPath := "<NO_RPM_PATH>",
    IsSRPMPrebuilt := fun _ _ _ _ => (false, [], []),
    openLog := fun _ _ => Except.ok [longLine, "CHECK DONE EXIT STATUS 1"],
    copyFile := fun _ _ _ => none,
    unixMilli := fun _ => 0 }

/-- A request for the test node 3 that may not use the cache. -/
def testRunRequest : BuildRequest :=
  { Node := 3, PkgGraph := { edges := [] }, AncillaryNodes := [0], CanUseCache := false,
    IsDelta := false }

/-- An edge that the traversal of `getBuildDependencies` may follow: an edge of the graph
whose target node is not of type LocalBuild. -/
def followsEdge (store : Nat → PkgNode) (g : PkgGraph) (a b : Nat) : Prop :=
  (a, b) ∈ g.edges ∧ (store b).Type_ ≠ NodeType.TypeLocalBuild

/-- Reference reachability, in the spec's words: `n` is the requesting node or is reachable
from it along a path of edges none of whose target nodes has type LocalBuild. -/
def reachesAvoidingBuildNodes (store : Nat → PkgNode) (g : PkgGraph) (node n : Nat) : Prop :=
  Relation.ReflTransGen (followsEdge store g) node n

/-- Reference definition of the dependency set, in the spec's words: the artifact paths of
the nodes reached, except the empty path, the `NoRPMPath` sentinel and the requesting
node's own artifact path. -/
def referenceDependencies (env : Env) (store : Nat → PkgNode) (g : PkgGraph) (node : Nat) :
    Set String :=
  { p | ∃ n, reachesAvoidingBuildNodes store g node n ∧ (store n).RpmPath = p ∧
      p ≠ "" ∧ p ≠ env.NoRPMPath ∧ p ≠ (store node).RpmPath }

/-- The `Traverse` filter of `getBuildDependencies`: an edge is followed unless its target
is a LocalBuild node. -/
def traverseFilter (store : Nat → PkgNode) : Nat → Nat → Bool :=
  fun _ toNode => decide ((store toNode).Type_ ≠ NodeType.TypeLocalBuild)

/-- A store for dependency resolution: the build node 0 (`/RPMS/a.rpm`), the build node 1
(`/RPMS/b.rpm`), the run node 2 (`/RPMS/c.rpm`), and nodes without artifact elsewhere. -/
def dependencyStore : Nat → PkgNode
  | 0 => { exampleNode NodeType.TypeLocalBuild with RpmPath := "/RPMS/a.rpm" }
  | 1 => { exampleNode NodeType.TypeLocalBuild with RpmPath := "/RPMS/b.rpm" }
  | 2 => { exampleNode NodeType.TypeLocalRun with RpmPath := "/RPMS/c.rpm" }
  | _ => { exampleNode NodeType.TypeUnknown with RpmPath := "" }

/-- Node 0 depends on the build node 1, which depends on the run node 2. -/
def dependencyGraph : PkgGraph :=
  { edges := [(0, 1), (1, 2)] }

/-- An environment that agrees with `cachedEnv` except that the cache query also reports a
missing artifact. -/
def partialCacheEnv : Env :=
  { NoRPMPath := "<NO_RPM_PATH>",
    IsSRPMPrebuilt := fun _ _ _ _ => (true, ["/RPMS/pkg.rpm"], ["/RPMS/pkg-devel.rpm"]),
    openLog := fun _ _ => Except.error (Error.external "no log"),
    copyFile := fun _ _ _ => none,
    unixMilli := fun _ => 0 }

/-- A request for the test node 3 that may use the cache, with the build node 0 as its
only ancillary node. -/
def skippedTestRequest : BuildRequest :=
  { Node := 3, PkgGraph := { edges := [] }, AncillaryNodes := [0], CanUseCache := true,
    IsDelta := false }

/-- An agent whose first invocation succeeds and whose later invocations fail. -/
def onceWorkingAgent : BuildAgent :=
  { BuildPackage := fun n _ logBaseName _ _ _ =>
      if n = 0 then (["/RPMS/pkg.rpm"], logBaseName, none)
      else ([], logBaseName, some (Error.external "agent down")) }

/-! # Theorems -/

/-! ## Request selection: proofs -/

lemma Chan.recv_of_ready {α : Type} (zero : α) (c : Chan α) (h : c.ready = true) :
    ∃ x, c.recv zero = some (x, { c with buf := c.buf.tail }) := by
  unfold Chan.recv
  cases hb : c.buf with
  | nil =>
    have hc : c.closed = true := by simpa [Chan.ready, hb] using h
    refine ⟨zero, ?_⟩
    cases c
    simp_all
  | cons x xs => exact ⟨x, by simp⟩

lemma Chan.recv_of_not_ready {α : Type} (zero : α) (c : Chan α) (h : c.ready = false) :
    c.recv zero = none := by
  unfold Chan.recv
  cases hb : c.buf with
  | nil =>
    have hc : c.closed = false := by simpa [Chan.ready, hb] using h
    simp [hc]
  | cons x xs => simp [Chan.ready, hb] at h

lemma Chan.recv_cons {α : Type} (zero : α) (c : Chan α) (x : α) (xs : List α)
    (h : c.buf = x :: xs) : c.recv zero = some (x, { c with buf := xs }) := by
  unfold Chan.recv
  simp [h]

/-- C2. Cancellation takes absolute precedence: when the cancel signal is observable,
`selectNextBuildRequest` returns `(nil, true)` and takes nothing from either inbound
stream (only the cancel channel is received from), whatever is pending; and a worker
started in such a state stops at once, publishing no result, running nothing and leaving
every queued request in place. -/
theorem C2_cancel_takes_precedence (channels : BuildChannels)
    (hcancel : channels.Cancel.ready = true) :
    (∀ pick, selectNextBuildRequest pick channels =
      some ((none, true),
        { channels with Cancel := { channels.Cancel with buf := channels.Cancel.buf.tail } })) ∧
    (∀ env picks agent buildAttempts checkAttempts ignoredPackages w,
      BuildNodeWorker env picks channels agent buildAttempts checkAttempts ignoredPackages w =
        (WorkerExit.stopped,
          { channels with Cancel := { channels.Cancel with buf := channels.Cancel.buf.tail } },
          w)) := by
  obtain ⟨x, hx⟩ := Chan.recv_of_ready () channels.Cancel hcancel
  have hsel : ∀ pick, selectNextBuildRequest pick channels =
      some ((none, true),
        { channels with Cancel := { channels.Cancel with buf := channels.Cancel.buf.tail } }) := by
    intro pick
    simp [selectNextBuildRequest, hx]
  refine ⟨hsel, ?_⟩
  intro env picks agent buildAttempts checkAttempts ignoredPackages w
  simp [BuildNodeWorker, workerLoop, hsel]

/-- C2 at a concrete input: three requests are queued and the cancel channel is closed. -/
theorem C2_cancel_takes_precedence_witness :
    selectNextBuildRequest 0 cancelledChannels = some ((none, true), cancelledChannels) :=
  (C2_cancel_takes_precedence cancelledChannels (by decide)).1 0

lemma selectNextBuildRequest_priority_head (pick : Nat) (channels : BuildChannels)
    (req : Option BuildRequest) (rest : List (Option BuildRequest))
    (hcancel : channels.Cancel.ready = false)
    (hprio : channels.PriorityRequests.buf = req :: rest) :
    selectNextBuildRequest pick channels =
      some ((req, false),
        { channels with PriorityRequests := { channels.PriorityRequests with buf := rest } }) := by
  simp [selectNextBuildRequest, Chan.recv_of_not_ready () _ hcancel,
    Chan.recv_cons none _ req rest hprio]

/-- C3. Priority is preferred over normal: when cancel is not observable and the priority
stream holds a request, `selectNextBuildRequest` returns the head of the priority stream
with `finish = false`, whatever the pick and whatever the normal stream holds; the
channels afterwards differ only in that the head left the priority stream, so the normal
stream is untouched and no normal request is returned. -/
theorem C3_priority_preferred (pick : Nat) (channels : BuildChannels)
    (req : Option BuildRequest) (rest : List (Option BuildRequest))
    (hcancel : channels.Cancel.ready = false)
    (hprio : channels.PriorityRequests.buf = req :: rest) :
    selectNextBuildRequest pick channels =
      some ((req, false),
        { channels with PriorityRequests := { channels.PriorityRequests with buf := rest } }) :=
  selectNextBuildRequest_priority_head pick channels req rest hcancel hprio

/-- C3 at a concrete input: a priority request and a normal request are queued, cancel is
silent; the priority request is returned and the normal one stays queued. -/
theorem C3_priority_preferred_witness :
    selectNextBuildRequest 1 priorityAndNormalChannels =
      some ((some (exampleRequest 0), false),
        { priorityAndNormalChannels with
          PriorityRequests := { priorityAndNormalChannels.PriorityRequests with buf := [] } }) :=
  C3_priority_preferred 1 priorityAndNormalChannels (some (exampleRequest 0)) []
    (by decide) (by decide)

/-- C4 as stated fails: cancel is silent, a normal request is pending, the done channel is
closed and the waiting `select` picks its done case; the function returns `(nil, true)`
and the request stays queued. -/
theorem C4_counterexample :
    doneWithPendingChannels.Cancel.ready = false ∧
    doneWithPendingChannels.Requests.buf = [some (exampleRequest 1)] ∧
    selectNextBuildRequest 1 doneWithPendingChannels =
      some ((none, true), doneWithPendingChannels) := by
  decide

/-- C4, amended. With cancel silent and a request pending on either inbound stream the
selection returns without waiting; a pending priority request is always returned with
`finish = false`; `finish = true` is returned only when the priority stream is not ready
and the done signal is observable, and then nothing but the done channel is received
from; with the priority stream not ready and `finish = false`, the head of the normal
stream is returned. -/
theorem C4_done_only_without_priority (pick : Nat) (channels : BuildChannels)
    (hcancel : channels.Cancel.ready = false)
    (hpending : channels.PriorityRequests.buf ≠ [] ∨ channels.Requests.buf ≠ []) :
    ∃ req finish channels1,
      selectNextBuildRequest pick channels = some ((req, finish), channels1) ∧
      (channels.PriorityRequests.buf ≠ [] →
        finish = false ∧ channels.PriorityRequests.buf = req :: channels1.PriorityRequests.buf) ∧
      (finish = true →
        req = none ∧ channels.PriorityRequests.ready = false ∧ channels.Done.ready = true ∧
        channels1 =
          { channels with Done := { channels.Done with buf := channels.Done.buf.tail } }) ∧
      (finish = false → channels.PriorityRequests.ready = false →
        channels.Requests.buf = req :: channels1.Requests.buf ∧
        channels1.PriorityRequests = channels.PriorityRequests) := by
  have hc := Chan.recv_of_not_ready () _ hcancel
  cases hp : channels.PriorityRequests.buf with
  | cons x xs =>
    refine ⟨x, false, _, selectNextBuildRequest_priority_head pick channels x xs hcancel hp,
      ?_, ?_, ?_⟩
    · intro _; simp
    · intro h; simp at h
    · intro _ h; simp [Chan.ready, hp] at h
  | nil =>
    have hreq : channels.Requests.buf ≠ [] := by
      rcases hpending with h | h
      · exact absurd hp h
      · exact h
    cases hpc : channels.PriorityRequests.closed with
    | true =>
      have hpr : channels.PriorityRequests.recv none = some (none, channels.PriorityRequests) := by
        simp [Chan.recv, hp, hpc]
      refine ⟨none, false, channels, ?_, ?_, ?_, ?_⟩
      · simp [selectNextBuildRequest, hc, hpr]
      · intro h; exact absurd rfl h
      · intro h; simp at h
      · intro _ h; simp [Chan.ready, hp, hpc] at h
    | false =>
      have hpn : channels.PriorityRequests.ready = false := by simp [Chan.ready, hp, hpc]
      have hpr := Chan.recv_of_not_ready (none : Option BuildRequest) _ hpn
      obtain ⟨x, xs, hx⟩ := List.exists_cons_of_ne_nil hreq
      have hrr := Chan.recv_cons none _ x xs hx
      cases hd : channels.Done.ready with
      | false =>
        have hdr := Chan.recv_of_not_ready () _ hd
        refine ⟨x, false, { channels with Requests := { channels.Requests with buf := xs } },
          ?_, ?_, ?_, ?_⟩
        · simp [selectNextBuildRequest, waitingSelectCases, hc, hpr, hrr, hdr, Nat.mod_one]
        · intro h; exact absurd rfl h
        · intro h; simp at h
        · intro _ _; simp [hx]
      | true =>
        obtain ⟨u, hdr⟩ := Chan.recv_of_ready () _ hd
        rcases Nat.mod_two_eq_zero_or_one pick with h0 | h1
        · refine ⟨x, false, { channels with Requests := { channels.Requests with buf := xs } },
            ?_, ?_, ?_, ?_⟩
          · simp [selectNextBuildRequest, waitingSelectCases, hc, hpr, hrr, hdr, h0]
          · intro h; exact absurd rfl h
          · intro h; simp at h
          · intro _ _; simp [hx]
        · refine ⟨none, true,
            { channels with Done := { channels.Done with buf := channels.Done.buf.tail } },
            ?_, ?_, ?_, ?_⟩
          · simp [selectNextBuildRequest, waitingSelectCases, hc, hpr, hrr, hdr, h1]
          · intro h; exact absurd rfl h
          · intro _; exact ⟨rfl, hpn, rfl, rfl⟩
          · intro h; simp at h

/-- C4, amended, at a concrete input: the done channel is closed, one normal request is
pending and the pick selects the request case. -/
theorem C4_done_only_without_priority_witness :
    ∃ req finish channels1,
      selectNextBuildRequest 0 doneWithPendingChannels = some ((req, finish), channels1) ∧
      (doneWithPendingChannels.PriorityRequests.buf ≠ [] →
        finish = false ∧
        doneWithPendingChannels.PriorityRequests.buf = req :: channels1.PriorityRequests.buf) ∧
      (finish = true →
        req = none ∧ doneWithPendingChannels.PriorityRequests.ready = false ∧
        doneWithPendingChannels.Done.ready = true ∧
        channels1 =
          { doneWithPendingChannels with
            Done := { doneWithPendingChannels.Done with
                      buf := doneWithPendingChannels.Done.buf.tail } }) ∧
      (finish = false → doneWithPendingChannels.PriorityRequests.ready = false →
        doneWithPendingChannels.Requests.buf = req :: channels1.Requests.buf ∧
        channels1.PriorityRequests = doneWithPendingChannels.PriorityRequests) :=
  C4_done_only_without_priority 0 doneWithPendingChannels (by decide) (Or.inr (by decide))

/-! ## Status propagation: proofs -/

lemma setAncillaryLoop_apply (nodeState : NodeState) (nodes : List Nat)
    (store : Nat → PkgNode) (id : Nat) :
    setAncillaryLoop nodeState nodes store id =
      if id ∈ nodes ∧ (store id).Type_ = NodeType.TypeLocalBuild then
        { store id with State := nodeState }
      else store id := by
  induction nodes generalizing store with
  | nil => simp [setAncillaryLoop]
  | cons a l ih =>
    unfold setAncillaryLoop
    by_cases ht : (store a).Type_ = NodeType.TypeLocalBuild
    · rw [if_pos ht, ih]
      by_cases hid : id = a
      · subst hid
        simp [setNodeState, ht]
      · simp [setNodeState, hid]
    · rw [if_neg ht, ih]
      by_cases hid : id = a
      · subst hid
        simp [ht]
      · simp [hid]

/-! ## The executor's footprint -/

lemma World.executorStep_refl (w : World) : w.executorStep w :=
  ⟨rfl, [], by simp, by simp⟩

lemma World.executorStep_trans {w w1 w2 : World} (h1 : w.executorStep w1)
    (h2 : w1.executorStep w2) : w.executorStep w2 := by
  obtain ⟨hs1, ex1, ht1, he1⟩ := h1
  obtain ⟨hs2, ex2, ht2, he2⟩ := h2
  refine ⟨hs2.trans hs1, ex1 ++ ex2, ?_, ?_⟩
  · rw [ht2, ht1, List.append_assoc]
  · intro e he
    rcases List.mem_append.mp he with h | h
    · exact he1 e h
    · exact he2 e h

lemma World.executorStep_emit (w : World) (e : Event) (h : Event.isExecutorEvent e = true) :
    w.executorStep (w.emit e) :=
  ⟨rfl, [e], rfl, by simpa using h⟩

lemma retryLoop_executorStep {σ : Type} (world : σ → World)
    (operation : σ → Option Error × σ) (sleep : σ → σ)
    (hop : ∀ s, (world s).executorStep (world (operation s).2))
    (hsleep : ∀ s, (world s).executorStep (world (sleep s))) :
    ∀ (n : Nat) (last : Option Error) (s : σ),
      (world s).executorStep (world (retryLoop operation sleep n last s).2) := by
  intro n
  induction n with
  | zero => intro last s; simpa [retryLoop] using World.executorStep_refl _
  | succ n ih =>
    intro last s
    unfold retryLoop
    have h1 := hop s
    rcases hres : operation s with ⟨e, s1⟩
    rw [hres] at h1
    cases e with
    | none => simpa using h1
    | some err =>
      by_cases hn : n = 0
      · simpa [hn] using h1
      · simp only [hn, if_false]
        exact World.executorStep_trans h1
          (World.executorStep_trans (hsleep s1) (ih (some err) (sleep s1)))

lemma scanCheckSection_executorStep (env : Env) (t : Nat) (logFile : String)
    (lines : List String) (w : World) :
    w.executorStep (scanCheckSection env t logFile lines w).2 := by
  induction lines with
  | nil => simpa [scanCheckSection] using World.executorStep_refl w
  | cons l rest ih =>
    unfold scanCheckSection
    split
    · split
      · exact World.executorStep_refl w
      · simp only
        split <;> exact World.executorStep_emit _ _ (by rfl)
    · exact ih

lemma parseCheckSection_executorStep (env : Env) (logFile : String) (w : World) :
    w.executorStep (parseCheckSection env logFile w).2 := by
  unfold parseCheckSection
  simp only
  split
  · exact World.executorStep_emit _ _ (by rfl)
  · exact World.executorStep_trans (World.executorStep_emit _ _ (by rfl))
      (scanCheckSection_executorStep _ _ _ _ _)

lemma callBuildPackage_executorStep (agent : BuildAgent) (srpmFile logBaseName outArch : String)
    (runCheck : Bool) (dependencies : List String) (w : World) :
    w.executorStep
      (callBuildPackage agent srpmFile logBaseName outArch runCheck dependencies w).2 :=
  World.executorStep_emit _ _ (by rfl)

lemma buildSRPMFile_executorStep (agent : BuildAgent) (buildAttempts : Int)
    (srpmFile outArch : String) (dependencies : List String) (w : World) :
    w.executorStep (buildSRPMFile agent buildAttempts srpmFile outArch dependencies w).2 := by
  simp only [buildSRPMFile, retryRun]
  refine retryLoop_executorStep BuildVars.world _ _ ?_ ?_ _ _
    { builtFiles := [], logFile := "", world := w }
  · intro s
    exact callBuildPackage_executorStep agent _ _ _ _ _ s.world
  · intro s
    exact World.executorStep_emit _ _ (by rfl)

lemma testSRPMFile_executorStep (env : Env) (agent : BuildAgent) (checkAttempts : Int)
    (srpmFile outArch : String) (dependencies : List String) (w : World) :
    w.executorStep (testSRPMFile env agent checkAttempts srpmFile outArch dependencies w).2 := by
  simp only [testSRPMFile, retryRun]
  refine retryLoop_executorStep TestVars.world _ _ ?_ ?_ _ _
    { logFile := "", checkFailed := false, world := w }
  · intro s
    split
    · exact callBuildPackage_executorStep agent _ _ _ _ _ s.world
    · exact World.executorStep_trans (callBuildPackage_executorStep agent _ _ _ _ _ s.world)
        (parseCheckSection_executorStep env _ _)
  · intro s
    exact World.executorStep_emit _ _ (by rfl)

lemma buildBuildNode_executorStep (env : Env) (node : Nat) (pkgGraph : PkgGraph)
    (agent : BuildAgent) (canUseCache : Bool) (buildAttempts : Int)
    (ignoredPackages : List PackageVer) (w : World) :
    w.executorStep
      (buildBuildNode env node pkgGraph agent canUseCache buildAttempts ignoredPackages w).2 := by
  unfold buildBuildNode
  simp only
  split
  · exact World.executorStep_emit _ _ (by rfl)
  · split
    · exact World.executorStep_emit _ _ (by rfl)
    · exact World.executorStep_trans (World.executorStep_emit _ _ (by rfl))
        (World.executorStep_trans (World.executorStep_emit _ _ (by rfl))
          (buildSRPMFile_executorStep _ _ _ _ _ _))

lemma buildTestNode_executorStep (env : Env) (node : Nat) (pkgGraph : PkgGraph)
    (agent : BuildAgent) (canUseCache : Bool) (checkAttempts : Int)
    (ignoredPackages : List PackageVer) (w : World) :
    w.executorStep
      (buildTestNode env node pkgGraph agent canUseCache checkAttempts ignoredPackages w).2 := by
  unfold buildTestNode
  simp only
  split
  · exact World.executorStep_refl w
  · split
    · exact World.executorStep_refl w
    · exact World.executorStep_trans (World.executorStep_emit _ _ (by rfl))
        (testSRPMFile_executorStep _ _ _ _ _ _ _)

/-! ## One round of the worker: proofs -/

lemma workerBody_untracked (env : Env) (agent : BuildAgent) (buildAttempts checkAttempts : Int)
    (ignoredPackages : List PackageVer) (req : BuildRequest) (channels : BuildChannels)
    (w : World)
    (hbuild : (w.store req.Node).Type_ ≠ NodeType.TypeLocalBuild)
    (htest : (w.store req.Node).Type_ ≠ NodeType.TypeTest) :
    ∃ res,
      workerBody env agent buildAttempts checkAttempts ignoredPackages req channels w =
        ({ channels with Results := channels.Results ++ [res] },
         { store := w.store,
           trace := w.trace ++ [Event.receive req, Event.publish res] }) ∧
      res = (if (w.store req.Node).Type_.isPassThrough then
              { initialResult req with UsedCache := req.CanUseCache }
             else
              { initialResult req with
                Err := some (Error.invalidNodeType (w.store req.Node).Type_ req.Node) }) := by
  refine ⟨_, ?_, rfl⟩
  unfold workerBody processRequest
  cases ht : (w.store req.Node).Type_ <;>
    simp_all [World.emit, initialResult, NodeType.isPassThrough]

lemma processRequest_tracked (env : Env) (agent : BuildAgent)
    (buildAttempts checkAttempts : Int) (ignoredPackages : List PackageVer)
    (req : BuildRequest) (w : World)
    (htype : (w.store req.Node).Type_ = NodeType.TypeLocalBuild ∨
      (w.store req.Node).Type_ = NodeType.TypeTest) :
    ∃ ex,
      (processRequest env agent buildAttempts checkAttempts ignoredPackages req w).2 =
        { store := setAncillaryLoop
            (outcomeState
              (processRequest env agent buildAttempts checkAttempts ignoredPackages req w).1.Err)
            req.AncillaryNodes w.store,
          trace := w.trace ++ ex ++
            [Event.setStatus req.AncillaryNodes
              (outcomeState
                (processRequest env agent buildAttempts checkAttempts ignoredPackages
                  req w).1.Err)] } ∧
      (∀ e ∈ ex, Event.isExecutorEvent e = true) := by
  rcases htype with ht | ht
  · obtain ⟨hs, ex, htr, hex⟩ := buildBuildNode_executorStep env req.Node req.PkgGraph agent
      req.CanUseCache buildAttempts ignoredPackages w
    refine ⟨ex, ?_, hex⟩
    unfold processRequest
    simp only [ht]
    split <;> rename_i herr <;>
      simp [setAncillaryBuildNodesStatus, hs, htr, herr, outcomeState]
  · obtain ⟨hs, ex, htr, hex⟩ := buildTestNode_executorStep env req.Node req.PkgGraph agent
      req.CanUseCache checkAttempts ignoredPackages w
    refine ⟨ex, ?_, hex⟩
    unfold processRequest
    simp only [ht]
    split <;> rename_i herr <;>
      simp [setAncillaryBuildNodesStatus, hs, htr, herr, outcomeState]

lemma processRequest_echo (env : Env) (agent : BuildAgent)
    (buildAttempts checkAttempts : Int) (ignoredPackages : List PackageVer)
    (req : BuildRequest) (w : World) :
    (processRequest env agent buildAttempts checkAttempts ignoredPackages req w).1.Node =
        req.Node ∧
      (processRequest env agent buildAttempts checkAttempts ignoredPackages
        req w).1.AncillaryNodes = req.AncillaryNodes ∧
      (processRequest env agent buildAttempts checkAttempts ignoredPackages req w).1.WasDelta =
        req.IsDelta := by
  unfold processRequest
  split
  · simp only
    split <;> exact ⟨rfl, rfl, rfl⟩
  · simp only
    split <;> exact ⟨rfl, rfl, rfl⟩
  all_goals exact ⟨rfl, rfl, rfl⟩

lemma workerBody_tracked (env : Env) (agent : BuildAgent) (buildAttempts checkAttempts : Int)
    (ignoredPackages : List PackageVer) (req : BuildRequest) (channels : BuildChannels)
    (w : World)
    (htype : (w.store req.Node).Type_ = NodeType.TypeLocalBuild ∨
      (w.store req.Node).Type_ = NodeType.TypeTest) :
    ∃ res ex,
      workerBody env agent buildAttempts checkAttempts ignoredPackages req channels w =
        ({ channels with Results := channels.Results ++ [res] },
         { store := setAncillaryLoop (outcomeState res.Err) req.AncillaryNodes w.store,
           trace := w.trace ++ [Event.receive req] ++ ex ++
             [Event.setStatus req.AncillaryNodes (outcomeState res.Err), Event.publish res] }) ∧
      (∀ e ∈ ex, Event.isExecutorEvent e = true) := by
  obtain ⟨ex, hp, hex⟩ := processRequest_tracked env agent buildAttempts checkAttempts
    ignoredPackages req (w.emit (Event.receive req)) htype
  refine ⟨(processRequest env agent buildAttempts checkAttempts ignoredPackages req
    (w.emit (Event.receive req))).1, ex, ?_, hex⟩
  unfold workerBody
  simp only [hp]
  simp [World.emit]

/-- C5 as stated fails: node 4 has type Unknown and the request permits cache use, yet the
published result has `UsedCache = false`. -/
theorem C5_counterexample :
    (exampleWorld.store 4).Type_ = NodeType.TypeUnknown ∧
    (exampleRequest 4).CanUseCache = true ∧
    ((workerBody exampleEnv exampleAgent 1 1 [] (exampleRequest 4) idleChannels
        exampleWorld).1.Results.map (fun r => r.UsedCache)) = [false] := by
  decide

/-- C5, amended. For a request whose node type is neither LocalBuild nor Test the worker
publishes one result and changes no node: for the five pass-through types `UsedCache`
equals the request's `CanUseCache`, for Unknown and every other value `UsedCache` is
false. -/
theorem C5_untracked_used_cache (env : Env) (agent : BuildAgent)
    (buildAttempts checkAttempts : Int) (ignoredPackages : List PackageVer)
    (req : BuildRequest) (channels : BuildChannels) (w : World)
    (hbuild : (w.store req.Node).Type_ ≠ NodeType.TypeLocalBuild)
    (htest : (w.store req.Node).Type_ ≠ NodeType.TypeTest) :
    ∃ res,
      (workerBody env agent buildAttempts checkAttempts ignoredPackages req channels
        w).1.Results = channels.Results ++ [res] ∧
      res.UsedCache = ((w.store req.Node).Type_.isPassThrough && req.CanUseCache) ∧
      (workerBody env agent buildAttempts checkAttempts ignoredPackages req channels
        w).2.store = w.store := by
  obtain ⟨res, hbody, hres⟩ := workerBody_untracked env agent buildAttempts checkAttempts
    ignoredPackages req channels w hbuild htest
  refine ⟨res, by rw [hbody], ?_, by rw [hbody]⟩
  rw [hres]
  cases (w.store req.Node).Type_.isPassThrough <;> simp [initialResult]

/-- C5, amended, at a concrete input: the run node 1 with cache use permitted. -/
theorem C5_untracked_used_cache_witness :
    ∃ res,
      (workerBody exampleEnv exampleAgent 1 1 [] (exampleRequest 1) idleChannels
        exampleWorld).1.Results = idleChannels.Results ++ [res] ∧
      res.UsedCache =
        ((exampleWorld.store (exampleRequest 1).Node).Type_.isPassThrough &&
          (exampleRequest 1).CanUseCache) ∧
      (workerBody exampleEnv exampleAgent 1 1 [] (exampleRequest 1) idleChannels
        exampleWorld).2.store = exampleWorld.store :=
  C5_untracked_used_cache exampleEnv exampleAgent 1 1 [] (exampleRequest 1) idleChannels
    exampleWorld (by decide) (by decide)

/-- C6. For a request whose node type is Unknown or any value outside the seven handled
types the worker publishes one result whose error is the invalid-node-type error; for the
five pass-through types the error is nil.  In both cases the round consists of the
receive and the publish only (the build agent is not invoked, nothing is retried) and
the node store is unchanged. -/
theorem C6_invalid_type_is_error (env : Env) (agent : BuildAgent)
    (buildAttempts checkAttempts : Int) (ignoredPackages : List PackageVer)
    (req : BuildRequest) (channels : BuildChannels) (w : World)
    (hbuild : (w.store req.Node).Type_ ≠ NodeType.TypeLocalBuild)
    (htest : (w.store req.Node).Type_ ≠ NodeType.TypeTest) :
    ∃ res,
      workerBody env agent buildAttempts checkAttempts ignoredPackages req channels w =
        ({ channels with Results := channels.Results ++ [res] },
         { store := w.store, trace := w.trace ++ [Event.receive req, Event.publish res] }) ∧
      ((w.store req.Node).Type_.isPassThrough = true → res.Err = none) ∧
      ((w.store req.Node).Type_.isPassThrough = false →
        res.Err = some (Error.invalidNodeType (w.store req.Node).Type_ req.Node)) := by
  obtain ⟨res, hbody, hres⟩ := workerBody_untracked env agent buildAttempts checkAttempts
    ignoredPackages req channels w hbuild htest
  refine ⟨res, hbody, ?_, ?_⟩
  · intro hp
    rw [hres, if_pos hp]
    rfl
  · intro hp
    rw [hres, hp]
    rfl

/-- C6 at a concrete input: node 4 has type Unknown. -/
theorem C6_invalid_type_is_error_witness :
    ∃ res,
      workerBody exampleEnv exampleAgent 1 1 [] (exampleRequest 4) idleChannels exampleWorld =
        ({ idleChannels with Results := idleChannels.Results ++ [res] },
         { store := exampleWorld.store,
           trace := exampleWorld.trace ++
             [Event.receive (exampleRequest 4), Event.publish res] }) ∧
      ((exampleWorld.store (exampleRequest 4).Node).Type_.isPassThrough = true →
        res.Err = none) ∧
      ((exampleWorld.store (exampleRequest 4).Node).Type_.isPassThrough = false →
        res.Err = some (Error.invalidNodeType
          (exampleWorld.store (exampleRequest 4).Node).Type_ (exampleRequest 4).Node)) :=
  C6_invalid_type_is_error exampleEnv exampleAgent 1 1 [] (exampleRequest 4) idleChannels
    exampleWorld (by decide) (by decide)

lemma outcomeState_upToDate_iff (err : Option Error) :
    outcomeState err = NodeState.StateUpToDate ↔ err = none := by
  unfold outcomeState
  by_cases h : err = none <;> simp [h]

lemma outcomeState_buildError_iff (err : Option Error) :
    outcomeState err = NodeState.StateBuildError ↔ err ≠ none := by
  unfold outcomeState
  by_cases h : err = none <;> simp [h]

/-- C7. For a LocalBuild or Test request the worker publishes one result; afterwards
every ancillary node of type LocalBuild is UpToDate exactly when the result's error is
nil and BuildError exactly when it is not.  The round's trace is the receive, then the
executor's events (none of them a status propagation), then one status propagation with
the outcome state, then the publish. -/
theorem C7_ancillary_status_follows_result (env : Env) (agent : BuildAgent)
    (buildAttempts checkAttempts : Int) (ignoredPackages : List PackageVer)
    (req : BuildRequest) (channels : BuildChannels) (w : World)
    (htype : (w.store req.Node).Type_ = NodeType.TypeLocalBuild ∨
      (w.store req.Node).Type_ = NodeType.TypeTest) :
    ∃ res ex,
      (workerBody env agent buildAttempts checkAttempts ignoredPackages req channels
        w).1.Results = channels.Results ++ [res] ∧
      (workerBody env agent buildAttempts checkAttempts ignoredPackages req channels
        w).2.trace = w.trace ++ [Event.receive req] ++ ex ++
          [Event.setStatus req.AncillaryNodes (outcomeState res.Err), Event.publish res] ∧
      (∀ e ∈ ex, Event.isExecutorEvent e = true ∧ Event.isSetStatus e = false) ∧
      (∀ a ∈ req.AncillaryNodes,
        ((workerBody env agent buildAttempts checkAttempts ignoredPackages req channels
          w).2.store a).Type_ = NodeType.TypeLocalBuild →
        ((((workerBody env agent buildAttempts checkAttempts ignoredPackages req channels
            w).2.store a).State = NodeState.StateUpToDate ↔ res.Err = none) ∧
         (((workerBody env agent buildAttempts checkAttempts ignoredPackages req channels
            w).2.store a).State = NodeState.StateBuildError ↔ res.Err ≠ none))) := by
  obtain ⟨res, ex, hbody, hex⟩ := workerBody_tracked env agent buildAttempts checkAttempts
    ignoredPackages req channels w htype
  refine ⟨res, ex, by rw [hbody], by rw [hbody], ?_, ?_⟩
  · intro e he
    have h := hex e he
    refine ⟨h, ?_⟩
    cases e <;> simp_all [Event.isExecutorEvent, Event.isSetStatus]
  · intro a ha
    rw [hbody]
    simp only [setAncillaryLoop_apply]
    by_cases hb : (w.store a).Type_ = NodeType.TypeLocalBuild
    · intro _
      simp only [ha, hb, and_self, if_true]
      exact ⟨outcomeState_upToDate_iff _, outcomeState_buildError_iff _⟩
    · intro h
      simp [hb] at h

/-- C7 at a concrete input: a build request whose ancillary nodes are a run node and a
build node. -/
theorem C7_ancillary_status_follows_result_witness :
    ∃ res ex,
      (workerBody exampleEnv exampleAgent 1 1 [] exampleBuildRequest idleChannels
        exampleWorld).1.Results = idleChannels.Results ++ [res] ∧
      (workerBody exampleEnv exampleAgent 1 1 [] exampleBuildRequest idleChannels
        exampleWorld).2.trace = exampleWorld.trace ++ [Event.receive exampleBuildRequest] ++
          ex ++ [Event.setStatus exampleBuildRequest.AncillaryNodes (outcomeState res.Err),
            Event.publish res] ∧
      (∀ e ∈ ex, Event.isExecutorEvent e = true ∧ Event.isSetStatus e = false) ∧
      (∀ a ∈ exampleBuildRequest.AncillaryNodes,
        ((workerBody exampleEnv exampleAgent 1 1 [] exampleBuildRequest idleChannels
          exampleWorld).2.store a).Type_ = NodeType.TypeLocalBuild →
        ((((workerBody exampleEnv exampleAgent 1 1 [] exampleBuildRequest idleChannels
            exampleWorld).2.store a).State = NodeState.StateUpToDate ↔ res.Err = none) ∧
         (((workerBody exampleEnv exampleAgent 1 1 [] exampleBuildRequest idleChannels
            exampleWorld).2.store a).State = NodeState.StateBuildError ↔ res.Err ≠ none))) :=
  C7_ancillary_status_follows_result exampleEnv exampleAgent 1 1 [] exampleBuildRequest
    idleChannels exampleWorld (Or.inl (by decide))

/-- C8. `setAncillaryBuildNodesStatus req s` leaves every node as it was, except that a
node that is in the ancillary list and has type LocalBuild gets `State = s`: ancillary
nodes of another type and nodes outside the list are untouched, and on every node all
fields other than `State` keep their values.  The request, and with it the ancillary
list, is only read. -/
theorem C8_setAncillary_frame (req : BuildRequest) (s : NodeState) (w : World) (id : Nat) :
    (setAncillaryBuildNodesStatus req s w).store id =
        (if id ∈ req.AncillaryNodes ∧ (w.store id).Type_ = NodeType.TypeLocalBuild then
          { w.store id with State := s }
         else w.store id) ∧
      ((setAncillaryBuildNodesStatus req s w).store id).VersionedPkg =
        (w.store id).VersionedPkg ∧
      ((setAncillaryBuildNodesStatus req s w).store id).Type_ = (w.store id).Type_ ∧
      ((setAncillaryBuildNodesStatus req s w).store id).SrpmPath = (w.store id).SrpmPath ∧
      ((setAncillaryBuildNodesStatus req s w).store id).RpmPath = (w.store id).RpmPath ∧
      ((setAncillaryBuildNodesStatus req s w).store id).Architecture =
        (w.store id).Architecture := by
  have h : (setAncillaryBuildNodesStatus req s w).store id =
      (if id ∈ req.AncillaryNodes ∧ (w.store id).Type_ = NodeType.TypeLocalBuild then
        { w.store id with State := s }
       else w.store id) := by
    simp only [setAncillaryBuildNodesStatus, setAncillaryLoop_apply]
  refine ⟨h, ?_, ?_, ?_, ?_, ?_⟩ <;> (rw [h]; split <;> rfl)

/-- C9 as stated fails: the request targets the test node 3 and even lists it as an
ancillary node; the published result has a nil error, yet the target keeps its upstream
state and is not UpToDate. -/
theorem C9_counterexample :
    (exampleWorld.store exampleTestRequest.Node).Type_ = NodeType.TypeTest ∧
    ((workerBody exampleEnv exampleAgent 1 1 [] exampleTestRequest idleChannels
        exampleWorld).1.Results.map (fun r => r.Err)) = [none] ∧
    ((workerBody exampleEnv exampleAgent 1 1 [] exampleTestRequest idleChannels
        exampleWorld).2.store exampleTestRequest.Node).State = NodeState.StateOther 0 := by
  decide

/-- C9, amended. For a LocalBuild or Test request the worker publishes one result; if the
target is a LocalBuild node that is also in the request's ancillary list, its state
afterwards is BuildError when the result's error is set and UpToDate when it is nil; a
Test target, or a target that is not in the ancillary list, is left exactly as it was. -/
theorem C9_target_state_via_ancillary (env : Env) (agent : BuildAgent)
    (buildAttempts checkAttempts : Int) (ignoredPackages : List PackageVer)
    (req : BuildRequest) (channels : BuildChannels) (w : World)
    (htype : (w.store req.Node).Type_ = NodeType.TypeLocalBuild ∨
      (w.store req.Node).Type_ = NodeType.TypeTest) :
    ∃ res,
      (workerBody env agent buildAttempts checkAttempts ignoredPackages req channels
        w).1.Results = channels.Results ++ [res] ∧
      ((w.store req.Node).Type_ = NodeType.TypeLocalBuild → req.Node ∈ req.AncillaryNodes →
        (res.Err ≠ none →
          ((workerBody env agent buildAttempts checkAttempts ignoredPackages req channels
            w).2.store req.Node).State = NodeState.StateBuildError) ∧
        (res.Err = none →
          ((workerBody env agent buildAttempts checkAttempts ignoredPackages req channels
            w).2.store req.Node).State = NodeState.StateUpToDate)) ∧
      ((w.store req.Node).Type_ = NodeType.TypeTest ∨ req.Node ∉ req.AncillaryNodes →
        (workerBody env agent buildAttempts checkAttempts ignoredPackages req channels
          w).2.store req.Node = w.store req.Node) := by
  obtain ⟨res, ex, hbody, -⟩ := workerBody_tracked env agent buildAttempts checkAttempts
    ignoredPackages req channels w htype
  refine ⟨res, by rw [hbody], ?_, ?_⟩
  · intro hb hmem
    rw [hbody]
    simp only [setAncillaryLoop_apply, hb, hmem, and_self, if_true]
    exact ⟨fun h => (outcomeState_buildError_iff _).mpr h,
      fun h => (outcomeState_upToDate_iff _).mpr h⟩
  · intro h
    rw [hbody]
    simp only [setAncillaryLoop_apply]
    rcases h with h | h
    · simp [h]
    · simp [h]

/-- C9, amended, at a concrete input: the request for the test node 3. -/
theorem C9_target_state_via_ancillary_witness :
    ∃ res,
      (workerBody exampleEnv exampleAgent 1 1 [] exampleTestRequest idleChannels
        exampleWorld).1.Results = idleChannels.Results ++ [res] ∧
      ((exampleWorld.store exampleTestRequest.Node).Type_ = NodeType.TypeLocalBuild →
        exampleTestRequest.Node ∈ exampleTestRequest.AncillaryNodes →
        (res.Err ≠ none →
          ((workerBody exampleEnv exampleAgent 1 1 [] exampleTestRequest idleChannels
            exampleWorld).2.store exampleTestRequest.Node).State =
              NodeState.StateBuildError) ∧
        (res.Err = none →
          ((workerBody exampleEnv exampleAgent 1 1 [] exampleTestRequest idleChannels
            exampleWorld).2.store exampleTestRequest.Node).State =
              NodeState.StateUpToDate)) ∧
      ((exampleWorld.store exampleTestRequest.Node).Type_ = NodeType.TypeTest ∨
          exampleTestRequest.Node ∉ exampleTestRequest.AncillaryNodes →
        (workerBody exampleEnv exampleAgent 1 1 [] exampleTestRequest idleChannels
          exampleWorld).2.store exampleTestRequest.Node =
            exampleWorld.store exampleTestRequest.Node) :=
  C9_target_state_via_ancillary exampleEnv exampleAgent 1 1 [] exampleTestRequest
    idleChannels exampleWorld (Or.inr (by decide))

lemma ignoreListContains_iff (ignoredPackages : List PackageVer) (pkg : PackageVer) :
    ignoreListContains ignoredPackages pkg = true ↔ pkg ∈ ignoredPackages := by
  unfold ignoreListContains
  simp [List.any_eq_true]

/-- C10. Ignore-list short-circuit: `buildBuildNode` and `buildTestNode` return
`ignored = true` exactly when the node's versioned package is on the ignore list; for
such a node, whatever `canUseCache`, the attempt limits, the cache query and the agent
are, the error is nil and the log file empty, the build path records nothing but its
cache query and the test path records nothing, so the build agent is not invoked and the
dependencies are not resolved. -/
theorem C10_ignore_list_short_circuit (env : Env) (node : Nat) (pkgGraph : PkgGraph)
    (agent : BuildAgent) (canUseCache : Bool) (buildAttempts checkAttempts : Int)
    (ignoredPackages : List PackageVer) (w : World) :
    ((buildBuildNode env node pkgGraph agent canUseCache buildAttempts ignoredPackages
        w).1.ignored = true ↔ (w.store node).VersionedPkg ∈ ignoredPackages) ∧
    ((buildTestNode env node pkgGraph agent canUseCache checkAttempts ignoredPackages
        w).1.ignored = true ↔ (w.store node).VersionedPkg ∈ ignoredPackages) ∧
    ((w.store node).VersionedPkg ∈ ignoredPackages →
      (buildBuildNode env node pkgGraph agent canUseCache buildAttempts ignoredPackages
        w).1.err = none ∧
      (buildBuildNode env node pkgGraph agent canUseCache buildAttempts ignoredPackages
        w).1.logFile = "" ∧
      (buildBuildNode env node pkgGraph agent canUseCache buildAttempts ignoredPackages
        w).2.store = w.store ∧
      (buildBuildNode env node pkgGraph agent canUseCache buildAttempts ignoredPackages
        w).2.trace = w.trace ++ [Event.cacheQuery (w.store node).SrpmPath] ∧
      (buildTestNode env node pkgGraph agent canUseCache checkAttempts ignoredPackages w) =
        ({ ignored := true, logFile := "", err := none }, w)) := by
  have hiff := ignoreListContains_iff ignoredPackages (w.store node).VersionedPkg
  refine ⟨?_, ?_, ?_⟩
  · rw [← hiff]
    unfold buildBuildNode
    simp only
    split
    · simp_all
    · split <;> simp_all
  · rw [← hiff]
    unfold buildTestNode
    simp only
    split
    · simp_all
    · split <;> simp_all
  · intro hmem
    have hc := hiff.mpr hmem
    unfold buildBuildNode buildTestNode
    simp [hc, World.emit]

/-- C10 at a concrete input: the build node 0 with its package on the ignore list. -/
theorem C10_ignore_list_short_circuit_witness :
    (buildBuildNode exampleEnv 0 { edges := [] } exampleAgent false 3
        [{ Name := "pkg", Version := "1.0" }] exampleWorld).1.ignored = true ∧
    (buildBuildNode exampleEnv 0 { edges := [] } exampleAgent false 3
        [{ Name := "pkg", Version := "1.0" }] exampleWorld).2.trace =
      [Event.cacheQuery "/SRPMS/pkg.src.rpm"] ∧
    (buildTestNode exampleEnv 0 { edges := [] } exampleAgent false 3
        [{ Name := "pkg", Version := "1.0" }] exampleWorld) =
      ({ ignored := true, logFile := "", err := none }, exampleWorld) :=
  have h := C10_ignore_list_short_circuit exampleEnv 0 { edges := [] } exampleAgent false 3 3
    [{ Name := "pkg", Version := "1.0" }] exampleWorld
  have hmem : (exampleWorld.store 0).VersionedPkg ∈
      [({ Name := "pkg", Version := "1.0" } : PackageVer)] := by
    simp [exampleWorld, exampleStore, exampleNode]
  ⟨h.1.mpr hmem, (h.2.2 hmem).2.2.2.1, (h.2.2 hmem).2.2.2.2⟩

/-! ## The worker loop: proofs -/

lemma Chan.recv_some {α : Type} (zero : α) (c c1 : Chan α) (x : α)
    (h : c.recv zero = some (x, c1)) :
    c.buf = x :: c1.buf ∨ (c.buf = [] ∧ c1 = c ∧ x = zero) := by
  unfold Chan.recv at h
  cases hb : c.buf with
  | nil =>
    rw [hb] at h
    by_cases hc : c.closed = true
    · simp [hc] at h
      exact Or.inr ⟨rfl, h.2.symm, h.1.symm⟩
    · simp [hc] at h
  | cons y ys =>
    rw [hb] at h
    simp at h
    obtain ⟨h1, h2⟩ := h
    subst h1
    subst h2
    exact Or.inl rfl

lemma selectNextBuildRequest_cases (pick : Nat) (channels channels1 : BuildChannels)
    (rf : Option BuildRequest × Bool)
    (h : selectNextBuildRequest pick channels = some (rf, channels1)) :
    (rf = (none, true) ∧ channels1.Requests = channels.Requests ∧
        channels1.PriorityRequests = channels.PriorityRequests ∧
        channels1.Results = channels.Results) ∨
    (∃ r p, channels.PriorityRequests.recv none = some (r, p) ∧ rf = (r, false) ∧
        channels1 = { channels with PriorityRequests := p }) ∨
    (∃ r p, channels.Requests.recv none = some (r, p) ∧ rf = (r, false) ∧
        channels1 = { channels with Requests := p }) := by
  unfold selectNextBuildRequest at h
  split at h
  · simp at h
    obtain ⟨h1, h2⟩ := h
    subst h1 h2
    exact Or.inl ⟨rfl, rfl, rfl, rfl⟩
  · split at h
    · rename_i req p hp
      simp at h
      obtain ⟨h1, h2⟩ := h
      subst h1 h2
      exact Or.inr (Or.inl ⟨req, p, hp, rfl, rfl⟩)
    · simp only at h
      have hmem := List.getElem?_mem h
      rw [List.mem_filterMap] at hmem
      obtain ⟨o, ho, hid⟩ := hmem
      simp only [id] at hid
      subst hid
      simp only [waitingSelectCases, List.mem_cons, List.mem_singleton, List.not_mem_nil,
        or_false] at ho
      rcases ho with ho | ho | ho | ho
      · cases hr : channels.PriorityRequests.recv none with
        | none => rw [hr] at ho; simp at ho
        | some v =>
          rw [hr] at ho
          simp at ho
          obtain ⟨h1, h2⟩ := ho
          exact Or.inr (Or.inl ⟨v.1, v.2, rfl, h1, h2⟩)
      · cases hr : channels.Requests.recv none with
        | none => rw [hr] at ho; simp at ho
        | some v =>
          rw [hr] at ho
          simp at ho
          obtain ⟨h1, h2⟩ := ho
          exact Or.inr (Or.inr ⟨v.1, v.2, rfl, h1, h2⟩)
      · cases hr : channels.Cancel.recv () with
        | none => rw [hr] at ho; simp at ho
        | some v =>
          rw [hr] at ho
          simp at ho
          obtain ⟨h1, h2⟩ := ho
          subst h2
          exact Or.inl ⟨h1, rfl, rfl, rfl⟩
      · cases hr : channels.Done.recv () with
        | none => rw [hr] at ho; simp at ho
        | some v =>
          rw [hr] at ho
          simp at ho
          obtain ⟨h1, h2⟩ := ho
          subst h2
          exact Or.inl ⟨h1, rfl, rfl, rfl⟩

lemma Chan.recv_request_counts (c c1 : Chan (Option BuildRequest)) (r : Option BuildRequest)
    (h : c.recv none = some (r, c1)) :
    c.buf.countP Option.isSome = c1.buf.countP Option.isSome + (if r.isSome then 1 else 0) ∧
      (r.isSome = true → c1.buf.length + 1 = c.buf.length) := by
  rcases Chan.recv_some none c c1 r h with hb | ⟨_, hc, hr⟩
  · rw [hb]
    cases r <;> simp
  · subst hc hr
    simp

lemma selectNextBuildRequest_request (pick : Nat) (channels channels1 : BuildChannels)
    (req : BuildRequest)
    (h : selectNextBuildRequest pick channels = some ((some req, false), channels1)) :
    channels1.Results = channels.Results ∧
      channels.pendingRequests = channels1.pendingRequests + 1 ∧
      channels1.PriorityRequests.buf.length + channels1.Requests.buf.length + 1 =
        channels.PriorityRequests.buf.length + channels.Requests.buf.length := by
  rcases selectNextBuildRequest_cases pick channels channels1 _ h with
    ⟨hrf, -⟩ | ⟨r, p, hrecv, hrf, hch⟩ | ⟨r, p, hrecv, hrf, hch⟩
  · simp at hrf
  · simp only [Prod.mk.injEq, and_true] at hrf
    subst hrf hch
    obtain ⟨hcount, hlen⟩ := Chan.recv_request_counts _ _ _ hrecv
    simp only [Option.isSome_some, if_true] at hcount
    have hl := hlen rfl
    refine ⟨rfl, ?_, ?_⟩
    · simp only [BuildChannels.pendingRequests]
      omega
    · simp only
      omega
  · simp only [Prod.mk.injEq, and_true] at hrf
    subst hrf hch
    obtain ⟨hcount, hlen⟩ := Chan.recv_request_counts _ _ _ hrecv
    simp only [Option.isSome_some, if_true] at hcount
    have hl := hlen rfl
    refine ⟨rfl, ?_, ?_⟩
    · simp only [BuildChannels.pendingRequests]
      omega
    · simp only
      omega

lemma selectNextBuildRequest_stop (pick : Nat) (channels channels1 : BuildChannels)
    (rf : Option BuildRequest × Bool)
    (h : selectNextBuildRequest pick channels = some (rf, channels1))
    (hstop : ∀ req, rf ≠ (some req, false)) :
    channels1.Results = channels.Results ∧
      channels.pendingRequests = channels1.pendingRequests := by
  rcases selectNextBuildRequest_cases pick channels channels1 _ h with
    ⟨-, h1, h2, h3⟩ | ⟨r, p, hrecv, hrf, hch⟩ | ⟨r, p, hrecv, hrf, hch⟩
  · exact ⟨h3, by simp only [BuildChannels.pendingRequests, h1, h2]⟩
  · subst hrf hch
    cases r with
    | some q => exact absurd rfl (hstop q)
    | none =>
      obtain ⟨hcount, -⟩ := Chan.recv_request_counts _ _ _ hrecv
      simp at hcount
      exact ⟨rfl, by simp only [BuildChannels.pendingRequests, hcount]⟩
  · subst hrf hch
    cases r with
    | some q => exact absurd rfl (hstop q)
    | none =>
      obtain ⟨hcount, -⟩ := Chan.recv_request_counts _ _ _ hrecv
      simp at hcount
      exact ⟨rfl, by simp only [BuildChannels.pendingRequests, hcount]⟩

lemma receivedRequests_append (a b : List Event) :
    receivedRequests (a ++ b) = receivedRequests a ++ receivedRequests b := by
  simp [receivedRequests, List.filterMap_append]

lemma receivedRequests_executor (ex : List Event)
    (hex : ∀ e ∈ ex, Event.isExecutorEvent e = true) : receivedRequests ex = [] := by
  induction ex with
  | nil => rfl
  | cons e rest ih =>
    have he := hex e (List.mem_cons_self _ _)
    have hrest := ih (fun x hx => hex x (List.mem_cons_of_mem _ hx))
    cases e <;> simp_all [receivedRequests, Event.isExecutorEvent]

lemma workerBody_received (env : Env) (agent : BuildAgent) (buildAttempts checkAttempts : Int)
    (ignoredPackages : List PackageVer) (req : BuildRequest) (channels : BuildChannels)
    (w : World) :
    ∃ res,
      (workerBody env agent buildAttempts checkAttempts ignoredPackages req channels w).1 =
        { channels with Results := channels.Results ++ [res] } ∧
      res.answers req ∧
      receivedRequests
        (workerBody env agent buildAttempts checkAttempts ignoredPackages req channels
          w).2.trace = receivedRequests w.trace ++ [req] := by
  refine ⟨(processRequest env agent buildAttempts checkAttempts ignoredPackages req
    (w.emit (Event.receive req))).1, rfl, processRequest_echo _ _ _ _ _ _ _, ?_⟩
  by_cases htype : (w.store req.Node).Type_ = NodeType.TypeLocalBuild ∨
      (w.store req.Node).Type_ = NodeType.TypeTest
  · obtain ⟨res, ex, hbody, hex⟩ := workerBody_tracked env agent buildAttempts checkAttempts
      ignoredPackages req channels w htype
    rw [hbody]
    simp only [receivedRequests_append, receivedRequests_executor ex hex]
    simp [receivedRequests]
  · obtain ⟨res, hbody, -⟩ := workerBody_untracked env agent buildAttempts checkAttempts
      ignoredPackages req channels w (fun h => htype (Or.inl h)) (fun h => htype (Or.inr h))
    rw [hbody]
    simp only [receivedRequests_append]
    simp [receivedRequests]

lemma selectNextBuildRequest_results (pick : Nat) (channels : BuildChannels)
    (results : List BuildResult) :
    selectNextBuildRequest pick { channels with Results := results } =
      (selectNextBuildRequest pick channels).map
        (fun x => (x.1, { x.2 with Results := results })) := by
  unfold selectNextBuildRequest
  simp only
  cases hc : channels.Cancel.recv () with
  | some v => simp
  | none =>
    simp only
    cases hp : channels.PriorityRequests.recv none with
    | some v => simp
    | none =>
      simp only [waitingSelectCases, hc, hp, Option.map_none']
      cases hr : channels.Requests.recv none <;> cases hd : channels.Done.recv () <;>
        simp only [Option.map_none', Option.map_some', List.filterMap_cons_none,
          List.filterMap_cons_some, List.filterMap_nil, id] <;>
        rcases Nat.mod_two_eq_zero_or_one pick with h | h <;> simp [h, Nat.mod_one]

lemma deliveredRequests_results (results : List BuildResult) :
    ∀ (rounds : Nat) (picks : Nat → Nat) (channels : BuildChannels),
      deliveredRequests rounds picks { channels with Results := results } =
        deliveredRequests rounds picks channels := by
  intro rounds
  induction rounds with
  | zero => intro picks channels; rfl
  | succ n ih =>
    intro picks channels
    unfold deliveredRequests
    rw [selectNextBuildRequest_results]
    cases hsel : selectNextBuildRequest (picks 0) channels with
    | none => rfl
    | some x =>
      obtain ⟨⟨r, f⟩, ch1⟩ := x
      cases r with
      | none => rfl
      | some req =>
        cases f with
        | true => rfl
        | false =>
          simp only [Option.map_some']
          rw [ih]

lemma selectNextBuildRequest_request_buffered (pick : Nat) (channels channels1 : BuildChannels)
    (req : BuildRequest)
    (h : selectNextBuildRequest pick channels = some ((some req, false), channels1)) :
    List.Perm channels.bufferedRequests (req :: channels1.bufferedRequests) := by
  rcases selectNextBuildRequest_cases pick channels channels1 _ h with
    ⟨hrf, -⟩ | ⟨r, p, hrecv, hrf, hch⟩ | ⟨r, p, hrecv, hrf, hch⟩
  · simp at hrf
  · simp only [Prod.mk.injEq, and_true] at hrf
    subst hrf hch
    rcases Chan.recv_some none _ _ _ hrecv with hb | ⟨-, -, hr⟩
    · simp only [BuildChannels.bufferedRequests, hb]
      simp
    · simp at hr
  · simp only [Prod.mk.injEq, and_true] at hrf
    subst hrf hch
    rcases Chan.recv_some none _ _ _ hrecv with hb | ⟨-, -, hr⟩
    · simp only [BuildChannels.bufferedRequests, hb, List.filterMap_append]
      simp
    · simp at hr

lemma selectNextBuildRequest_stop_buffered (pick : Nat) (channels channels1 : BuildChannels)
    (rf : Option BuildRequest × Bool)
    (h : selectNextBuildRequest pick channels = some (rf, channels1))
    (hstop : ∀ req, rf ≠ (some req, false)) :
    channels1.bufferedRequests = channels.bufferedRequests := by
  rcases selectNextBuildRequest_cases pick channels channels1 _ h with
    ⟨-, h1, h2, -⟩ | ⟨r, p, hrecv, hrf, hch⟩ | ⟨r, p, hrecv, hrf, hch⟩
  · simp only [BuildChannels.bufferedRequests, h1, h2]
  · subst hrf hch
    cases r with
    | some q => exact absurd rfl (hstop q)
    | none =>
      rcases Chan.recv_some none _ _ _ hrecv with hb | ⟨-, hc, -⟩
      · simp only [BuildChannels.bufferedRequests, hb]
        simp
      · rw [hc]
  · subst hrf hch
    cases r with
    | some q => exact absurd rfl (hstop q)
    | none =>
      rcases Chan.recv_some none _ _ _ hrecv with hb | ⟨-, hc, -⟩
      · simp only [BuildChannels.bufferedRequests, hb]
        simp
      · rw [hc]

lemma deliveredRequests_stable :
    ∀ (n : Nat) (picks : Nat → Nat) (channels : BuildChannels),
      channels.PriorityRequests.buf.length + channels.Requests.buf.length < n →
      ∀ rounds, n ≤ rounds →
        deliveredRequests rounds picks channels = deliveredRequests n picks channels := by
  intro n
  induction n with
  | zero => intro picks channels h; omega
  | succ n ih =>
    intro picks channels hlt rounds hle
    obtain ⟨m, rfl⟩ : ∃ m, rounds = m + 1 := Nat.exists_eq_succ_of_ne_zero (by omega)
    unfold deliveredRequests
    cases hsel : selectNextBuildRequest (picks 0) channels with
    | none => rfl
    | some x =>
      obtain ⟨⟨r, f⟩, ch1⟩ := x
      cases r with
      | none => rfl
      | some req =>
        cases f with
        | true => rfl
        | false =>
          obtain ⟨-, -, hlen⟩ := selectNextBuildRequest_request _ _ _ _ hsel
          simp only
          rw [ih (fun i => picks (i + 1)) ch1 (by omega) m (by omega)]

lemma workerLoop_spec (env : Env) (agent : BuildAgent) (buildAttempts checkAttempts : Int)
    (ignoredPackages : List PackageVer) :
    ∀ (rounds : Nat) (picks : Nat → Nat) (channels : BuildChannels) (w : World),
      channels.PriorityRequests.buf.length + channels.Requests.buf.length < rounds →
      (workerLoop env agent buildAttempts checkAttempts ignoredPackages rounds picks
        channels w).1 ≠ WorkerExit.outOfRounds ∧
      ∃ results,
        (workerLoop env agent buildAttempts checkAttempts ignoredPackages rounds picks
            channels w).2.1.Results = channels.Results ++ results ∧
          List.Forall₂ (fun req res => BuildResult.answers res req)
            (deliveredRequests rounds picks channels) results ∧
          receivedRequests
            (workerLoop env agent buildAttempts checkAttempts ignoredPackages rounds picks
              channels w).2.2.trace =
            receivedRequests w.trace ++ deliveredRequests rounds picks channels ∧
          List.Perm channels.bufferedRequests
            (deliveredRequests rounds picks channels ++
              (workerLoop env agent buildAttempts checkAttempts ignoredPackages rounds picks
                channels w).2.1.bufferedRequests) ∧
          channels.pendingRequests =
            (workerLoop env agent buildAttempts checkAttempts ignoredPackages rounds picks
              channels w).2.1.pendingRequests + results.length := by
  intro rounds
  induction rounds with
  | zero => intro picks channels w h; omega
  | succ n ih =>
    intro picks channels w hlt
    unfold workerLoop deliveredRequests
    split
    · rename_i hsel
      rw [hsel]
      exact ⟨by simp, [], by simp, List.Forall₂.nil, by simp, by simp, by simp⟩
    · rename_i req channels1 hsel
      rw [hsel]
      obtain ⟨hres, hpend, hlen⟩ := selectNextBuildRequest_request _ _ _ _ hsel
      have hperm := selectNextBuildRequest_request_buffered _ _ _ _ hsel
      obtain ⟨res, hb1, hans, hb2⟩ := workerBody_received env agent buildAttempts
        checkAttempts ignoredPackages req channels1 w
      have hlt1 : (workerBody env agent buildAttempts checkAttempts ignoredPackages req
          channels1 w).1.PriorityRequests.buf.length +
          (workerBody env agent buildAttempts checkAttempts ignoredPackages req
          channels1 w).1.Requests.buf.length < n := by
        rw [hb1]
        simp only
        omega
      obtain ⟨hexit, results, h2, h3, h1, h5, h4⟩ := ih (fun i => picks (i + 1)) _ _ hlt1
      have hdel : deliveredRequests n (fun i => picks (i + 1))
          (workerBody env agent buildAttempts checkAttempts ignoredPackages req
            channels1 w).1 = deliveredRequests n (fun i => picks (i + 1)) channels1 := by
        rw [hb1]
        exact deliveredRequests_results _ n _ channels1
      have hbuf : (workerBody env agent buildAttempts checkAttempts ignoredPackages req
          channels1 w).1.bufferedRequests = channels1.bufferedRequests := by
        rw [hb1]
        rfl
      rw [hdel] at h3 h1 h5
      rw [hbuf] at h5
      refine ⟨hexit, res :: results, ?_, List.Forall₂.cons hans h3, ?_, ?_, ?_⟩
      · simp only
        rw [h2, hb1]
        simp [hres]
      · simp only
        rw [h1, hb2]
        simp
      · simp only
        exact hperm.trans (List.Perm.cons req h5)
      · simp only
        rw [hb1] at h4
        simp only [BuildChannels.pendingRequests] at h4 hpend ⊢
        rw [hb1]
        simp only [List.length_cons]
        omega
    · rename_i out channels1 hnot hsel
      obtain ⟨hres, hpend⟩ := selectNextBuildRequest_stop _ _ _ _ hsel
        (fun req hreq => hnot req hreq)
      have hbuf := selectNextBuildRequest_stop_buffered _ _ _ _ hsel
        (fun req hreq => hnot req (by rw [hreq]))
      have hdel : (match selectNextBuildRequest (picks 0) channels with
          | some ((some req, false), channels1) =>
            req :: deliveredRequests n (fun i => picks (i + 1)) channels1
          | _ => []) = [] := by
        rw [hsel]
        split
        · rename_i req c heq
          simp only [Option.some.injEq, Prod.mk.injEq] at heq
          exact absurd heq.1.symm (by
            intro hh
            exact hnot req (by rw [← hh]))
        · rfl
      rw [hdel]
      exact ⟨by simp, [], by simp [hres], List.Forall₂.nil, by simp, by simp [hbuf],
        by simpa using hpend⟩

/-- C1. A run of `BuildNodeWorker` ends by stopping or by waiting on the channels, never
by exhausting the round budget of the model, and publishes exactly one result per request
it consumes.  The requests consumed are those that `selectNextBuildRequest` delivers in
the successive rounds before it stops or waits (`deliveredRequests`, which runs the
selection alone and is the same list for every larger round budget).  The results
appended to `Results` are as many as these requests, and the i-th result repeats the i-th
delivered request's `Node`, `AncillaryNodes` and `IsDelta` (as `WasDelta`).  The worker
received exactly these requests in this order; together with the non-nil requests still
buffered at the end they are, up to order, the non-nil requests buffered at the start;
and the number of results is the number of non-nil requests that left the two inbound
streams.  This holds for every environment, agent, attempt limit, ignore list, node store
and resolution of the selections. -/
theorem C1_one_result_per_request (env : Env) (picks : Nat → Nat) (channels : BuildChannels)
    (agent : BuildAgent) (buildAttempts checkAttempts : Int)
    (ignoredPackages : List PackageVer) (w : World) :
    (BuildNodeWorker env picks channels agent buildAttempts checkAttempts ignoredPackages
      w).1 ≠ WorkerExit.outOfRounds ∧
    (∀ rounds,
      channels.PriorityRequests.buf.length + channels.Requests.buf.length + 1 ≤ rounds →
      deliveredRequests rounds picks channels =
        deliveredRequests
          (channels.PriorityRequests.buf.length + channels.Requests.buf.length + 1)
          picks channels) ∧
    ∃ results,
      (BuildNodeWorker env picks channels agent buildAttempts checkAttempts
          ignoredPackages w).2.1.Results = channels.Results ++ results ∧
        results.length =
          (deliveredRequests
            (channels.PriorityRequests.buf.length + channels.Requests.buf.length + 1)
            picks channels).length ∧
        List.Forall₂ (fun req res => BuildResult.answers res req)
          (deliveredRequests
            (channels.PriorityRequests.buf.length + channels.Requests.buf.length + 1)
            picks channels) results ∧
        receivedRequests
          (BuildNodeWorker env picks channels agent buildAttempts checkAttempts
            ignoredPackages w).2.2.trace =
          receivedRequests w.trace ++
            deliveredRequests
              (channels.PriorityRequests.buf.length + channels.Requests.buf.length + 1)
              picks channels ∧
        List.Perm channels.bufferedRequests
          (deliveredRequests
              (channels.PriorityRequests.buf.length + channels.Requests.buf.length + 1)
              picks channels ++
            (BuildNodeWorker env picks channels agent buildAttempts checkAttempts
              ignoredPackages w).2.1.bufferedRequests) ∧
        channels.pendingRequests =
          (BuildNodeWorker env picks channels agent buildAttempts checkAttempts
            ignoredPackages w).2.1.pendingRequests + results.length := by
  obtain ⟨hexit, results, h1, h2, h3, h4, h5⟩ :=
    workerLoop_spec env agent buildAttempts checkAttempts ignoredPackages
      (channels.PriorityRequests.buf.length + channels.Requests.buf.length + 1) picks
      channels w (Nat.lt_succ_self _)
  exact ⟨hexit,
    deliveredRequests_stable _ picks channels (Nat.lt_succ_self _),
    results, h1, h2.length_eq.symm, h2, h3, h4, h5⟩

/-! ## Build path: proofs -/

lemma World.agentCallCount_emit (w : World) (e : Event) :
    (w.emit e).agentCallCount = w.agentCallCount + (if Event.isAgentCall e then 1 else 0) := by
  simp [World.agentCallCount, World.emit, List.countP_append, List.countP_cons]

/-- C11. Cache skip: for a node that is not on the ignore list, when `canUseCache` is true
and the cache query reports valid, `buildBuildNode` returns `usedCache = true`,
`ignored = false`, a nil error, an empty log file and as `builtFiles` the existing
artifacts reported by the cache query; it records nothing but the cache query, so the
build agent is not invoked. -/
theorem C11_cache_skip (env : Env) (node : Nat) (pkgGraph : PkgGraph) (agent : BuildAgent)
    (buildAttempts : Int) (ignoredPackages : List PackageVer) (w : World)
    (hignore : (w.store node).VersionedPkg ∉ ignoredPackages)
    (hvalid : (env.IsSRPMPrebuilt w.agentCallCount (w.store node).SrpmPath pkgGraph
      w.store).1 = true) :
    buildBuildNode env node pkgGraph agent true buildAttempts ignoredPackages w =
      ({ usedCache := true, ignored := false,
         builtFiles := (env.IsSRPMPrebuilt w.agentCallCount (w.store node).SrpmPath pkgGraph
           w.store).2.1,
         logFile := "", err := none },
       { store := w.store,
         trace := w.trace ++ [Event.cacheQuery (w.store node).SrpmPath] }) := by
  have hc : ignoreListContains ignoredPackages (w.store node).VersionedPkg = false := by
    rw [Bool.eq_false_iff]
    exact fun h => hignore ((ignoreListContains_iff _ _).mp h)
  unfold buildBuildNode
  simp [hc, hvalid, World.emit]

lemma buildSRPMFile_eq (agent : BuildAgent) (buildAttempts : Int) (srpmFile outArch : String)
    (dependencies : List String) (w : World) :
    buildSRPMFile agent buildAttempts srpmFile outArch dependencies w =
      (((retryLoop (buildOperation agent srpmFile outArch dependencies) buildSleep
            buildAttempts.toNat none { builtFiles := [], logFile := "", world := w }).2.builtFiles,
        (retryLoop (buildOperation agent srpmFile outArch dependencies) buildSleep
            buildAttempts.toNat none { builtFiles := [], logFile := "", world := w }).2.logFile,
        (retryLoop (buildOperation agent srpmFile outArch dependencies) buildSleep
            buildAttempts.toNat none { builtFiles := [], logFile := "", world := w }).1),
       (retryLoop (buildOperation agent srpmFile outArch dependencies) buildSleep
            buildAttempts.toNat none { builtFiles := [], logFile := "", world := w }).2.world) :=
  rfl

lemma attemptEvents_succ_succ (call : Event) (n : Nat) :
    attemptEvents call (n + 2) = call :: Event.sleep :: attemptEvents call (n + 1) := by
  rw [attemptEvents]
  simp

lemma attemptEvents_one (call : Event) : attemptEvents call 1 = [call] := by
  simp [attemptEvents]

lemma attemptEvents_countP (call : Event) (hcall : Event.isAgentCall call = true) (n : Nat) :
    (attemptEvents call n).countP Event.isAgentCall = n := by
  induction n with
  | zero => simp [attemptEvents]
  | succ n ih =>
    cases n with
    | zero => simp [attemptEvents, hcall]
    | succ m =>
      have hsleep : Event.isAgentCall Event.sleep = false := rfl
      rw [attemptEvents_succ_succ, List.countP_cons, List.countP_cons, ih, hcall, hsleep]
      simp

lemma retryLoop_build_succeeds (agent : BuildAgent) (srpmFile outArch : String)
    (dependencies : List String) :
    ∀ (k n : Nat) (last : Option Error) (v : BuildVars), k < n →
      (∀ j, j < k →
        (agent.BuildPackage (v.world.agentCallCount + j) srpmFile
          (filepathBase srpmFile ++ ".log") outArch false dependencies).2.2 ≠ none) →
      (agent.BuildPackage (v.world.agentCallCount + k) srpmFile
          (filepathBase srpmFile ++ ".log") outArch false dependencies).2.2 = none →
      retryLoop (buildOperation agent srpmFile outArch dependencies) buildSleep n last v =
        (none,
         { builtFiles := (agent.BuildPackage (v.world.agentCallCount + k) srpmFile
              (filepathBase srpmFile ++ ".log") outArch false dependencies).1,
           logFile := (agent.BuildPackage (v.world.agentCallCount + k) srpmFile
              (filepathBase srpmFile ++ ".log") outArch false dependencies).2.1,
           world :=
             { store := v.world.store,
               trace := v.world.trace ++
                 attemptEvents
                   (Event.agentCall srpmFile (filepathBase srpmFile ++ ".log") outArch false
                     dependencies) (k + 1) } }) := by
  intro k
  induction k with
  | zero =>
    intro n last v hn _ hok
    obtain ⟨m, rfl⟩ := Nat.exists_eq_succ_of_ne_zero (Nat.pos_iff_ne_zero.mp hn)
    simp only [Nat.add_zero] at hok ⊢
    rw [retryLoop]
    simp [buildOperation, callBuildPackage, hok, attemptEvents_one, World.emit]
  | succ k ih =>
    intro n last v hn hfail hok
    obtain ⟨m, rfl⟩ := Nat.exists_eq_succ_of_ne_zero (Nat.pos_iff_ne_zero.mp (by omega : 0 < n))
    have hm : m ≠ 0 := by omega
    have h0 := hfail 0 (by omega)
    simp only [Nat.add_zero] at h0
    obtain ⟨e, he⟩ := Option.ne_none_iff_exists'.mp h0
    rw [retryLoop]
    have hop : buildOperation agent srpmFile outArch dependencies v =
        (some e,
         { builtFiles := (agent.BuildPackage v.world.agentCallCount srpmFile
              (filepathBase srpmFile ++ ".log") outArch false dependencies).1,
           logFile := (agent.BuildPackage v.world.agentCallCount srpmFile
              (filepathBase srpmFile ++ ".log") outArch false dependencies).2.1,
           world := v.world.emit (Event.agentCall srpmFile (filepathBase srpmFile ++ ".log")
              outArch false dependencies) }) := by
      simp [buildOperation, callBuildPackage, he]
    rw [hop]
    simp only [hm, if_false]
    have hcount : (buildSleep
        { builtFiles := (agent.BuildPackage v.world.agentCallCount srpmFile
              (filepathBase srpmFile ++ ".log") outArch false dependencies).1,
          logFile := (agent.BuildPackage v.world.agentCallCount srpmFile
              (filepathBase srpmFile ++ ".log") outArch false dependencies).2.1,
          world := v.world.emit (Event.agentCall srpmFile (filepathBase srpmFile ++ ".log")
              outArch false dependencies) }).world.agentCallCount =
        v.world.agentCallCount + 1 := by
      simp [buildSleep, World.agentCallCount_emit, Event.isAgentCall]
    rw [ih m (some e) _ (by omega)
      (by
        intro j hj
        rw [hcount]
        have := hfail (j + 1) (by omega)
        rwa [show v.world.agentCallCount + 1 + j = v.world.agentCallCount + (j + 1) by omega])
      (by
        rw [hcount]
        rwa [show v.world.agentCallCount + 1 + k = v.world.agentCallCount + (k + 1) by omega])]
    rw [hcount, show v.world.agentCallCount + 1 + k = v.world.agentCallCount + (k + 1) by omega,
      attemptEvents_succ_succ]
    simp [buildSleep, World.emit]

lemma retryLoop_build_exhausts (agent : BuildAgent) (srpmFile outArch : String)
    (dependencies : List String) :
    ∀ (m : Nat) (last : Option Error) (v : BuildVars),
      (∀ j, j < m + 1 →
        (agent.BuildPackage (v.world.agentCallCount + j) srpmFile
          (filepathBase srpmFile ++ ".log") outArch false dependencies).2.2 ≠ none) →
      retryLoop (buildOperation agent srpmFile outArch dependencies) buildSleep (m + 1) last v =
        ((agent.BuildPackage (v.world.agentCallCount + m) srpmFile
              (filepathBase srpmFile ++ ".log") outArch false dependencies).2.2,
         { builtFiles := (agent.BuildPackage (v.world.agentCallCount + m) srpmFile
              (filepathBase srpmFile ++ ".log") outArch false dependencies).1,
           logFile := (agent.BuildPackage (v.world.agentCallCount + m) srpmFile
              (filepathBase srpmFile ++ ".log") outArch false dependencies).2.1,
           world :=
             { store := v.world.store,
               trace := v.world.trace ++
                 attemptEvents
                   (Event.agentCall srpmFile (filepathBase srpmFile ++ ".log") outArch false
                     dependencies) (m + 1) } }) := by
  intro m
  induction m with
  | zero =>
    intro last v hfail
    have h0 := hfail 0 (by omega)
    simp only [Nat.add_zero] at h0 ⊢
    obtain ⟨e, he⟩ := Option.ne_none_iff_exists'.mp h0
    rw [retryLoop]
    simp [buildOperation, callBuildPackage, he, attemptEvents_one, World.emit]
  | succ m ih =>
    intro last v hfail
    have h0 := hfail 0 (by omega)
    simp only [Nat.add_zero] at h0
    obtain ⟨e, he⟩ := Option.ne_none_iff_exists'.mp h0
    rw [retryLoop]
    have hop : buildOperation agent srpmFile outArch dependencies v =
        (some e,
         { builtFiles := (agent.BuildPackage v.world.agentCallCount srpmFile
              (filepathBase srpmFile ++ ".log") outArch false dependencies).1,
           logFile := (agent.BuildPackage v.world.agentCallCount srpmFile
              (filepathBase srpmFile ++ ".log") outArch false dependencies).2.1,
           world := v.world.emit (Event.agentCall srpmFile (filepathBase srpmFile ++ ".log")
              outArch false dependencies) }) := by
      simp [buildOperation, callBuildPackage, he]
    rw [hop]
    simp only [Nat.add_one_ne_zero, if_false]
    have hcount : (buildSleep
        { builtFiles := (agent.BuildPackage v.world.agentCallCount srpmFile
              (filepathBase srpmFile ++ ".log") outArch false dependencies).1,
          logFile := (agent.BuildPackage v.world.agentCallCount srpmFile
              (filepathBase srpmFile ++ ".log") outArch false dependencies).2.1,
          world := v.world.emit (Event.agentCall srpmFile (filepathBase srpmFile ++ ".log")
              outArch false dependencies) }).world.agentCallCount =
        v.world.agentCallCount + 1 := by
      simp [buildSleep, World.agentCallCount_emit, Event.isAgentCall]
    rw [ih (some e) _
      (by
        intro j hj
        rw [hcount]
        have := hfail (j + 1) (by omega)
        rwa [show v.world.agentCallCount + 1 + j = v.world.agentCallCount + (j + 1) by omega])]
    rw [hcount, show v.world.agentCallCount + 1 + m = v.world.agentCallCount + (m + 1) by omega,
      attemptEvents_succ_succ]
    simp [buildSleep, World.emit]

/-- C17. Retry policy as used by `buildSRPMFile`, for an attempt limit of at least one.
If the agent fails on its first `k` invocations, `k` below the limit, and succeeds on the
next, `buildSRPMFile` returns a nil error with the artifacts and the log file of that
successful invocation, and the agent was invoked `k + 1` times, with a sleep between
consecutive invocations.  If the agent fails on every invocation up to the limit,
`buildSRPMFile` returns the (non-nil) error of the last invocation after exactly as many
invocations as the limit. -/
theorem C17_retry_policy (agent : BuildAgent) (maxAttempts : Int) (srpmFile outArch : String)
    (dependencies : List String) (w : World) (hmax : 1 ≤ maxAttempts) :
    (∀ k : Nat, (k : Int) < maxAttempts →
      (∀ j, j < k →
        (agent.BuildPackage (w.agentCallCount + j) srpmFile
          (filepathBase srpmFile ++ ".log") outArch false dependencies).2.2 ≠ none) →
      (agent.BuildPackage (w.agentCallCount + k) srpmFile
          (filepathBase srpmFile ++ ".log") outArch false dependencies).2.2 = none →
      buildSRPMFile agent maxAttempts srpmFile outArch dependencies w =
          (((agent.BuildPackage (w.agentCallCount + k) srpmFile
              (filepathBase srpmFile ++ ".log") outArch false dependencies).1,
            (agent.BuildPackage (w.agentCallCount + k) srpmFile
              (filepathBase srpmFile ++ ".log") outArch false dependencies).2.1,
            none),
           { store := w.store,
             trace := w.trace ++
               attemptEvents
                 (Event.agentCall srpmFile (filepathBase srpmFile ++ ".log") outArch false
                   dependencies) (k + 1) }) ∧
        (buildSRPMFile agent maxAttempts srpmFile outArch dependencies w).2.agentCallCount =
          w.agentCallCount + (k + 1)) ∧
    ((∀ j : Nat, (j : Int) < maxAttempts →
        (agent.BuildPackage (w.agentCallCount + j) srpmFile
          (filepathBase srpmFile ++ ".log") outArch false dependencies).2.2 ≠ none) →
      buildSRPMFile agent maxAttempts srpmFile outArch dependencies w =
          ((agent.BuildPackage (w.agentCallCount + (maxAttempts.toNat - 1)) srpmFile
              (filepathBase srpmFile ++ ".log") outArch false dependencies),
           { store := w.store,
             trace := w.trace ++
               attemptEvents
                 (Event.agentCall srpmFile (filepathBase srpmFile ++ ".log") outArch false
                   dependencies) maxAttempts.toNat }) ∧
        (buildSRPMFile agent maxAttempts srpmFile outArch dependencies w).1.2.2 ≠ none ∧
        (buildSRPMFile agent maxAttempts srpmFile outArch dependencies w).2.agentCallCount =
          w.agentCallCount + maxAttempts.toNat) := by
  have hcall : Event.isAgentCall (Event.agentCall srpmFile (filepathBase srpmFile ++ ".log")
      outArch false dependencies) = true := rfl
  constructor
  · intro k hk hfail hok
    have hk' : k < maxAttempts.toNat := by omega
    have h := retryLoop_build_succeeds agent srpmFile outArch dependencies k maxAttempts.toNat
      none { builtFiles := [], logFile := "", world := w } hk' hfail hok
    have heq := buildSRPMFile_eq agent maxAttempts srpmFile outArch dependencies w
    rw [h] at heq
    refine ⟨heq, ?_⟩
    rw [heq]
    simp only [World.agentCallCount, List.countP_append]
    rw [attemptEvents_countP _ hcall]
  · intro hfail
    obtain ⟨m, hm⟩ : ∃ m, maxAttempts.toNat = m + 1 :=
      Nat.exists_eq_succ_of_ne_zero (by omega)
    have h := retryLoop_build_exhausts agent srpmFile outArch dependencies m none
      { builtFiles := [], logFile := "", world := w }
      (fun j hj => hfail j (by omega))
    have heq := buildSRPMFile_eq agent maxAttempts srpmFile outArch dependencies w
    rw [hm, h] at heq
    have hlast := hfail m (by omega)
    refine ⟨?_, ?_, ?_⟩
    · rw [heq, hm]
      simp
    · rw [heq]
      exact hlast
    · rw [heq, hm]
      simp only [World.agentCallCount, List.countP_append]
      rw [attemptEvents_countP _ hcall]

/-- C17 at concrete inputs: an agent that fails twice and then succeeds under a limit of
three, and an agent that always fails under a limit of two. -/
theorem C17_retry_policy_witness :
    (buildSRPMFile flakyAgent 3 "/SRPMS/pkg.src.rpm" "x86_64" [] exampleWorld =
          (((flakyAgent.BuildPackage (exampleWorld.agentCallCount + 2) "/SRPMS/pkg.src.rpm"
              (filepathBase "/SRPMS/pkg.src.rpm" ++ ".log") "x86_64" false []).1,
            (flakyAgent.BuildPackage (exampleWorld.agentCallCount + 2) "/SRPMS/pkg.src.rpm"
              (filepathBase "/SRPMS/pkg.src.rpm" ++ ".log") "x86_64" false []).2.1,
            none),
           { store := exampleWorld.store,
             trace := exampleWorld.trace ++
               attemptEvents
                 (Event.agentCall "/SRPMS/pkg.src.rpm"
                   (filepathBase "/SRPMS/pkg.src.rpm" ++ ".log") "x86_64" false []) (2 + 1) }) ∧
        (buildSRPMFile flakyAgent 3 "/SRPMS/pkg.src.rpm" "x86_64" []
          exampleWorld).2.agentCallCount = exampleWorld.agentCallCount + (2 + 1)) ∧
    (buildSRPMFile brokenAgent 2 "/SRPMS/pkg.src.rpm" "x86_64" [] exampleWorld).1.2.2 ≠ none :=
  ⟨(C17_retry_policy flakyAgent 3 "/SRPMS/pkg.src.rpm" "x86_64" [] exampleWorld
      (by decide)).1 2 (by decide)
      (by
        intro j hj
        have h0 : exampleWorld.agentCallCount = 0 := rfl
        simp [flakyAgent, h0, hj])
      (by
        have h0 : exampleWorld.agentCallCount = 0 := rfl
        simp [flakyAgent, h0]),
   ((C17_retry_policy brokenAgent 2 "/SRPMS/pkg.src.rpm" "x86_64" [] exampleWorld
      (by decide)).2 (by intro j _; simp [brokenAgent])).2.1⟩

lemma retryLoop_build_trace (agent : BuildAgent) (srpmFile outArch : String)
    (dependencies : List String) :
    ∀ (m : Nat) (last : Option Error) (v : BuildVars),
      ∃ n, n ≤ m ∧ (0 < m → 0 < n) ∧
        (retryLoop (buildOperation agent srpmFile outArch dependencies) buildSleep m last
            v).2.world =
          { store := v.world.store,
            trace := v.world.trace ++
              attemptEvents
                (Event.agentCall srpmFile (filepathBase srpmFile ++ ".log") outArch false
                  dependencies) n } := by
  intro m
  induction m with
  | zero =>
    intro last v
    exact ⟨0, le_refl _, fun h => absurd h (lt_irrefl _), by simp [retryLoop, attemptEvents]⟩
  | succ m ih =>
    intro last v
    rw [retryLoop]
    cases hr : (agent.BuildPackage v.world.agentCallCount srpmFile
        (filepathBase srpmFile ++ ".log") outArch false dependencies).2.2 with
    | none =>
      refine ⟨1, by omega, fun _ => by omega, ?_⟩
      simp [buildOperation, callBuildPackage, hr, attemptEvents_one, World.emit]
    | some e =>
      by_cases hm : m = 0
      · refine ⟨1, by omega, fun _ => by omega, ?_⟩
        simp [buildOperation, callBuildPackage, hr, hm, attemptEvents_one, World.emit]
      · obtain ⟨n, hn, hpos, htr⟩ := ih (some e)
          (buildSleep (buildOperation agent srpmFile outArch dependencies v).2)
        have hn0 : 0 < n := hpos (Nat.pos_of_ne_zero hm)
        obtain ⟨n', rfl⟩ := Nat.exists_eq_succ_of_ne_zero (Nat.pos_iff_ne_zero.mp hn0)
        refine ⟨n' + 2, by omega, fun _ => by omega, ?_⟩
        have hop : buildOperation agent srpmFile outArch dependencies v =
            (some e, (buildOperation agent srpmFile outArch dependencies v).2) := by
          simp [buildOperation, callBuildPackage, hr]
        rw [hop]
        simp only [hm, if_false]
        rw [htr, attemptEvents_succ_succ]
        simp [buildSleep, buildOperation, callBuildPackage, World.emit]

lemma buildSRPMFile_first_call_succeeds (agent : BuildAgent) (buildAttempts : Int)
    (srpmFile outArch : String) (dependencies : List String) (w : World)
    (hok : (agent.BuildPackage w.agentCallCount srpmFile (filepathBase srpmFile ++ ".log")
      outArch false dependencies).2.2 = none) :
    (buildSRPMFile agent buildAttempts srpmFile outArch dependencies w).1.2.2 = none := by
  rw [buildSRPMFile_eq]
  by_cases h0 : buildAttempts.toNat = 0
  · simp [h0, retryLoop]
  · rw [retryLoop_build_succeeds agent srpmFile outArch dependencies 0 buildAttempts.toNat none
      { builtFiles := [], logFile := "", world := w } (Nat.pos_of_ne_zero h0)
      (fun j hj => absurd hj (Nat.not_lt_zero j)) (by simpa using hok)]

lemma buildBuildNode_rebuild (env : Env) (node : Nat) (pkgGraph : PkgGraph)
    (agent : BuildAgent) (canUseCache : Bool) (buildAttempts : Int)
    (ignoredPackages : List PackageVer) (w : World)
    (hignore : (w.store node).VersionedPkg ∉ ignoredPackages)
    (hrebuild : canUseCache = false ∨
      (env.IsSRPMPrebuilt w.agentCallCount (w.store node).SrpmPath pkgGraph w.store).1 = false) :
    buildBuildNode env node pkgGraph agent canUseCache buildAttempts ignoredPackages w =
      ({ usedCache := false, ignored := false,
         builtFiles := (buildSRPMFile agent buildAttempts (w.store node).SrpmPath
            (w.store node).Architecture (getBuildDependencies env node pkgGraph w.store)
            { store := w.store,
              trace := w.trace ++ [Event.cacheQuery (w.store node).SrpmPath,
                Event.resolveDeps node] }).1.1,
         logFile := (buildSRPMFile agent buildAttempts (w.store node).SrpmPath
            (w.store node).Architecture (getBuildDependencies env node pkgGraph w.store)
            { store := w.store,
              trace := w.trace ++ [Event.cacheQuery (w.store node).SrpmPath,
                Event.resolveDeps node] }).1.2.1,
         err := (buildSRPMFile agent buildAttempts (w.store node).SrpmPath
            (w.store node).Architecture (getBuildDependencies env node pkgGraph w.store)
            { store := w.store,
              trace := w.trace ++ [Event.cacheQuery (w.store node).SrpmPath,
                Event.resolveDeps node] }).1.2.2 },
       (buildSRPMFile agent buildAttempts (w.store node).SrpmPath
            (w.store node).Architecture (getBuildDependencies env node pkgGraph w.store)
            { store := w.store,
              trace := w.trace ++ [Event.cacheQuery (w.store node).SrpmPath,
                Event.resolveDeps node] }).2) := by
  have hc : ignoreListContains ignoredPackages (w.store node).VersionedPkg = false := by
    rw [Bool.eq_false_iff]
    exact fun h => hignore ((ignoreListContains_iff _ _).mp h)
  have hcond : (canUseCache &&
      (env.IsSRPMPrebuilt w.agentCallCount (w.store node).SrpmPath pkgGraph w.store).1) =
      false := by
    rcases hrebuild with h | h <;> simp [h]
  unfold buildBuildNode
  simp [hc, hcond, World.emit]

lemma workerBody_localBuild (env : Env) (agent : BuildAgent)
    (buildAttempts checkAttempts : Int) (ignoredPackages : List PackageVer)
    (req : BuildRequest) (channels : BuildChannels) (w : World)
    (htype : (w.store req.Node).Type_ = NodeType.TypeLocalBuild) :
    workerBody env agent buildAttempts checkAttempts ignoredPackages req channels w =
      ({ channels with
          Results := channels.Results ++
            [buildResultOf req
              (buildBuildNode env req.Node req.PkgGraph agent req.CanUseCache buildAttempts
                ignoredPackages (w.emit (Event.receive req))).1] },
       { store := setAncillaryLoop
            (outcomeState
              (buildBuildNode env req.Node req.PkgGraph agent req.CanUseCache buildAttempts
                ignoredPackages (w.emit (Event.receive req))).1.err)
            req.AncillaryNodes w.store,
         trace :=
            (buildBuildNode env req.Node req.PkgGraph agent req.CanUseCache buildAttempts
              ignoredPackages (w.emit (Event.receive req))).2.trace ++
            [Event.setStatus req.AncillaryNodes
              (outcomeState
                (buildBuildNode env req.Node req.PkgGraph agent req.CanUseCache buildAttempts
                  ignoredPackages (w.emit (Event.receive req))).1.err),
             Event.publish
              (buildResultOf req
                (buildBuildNode env req.Node req.PkgGraph agent req.CanUseCache buildAttempts
                  ignoredPackages (w.emit (Event.receive req))).1)] }) := by
  obtain ⟨hs, -⟩ := buildBuildNode_executorStep env req.Node req.PkgGraph agent
    req.CanUseCache buildAttempts ignoredPackages (w.emit (Event.receive req))
  have hstore : (w.emit (Event.receive req)).store = w.store := rfl
  rw [hstore] at hs
  unfold workerBody processRequest
  simp only [hstore, htype]
  generalize w.emit (Event.receive req) = w1 at hs ⊢
  split <;> rename_i herr <;>
    simp [World.emit, setAncillaryBuildNodesStatus, hs, herr, outcomeState, buildResultOf,
      initialResult]

lemma workerBody_test (env : Env) (agent : BuildAgent)
    (buildAttempts checkAttempts : Int) (ignoredPackages : List PackageVer)
    (req : BuildRequest) (channels : BuildChannels) (w : World)
    (htype : (w.store req.Node).Type_ = NodeType.TypeTest) :
    workerBody env agent buildAttempts checkAttempts ignoredPackages req channels w =
      ({ channels with
          Results := channels.Results ++
            [testResultOf req
              (buildTestNode env req.Node req.PkgGraph agent req.CanUseCache checkAttempts
                ignoredPackages (w.emit (Event.receive req))).1] },
       { store := setAncillaryLoop
            (outcomeState
              (buildTestNode env req.Node req.PkgGraph agent req.CanUseCache checkAttempts
                ignoredPackages (w.emit (Event.receive req))).1.err)
            req.AncillaryNodes w.store,
         trace :=
            (buildTestNode env req.Node req.PkgGraph agent req.CanUseCache checkAttempts
              ignoredPackages (w.emit (Event.receive req))).2.trace ++
            [Event.setStatus req.AncillaryNodes
              (outcomeState
                (buildTestNode env req.Node req.PkgGraph agent req.CanUseCache checkAttempts
                  ignoredPackages (w.emit (Event.receive req))).1.err),
             Event.publish
              (testResultOf req
                (buildTestNode env req.Node req.PkgGraph agent req.CanUseCache checkAttempts
                  ignoredPackages (w.emit (Event.receive req))).1)] }) := by
  obtain ⟨hs, -⟩ := buildTestNode_executorStep env req.Node req.PkgGraph agent
    req.CanUseCache checkAttempts ignoredPackages (w.emit (Event.receive req))
  have hstore : (w.emit (Event.receive req)).store = w.store := rfl
  rw [hstore] at hs
  unfold workerBody processRequest
  simp only [hstore, htype]
  generalize w.emit (Event.receive req) = w1 at hs ⊢
  split <;> rename_i herr <;>
    simp [World.emit, setAncillaryBuildNodesStatus, hs, herr, outcomeState, testResultOf,
      initialResult]

lemma buildSRPMFile_world (agent : BuildAgent) (buildAttempts : Int)
    (srpmFile outArch : String) (dependencies : List String) (w : World) :
    ∃ n, n ≤ buildAttempts.toNat ∧ (1 ≤ buildAttempts → 1 ≤ n) ∧
      (buildSRPMFile agent buildAttempts srpmFile outArch dependencies w).2 =
        { store := w.store,
          trace := w.trace ++
            attemptEvents
              (Event.agentCall srpmFile (filepathBase srpmFile ++ ".log") outArch false
                dependencies) n } := by
  obtain ⟨n, hn, hpos, htr⟩ := retryLoop_build_trace agent srpmFile outArch dependencies
    buildAttempts.toNat none { builtFiles := [], logFile := "", world := w }
  refine ⟨n, hn, fun h => hpos (by omega), ?_⟩
  rw [buildSRPMFile_eq]
  exact htr

/-- C11 at a concrete input: the build node 0 with a valid cache and an empty ignore list. -/
theorem C11_cache_skip_witness :
    buildBuildNode cachedEnv 0 { edges := [] } exampleAgent true 3 [] exampleWorld =
      ({ usedCache := true, ignored := false,
         builtFiles := (cachedEnv.IsSRPMPrebuilt exampleWorld.agentCallCount
           (exampleWorld.store 0).SrpmPath { edges := [] } exampleWorld.store).2.1,
         logFile := "", err := none },
       { store := exampleWorld.store,
         trace := exampleWorld.trace ++ [Event.cacheQuery (exampleWorld.store 0).SrpmPath] }) :=
  C11_cache_skip cachedEnv 0 { edges := [] } exampleAgent 3 [] exampleWorld
    (List.not_mem_nil _) rfl

/-- C12 as stated fails: with an attempt limit of zero the rebuild path of a LocalBuild
node that is not ignored and may not use the cache invokes no agent: the record holds
the cache query and the dependency resolution only, the returned error is nil, and the
worker publishes a result without error and sets the ancillary LocalBuild nodes
UpToDate. -/
theorem C12_counterexample :
    (exampleWorld.store rebuildRequest.Node).Type_ = NodeType.TypeLocalBuild ∧
    ignoreListContains [] (exampleWorld.store rebuildRequest.Node).VersionedPkg = false ∧
    rebuildRequest.CanUseCache = false ∧
    (buildBuildNode exampleEnv rebuildRequest.Node rebuildRequest.PkgGraph exampleAgent
        rebuildRequest.CanUseCache 0 [] exampleWorld).2.trace =
      [Event.cacheQuery "/SRPMS/pkg.src.rpm", Event.resolveDeps 0] ∧
    (buildBuildNode exampleEnv rebuildRequest.Node rebuildRequest.PkgGraph exampleAgent
        rebuildRequest.CanUseCache 0 [] exampleWorld).2.agentCallCount = 0 ∧
    (buildBuildNode exampleEnv rebuildRequest.Node rebuildRequest.PkgGraph exampleAgent
        rebuildRequest.CanUseCache 0 [] exampleWorld).1.err = none ∧
    ((workerBody exampleEnv exampleAgent 0 1 [] rebuildRequest idleChannels
        exampleWorld).1.Results.map (fun r => r.Err)) = [none] ∧
    ((workerBody exampleEnv exampleAgent 0 1 [] rebuildRequest idleChannels
        exampleWorld).2.store 2).State = NodeState.StateUpToDate := by
  decide

/-- C12, amended. Rebuild path: for a node that is not on the ignore list, when
`canUseCache` is false or the cache query reports invalid (whatever the cache query says
in the first case), `buildBuildNode` resolves the dependencies and runs the retried agent
call `buildSRPMFile` on the node's `SrpmPath`, `Architecture` and that dependency list;
it returns `usedCache = false`, `ignored = false` and exactly the `builtFiles`, `logFile`
and error of that retried call.  The agent is invoked `n` times, at most as often as the
attempt limit says, so not at all for a limit below one, and at least once for a limit of
at least one; every invocation carries these arguments with `runCheck = false`.  In the
worker, when the agent's first call succeeds the published result has no error and every
ancillary LocalBuild node is UpToDate afterwards. -/
theorem C12_rebuild_path (env : Env) (agent : BuildAgent) (buildAttempts checkAttempts : Int)
    (ignoredPackages : List PackageVer) (req : BuildRequest) (channels : BuildChannels)
    (w : World)
    (hignore : (w.store req.Node).VersionedPkg ∉ ignoredPackages)
    (hrebuild : req.CanUseCache = false ∨
      (env.IsSRPMPrebuilt w.agentCallCount (w.store req.Node).SrpmPath req.PkgGraph
        w.store).1 = false) :
    (∃ n : Nat, n ≤ buildAttempts.toNat ∧ (1 ≤ buildAttempts → 1 ≤ n) ∧
      buildBuildNode env req.Node req.PkgGraph agent req.CanUseCache buildAttempts
          ignoredPackages w =
        ({ usedCache := false, ignored := false,
           builtFiles := (buildSRPMFile agent buildAttempts (w.store req.Node).SrpmPath
              (w.store req.Node).Architecture
              (getBuildDependencies env req.Node req.PkgGraph w.store)
              { store := w.store,
                trace := w.trace ++ [Event.cacheQuery (w.store req.Node).SrpmPath,
                  Event.resolveDeps req.Node] }).1.1,
           logFile := (buildSRPMFile agent buildAttempts (w.store req.Node).SrpmPath
              (w.store req.Node).Architecture
              (getBuildDependencies env req.Node req.PkgGraph w.store)
              { store := w.store,
                trace := w.trace ++ [Event.cacheQuery (w.store req.Node).SrpmPath,
                  Event.resolveDeps req.Node] }).1.2.1,
           err := (buildSRPMFile agent buildAttempts (w.store req.Node).SrpmPath
              (w.store req.Node).Architecture
              (getBuildDependencies env req.Node req.PkgGraph w.store)
              { store := w.store,
                trace := w.trace ++ [Event.cacheQuery (w.store req.Node).SrpmPath,
                  Event.resolveDeps req.Node] }).1.2.2 },
         { store := w.store,
           trace := w.trace ++
             [Event.cacheQuery (w.store req.Node).SrpmPath, Event.resolveDeps req.Node] ++
             attemptEvents
               (Event.agentCall (w.store req.Node).SrpmPath
                 (filepathBase (w.store req.Node).SrpmPath ++ ".log")
                 (w.store req.Node).Architecture false
                 (getBuildDependencies env req.Node req.PkgGraph w.store)) n })) ∧
    ((w.store req.Node).Type_ = NodeType.TypeLocalBuild →
      (agent.BuildPackage w.agentCallCount (w.store req.Node).SrpmPath
        (filepathBase (w.store req.Node).SrpmPath ++ ".log") (w.store req.Node).Architecture
        false (getBuildDependencies env req.Node req.PkgGraph w.store)).2.2 = none →
      ∃ res,
        (workerBody env agent buildAttempts checkAttempts ignoredPackages req channels
          w).1.Results = channels.Results ++ [res] ∧
        res.Err = none ∧ res.UsedCache = false ∧ res.Ignored = false ∧
        ∀ a ∈ req.AncillaryNodes, (w.store a).Type_ = NodeType.TypeLocalBuild →
          ((workerBody env agent buildAttempts checkAttempts ignoredPackages req channels
            w).2.store a).State = NodeState.StateUpToDate) := by
  constructor
  · obtain ⟨n, hn, hpos, hw⟩ := buildSRPMFile_world agent buildAttempts
      (w.store req.Node).SrpmPath (w.store req.Node).Architecture
      (getBuildDependencies env req.Node req.PkgGraph w.store)
      { store := w.store,
        trace := w.trace ++ [Event.cacheQuery (w.store req.Node).SrpmPath,
          Event.resolveDeps req.Node] }
    refine ⟨n, hn, hpos, ?_⟩
    rw [buildBuildNode_rebuild env req.Node req.PkgGraph agent req.CanUseCache buildAttempts
      ignoredPackages w hignore hrebuild, hw]
  · intro htype hok
    have hb := buildBuildNode_rebuild env req.Node req.PkgGraph agent req.CanUseCache
      buildAttempts ignoredPackages (w.emit (Event.receive req)) hignore
      (by
        have hcount : (w.emit (Event.receive req)).agentCallCount = w.agentCallCount := by
          simp [World.agentCallCount_emit, Event.isAgentCall]
        rw [hcount]
        exact hrebuild)
    have herr : (buildBuildNode env req.Node req.PkgGraph agent req.CanUseCache buildAttempts
        ignoredPackages (w.emit (Event.receive req))).1.err = none := by
      rw [hb]
      apply buildSRPMFile_first_call_succeeds
      have hcount : World.agentCallCount
          { store := (w.emit (Event.receive req)).store,
            trace := (w.emit (Event.receive req)).trace ++
              [Event.cacheQuery ((w.emit (Event.receive req)).store req.Node).SrpmPath,
                Event.resolveDeps req.Node] } = w.agentCallCount := by
        simp [World.agentCallCount, World.emit, List.countP_append, List.countP_cons,
          Event.isAgentCall]
      rw [hcount]
      exact hok
    have hbody := workerBody_localBuild env agent buildAttempts checkAttempts ignoredPackages
      req channels w htype
    refine ⟨_, by rw [hbody], ?_, ?_, ?_, ?_⟩
    · exact herr
    · show (buildBuildNode env req.Node req.PkgGraph agent req.CanUseCache buildAttempts
        ignoredPackages (w.emit (Event.receive req))).1.usedCache = false
      rw [hb]
    · show (buildBuildNode env req.Node req.PkgGraph agent req.CanUseCache buildAttempts
        ignoredPackages (w.emit (Event.receive req))).1.ignored = false
      rw [hb]
    · intro a ha hta
      rw [hbody]
      simp only [setAncillaryLoop_apply, ha, hta, and_self, if_true, herr]
      rfl

/-- C12, amended, at a concrete input: a build request that may not use the cache, an agent whose
every call succeeds, an attempt limit of three. -/
theorem C12_rebuild_path_witness :
    ∃ res,
      (workerBody exampleEnv exampleAgent 3 1 [] rebuildRequest idleChannels
        exampleWorld).1.Results = idleChannels.Results ++ [res] ∧
      res.Err = none ∧ res.UsedCache = false ∧ res.Ignored = false ∧
      ∀ a ∈ rebuildRequest.AncillaryNodes,
        (exampleWorld.store a).Type_ = NodeType.TypeLocalBuild →
        ((workerBody exampleEnv exampleAgent 3 1 [] rebuildRequest idleChannels
          exampleWorld).2.store a).State = NodeState.StateUpToDate :=
  (C12_rebuild_path exampleEnv exampleAgent 3 1 [] rebuildRequest idleChannels exampleWorld
    (List.not_mem_nil _) (Or.inl rfl)).2 rfl rfl

/-! ## Test path: proofs -/

lemma testSRPMFile_eq (env : Env) (agent : BuildAgent) (checkAttempts : Int)
    (srpmFile outArch : String) (dependencies : List String) (w : World) :
    testSRPMFile env agent checkAttempts srpmFile outArch dependencies w =
      (((retryLoop (testOperation env agent srpmFile outArch dependencies) testSleep
            checkAttempts.toNat none
            { logFile := "", checkFailed := false, world := w }).2.logFile,
        if (retryLoop (testOperation env agent srpmFile outArch dependencies) testSleep
              checkAttempts.toNat none
              { logFile := "", checkFailed := false, world := w }).1.isSome &&
            (retryLoop (testOperation env agent srpmFile outArch dependencies) testSleep
              checkAttempts.toNat none
              { logFile := "", checkFailed := false, world := w }).2.checkFailed
        then none
        else (retryLoop (testOperation env agent srpmFile outArch dependencies) testSleep
              checkAttempts.toNat none
              { logFile := "", checkFailed := false, world := w }).1),
       (retryLoop (testOperation env agent srpmFile outArch dependencies) testSleep
            checkAttempts.toNat none
            { logFile := "", checkFailed := false, world := w }).2.world) :=
  rfl

lemma scanCheckSection_eq (env : Env) (t : Nat) (logFile : String) (lines : List String)
    (w : World) :
    scanCheckSection env t logFile lines w =
      match lines.find? isCheckDone with
      | none => (none, w)
      | some line =>
        if isExitStatusZero line then (none, w)
        else
          (match env.copyFile t logFile (failedLogName env t logFile) with
            | some e => some e
            | none => some (Error.testFailed line),
           w.emit (Event.copyLog logFile (failedLogName env t logFile))) := by
  induction lines with
  | nil => simp [scanCheckSection]
  | cons l rest ih =>
    unfold scanCheckSection
    by_cases hm : stringsContains l "CHECK DONE" = true
    · have hfind : (l :: rest).find? isCheckDone = some l := by
        simp [List.find?, isCheckDone, hm]
      rw [if_pos hm, hfind]
      by_cases hz : stringsContains l "EXIT STATUS 0" = true
      · simp [isExitStatusZero, hz]
      · simp only [isExitStatusZero, hz, if_false, failedLogName]
        cases env.copyFile t logFile
            (stringsTrimSuffix logFile ".test.log" ++ "-FAILED_TEST-" ++
              toString (env.unixMilli t) ++ ".log") <;> rfl
    · have hfind : (l :: rest).find? isCheckDone = rest.find? isCheckDone := by
        simp [List.find?, isCheckDone, hm]
      rw [if_neg hm, hfind]
      exact ih

lemma find_isCheckDone_of_first (pre post : List String) (line : String)
    (hpre : ∀ l ∈ pre, isCheckDone l = false) (hline : isCheckDone line = true) :
    (pre ++ line :: post).find? isCheckDone = some line := by
  rw [List.find?_eq_some]
  exact ⟨hline, pre, post, rfl, fun a ha => by simp [hpre a ha]⟩

lemma parseCheckSection_opened (env : Env) (logFile : String) (lines : List String)
    (w : World) (hopen : env.openLog w.agentCallCount logFile = Except.ok lines) :
    parseCheckSection env logFile w =
      match (scannerLines lines).find? isCheckDone with
      | none => (none, w.emit (Event.openLog logFile))
      | some line =>
        if isExitStatusZero line then (none, w.emit (Event.openLog logFile))
        else
          (match env.copyFile w.agentCallCount logFile
              (failedLogName env w.agentCallCount logFile) with
            | some e => some e
            | none => some (Error.testFailed line),
           (w.emit (Event.openLog logFile)).emit
             (Event.copyLog logFile (failedLogName env w.agentCallCount logFile))) := by
  unfold parseCheckSection
  simp only [hopen]
  rw [scanCheckSection_eq]

lemma utf8ByteSize_replicate (n : Nat) :
    (String.mk (List.replicate n (Char.ofNat 120))).utf8ByteSize = n := by
  have hgo : ∀ m, String.utf8ByteSize.go (List.replicate m (Char.ofNat 120)) = m := by
    intro m
    induction m with
    | zero => rfl
    | succ k ih =>
      rw [List.replicate_succ, String.utf8ByteSize.go, ih]
      rfl
  exact hgo n

lemma scannerLines_of_long (pre post : List String) (long : String)
    (hpre : ∀ l ∈ pre, l.utf8ByteSize < maxScanTokenSize)
    (hlong : maxScanTokenSize ≤ long.utf8ByteSize) :
    scannerLines (pre ++ long :: post) = pre.map dropCR := by
  unfold scannerLines
  congr 1
  induction pre with
  | nil => simp [List.takeWhile, Nat.not_lt.mpr hlong]
  | cons a rest ih =>
    have ha : a.utf8ByteSize < maxScanTokenSize := hpre a (List.mem_cons_self a rest)
    rw [List.cons_append, List.takeWhile_cons]
    simp only [ha, decide_True, if_true]
    rw [ih (fun l hl => hpre l (List.mem_cons_of_mem a hl))]

/-- C18 (code defect). Check-section verdict, for a log that can be opened and has the raw
lines `lines`.  The code gives the verdict of the claim on the lines that its scanner
yields, `scannerLines lines`, and not on the lines of the log.  On the scanned lines: if
none contains "CHECK DONE" the error is nil; if `line` is the first that contains
"CHECK DONE" (no line of `pre` contains it), the outcome is a function of `line` alone,
whatever the lines `post` after it are: a nil error when `line` contains "EXIT STATUS 0";
otherwise the log is copied to the failure name and the error is non-nil, namely the
copy's error if the copy fails and else the test-failed error carrying `line`; so the
error is nil exactly when the scanned lines hold no marker line or the first of them
contains "EXIT STATUS 0".  On the log itself the claim fails: the scanner stops without
a word at a raw line `long` of 65536 bytes or more (`scanner.Err()` is never looked at),
so when the lines `pre` before `long` are shorter and hold no marker, the error is nil
and nothing is copied, whatever the lines `post` after `long` are, a line with
"CHECK DONE" and without "EXIT STATUS 0" among them included.  When every raw line is
shorter than that, the scanned lines are all the lines of the log, each without its final
carriage return. -/
theorem C18_check_section_verdict (env : Env) (logFile : String) (lines : List String)
    (w : World) (hopen : env.openLog w.agentCallCount logFile = Except.ok lines) :
    ((∀ l ∈ scannerLines lines, isCheckDone l = false) →
      parseCheckSection env logFile w = (none, w.emit (Event.openLog logFile))) ∧
    (∀ pre line post, scannerLines lines = pre ++ line :: post →
      (∀ l ∈ pre, isCheckDone l = false) → isCheckDone line = true →
      parseCheckSection env logFile w =
        (if isExitStatusZero line then (none, w.emit (Event.openLog logFile))
         else
          (match env.copyFile w.agentCallCount logFile
              (failedLogName env w.agentCallCount logFile) with
            | some e => some e
            | none => some (Error.testFailed line),
           (w.emit (Event.openLog logFile)).emit
             (Event.copyLog logFile (failedLogName env w.agentCallCount logFile)))) ∧
      (isExitStatusZero line = false → (parseCheckSection env logFile w).1 ≠ none)) ∧
    ((parseCheckSection env logFile w).1 = none ↔
      ((∀ l ∈ scannerLines lines, isCheckDone l = false) ∨
        ∃ pre line post, scannerLines lines = pre ++ line :: post ∧
          (∀ l ∈ pre, isCheckDone l = false) ∧
          isCheckDone line = true ∧ isExitStatusZero line = true)) ∧
    (∀ pre long post, lines = pre ++ long :: post →
      (∀ l ∈ pre, l.utf8ByteSize < maxScanTokenSize ∧ isCheckDone (dropCR l) = false) →
      maxScanTokenSize ≤ long.utf8ByteSize →
      parseCheckSection env logFile w = (none, w.emit (Event.openLog logFile))) ∧
    ((∀ l ∈ lines, l.utf8ByteSize < maxScanTokenSize) →
      scannerLines lines = lines.map dropCR) := by
  have hparse := parseCheckSection_opened env logFile lines w hopen
  have hnone : (∀ l ∈ scannerLines lines, isCheckDone l = false) →
      parseCheckSection env logFile w = (none, w.emit (Event.openLog logFile)) := by
    intro h
    have hfind : (scannerLines lines).find? isCheckDone = none := by
      rw [List.find?_eq_none]
      intro x hx
      simp [h x hx]
    rw [hparse, hfind]
  have hfirst : ∀ pre line post, scannerLines lines = pre ++ line :: post →
      (∀ l ∈ pre, isCheckDone l = false) → isCheckDone line = true →
      parseCheckSection env logFile w =
        (if isExitStatusZero line then (none, w.emit (Event.openLog logFile))
         else
          (match env.copyFile w.agentCallCount logFile
              (failedLogName env w.agentCallCount logFile) with
            | some e => some e
            | none => some (Error.testFailed line),
           (w.emit (Event.openLog logFile)).emit
             (Event.copyLog logFile (failedLogName env w.agentCallCount logFile)))) := by
    intro pre line post hl hpre hline
    rw [hparse, hl, find_isCheckDone_of_first pre post line hpre hline]
  have hfail : ∀ pre line post, scannerLines lines = pre ++ line :: post →
      (∀ l ∈ pre, isCheckDone l = false) → isCheckDone line = true →
      isExitStatusZero line = false → (parseCheckSection env logFile w).1 ≠ none := by
    intro pre line post hl hpre hline hz
    rw [hfirst pre line post hl hpre hline, hz]
    simp only [Bool.false_eq_true, if_false]
    cases env.copyFile w.agentCallCount logFile (failedLogName env w.agentCallCount logFile) <;>
      simp
  refine ⟨hnone, fun pre line post hl hpre hline =>
    ⟨hfirst pre line post hl hpre hline, hfail pre line post hl hpre hline⟩, ?_, ?_, ?_⟩
  · constructor
    · intro herr
      cases hfind : (scannerLines lines).find? isCheckDone with
      | none =>
        left
        rw [List.find?_eq_none] at hfind
        intro l hl
        simpa using hfind l hl
      | some line =>
        right
        rw [List.find?_eq_some] at hfind
        obtain ⟨hline, pre, post, hl, hpre⟩ := hfind
        have hpre' : ∀ l ∈ pre, isCheckDone l = false := fun l hlp => by
          simpa using hpre l hlp
        refine ⟨pre, line, post, hl, hpre', hline, ?_⟩
        by_contra hz
        exact hfail pre line post hl hpre' hline (by simpa using hz) herr
    · rintro (h | ⟨pre, line, post, hl, hpre, hline, hz⟩)
      · rw [hnone h]
      · rw [hfirst pre line post hl hpre hline, hz]
        simp
  · intro pre long post hl hpre hlong
    apply hnone
    rw [hl, scannerLines_of_long pre post long (fun l hlp => (hpre l hlp).1) hlong]
    intro l hlm
    obtain ⟨a, ha, rfl⟩ := List.mem_map.mp hlm
    exact (hpre a ha).2
  · intro hshort
    unfold scannerLines
    rw [List.takeWhile_eq_self_iff.mpr (fun l hl => by simpa using hshort l hl)]

/-- C18 at the failing input: the log has a first line of 65536 bytes and a second line
"CHECK DONE EXIT STATUS 1".  The second line is a marker line without "EXIT STATUS 0"
and no line before it holds the marker, yet the error is nil and no copy is made. -/
theorem C18_check_section_verdict_witness :
    isCheckDone "CHECK DONE EXIT STATUS 1" = true ∧
    isExitStatusZero "CHECK DONE EXIT STATUS 1" = false ∧
    longLine.utf8ByteSize = 65536 ∧
    parseCheckSection longLineEnv "pkg.src.rpm.test.log" exampleWorld =
      (none, exampleWorld.emit (Event.openLog "pkg.src.rpm.test.log")) :=
  ⟨by decide, by decide, utf8ByteSize_replicate maxScanTokenSize,
    (C18_check_section_verdict longLineEnv "pkg.src.rpm.test.log"
      [longLine, "CHECK DONE EXIT STATUS 1"] exampleWorld rfl).2.2.2.1
      [] longLine ["CHECK DONE EXIT STATUS 1"] rfl (by simp)
      (Nat.le_of_eq (utf8ByteSize_replicate maxScanTokenSize).symm)⟩

lemma parseCheckSection_world (env : Env) (logFile : String) (w : World) :
    (parseCheckSection env logFile w).2.store = w.store ∧
      (parseCheckSection env logFile w).2.agentCallCount = w.agentCallCount ∧
      ∃ ex, (parseCheckSection env logFile w).2.trace = w.trace ++ ex ∧
        ∀ e ∈ ex, Event.isAgentCall e = false := by
  have key : (parseCheckSection env logFile w).2.store = w.store ∧
      ∃ ex, (parseCheckSection env logFile w).2.trace = w.trace ++ ex ∧
        ∀ e ∈ ex, Event.isAgentCall e = false := by
    cases hopen : env.openLog w.agentCallCount logFile with
    | error e =>
      refine ⟨?_, [Event.openLog logFile], ?_, ?_⟩
      · simp [parseCheckSection, hopen, World.emit]
      · simp [parseCheckSection, hopen, World.emit]
      · simp [Event.isAgentCall]
    | ok lines =>
      rw [parseCheckSection_opened env logFile lines w hopen]
      cases (scannerLines lines).find? isCheckDone with
      | none => exact ⟨rfl, [Event.openLog logFile], rfl, by simp [Event.isAgentCall]⟩
      | some line =>
        by_cases hz : isExitStatusZero line = true
        · simp only [hz, if_true]
          exact ⟨rfl, [Event.openLog logFile], rfl, by simp [Event.isAgentCall]⟩
        · simp only [hz, if_false]
          exact ⟨rfl, [Event.openLog logFile,
            Event.copyLog logFile (failedLogName env w.agentCallCount logFile)],
            by simp [World.emit], by simp [Event.isAgentCall]⟩
  obtain ⟨hs, ex, htr, hex⟩ := key
  refine ⟨hs, ?_, ex, htr, hex⟩
  have h0 : List.countP Event.isAgentCall ex = 0 :=
    List.countP_eq_zero.mpr (fun e he => by simp [hex e he])
  simp only [World.agentCallCount, htr, List.countP_append, h0, Nat.add_zero]

lemma testOperation_world (env : Env) (agent : BuildAgent) (srpmFile outArch : String)
    (dependencies : List String) (v : TestVars) :
    (testOperation env agent srpmFile outArch dependencies v).2.world.store = v.world.store ∧
      (testOperation env agent srpmFile outArch dependencies v).2.world.agentCallCount =
        v.world.agentCallCount + 1 ∧
      (testOperation env agent srpmFile outArch dependencies v).2.logFile =
        (agent.BuildPackage v.world.agentCallCount srpmFile
          (filepathBase srpmFile ++ ".test.log") outArch true dependencies).2.1 ∧
      ∃ ex, (testOperation env agent srpmFile outArch dependencies v).2.world.trace =
          v.world.trace ++
            Event.agentCall srpmFile (filepathBase srpmFile ++ ".test.log") outArch true
              dependencies :: ex ∧
        ∀ e ∈ ex, Event.isAgentCall e = false := by
  have hcount : (v.world.emit (Event.agentCall srpmFile (filepathBase srpmFile ++ ".test.log")
      outArch true dependencies)).agentCallCount = v.world.agentCallCount + 1 := by
    simp [World.agentCallCount_emit, Event.isAgentCall]
  cases hr : (agent.BuildPackage v.world.agentCallCount srpmFile
      (filepathBase srpmFile ++ ".test.log") outArch true dependencies).2.2 with
  | some e =>
    have hop : testOperation env agent srpmFile outArch dependencies v =
        (some e,
         { v with
           logFile := (agent.BuildPackage v.world.agentCallCount srpmFile
              (filepathBase srpmFile ++ ".test.log") outArch true dependencies).2.1,
           world := v.world.emit (Event.agentCall srpmFile
              (filepathBase srpmFile ++ ".test.log") outArch true dependencies) }) := by
      simp [testOperation, callBuildPackage, hr]
    rw [hop]
    exact ⟨rfl, hcount, rfl, [], by simp [World.emit], by simp⟩
  | none =>
    have hop : testOperation env agent srpmFile outArch dependencies v =
        ((parseCheckSection env
            (agent.BuildPackage v.world.agentCallCount srpmFile
              (filepathBase srpmFile ++ ".test.log") outArch true dependencies).2.1
            (v.world.emit (Event.agentCall srpmFile
              (filepathBase srpmFile ++ ".test.log") outArch true dependencies))).1,
         { logFile := (agent.BuildPackage v.world.agentCallCount srpmFile
              (filepathBase srpmFile ++ ".test.log") outArch true dependencies).2.1,
           checkFailed := (parseCheckSection env
            (agent.BuildPackage v.world.agentCallCount srpmFile
              (filepathBase srpmFile ++ ".test.log") outArch true dependencies).2.1
            (v.world.emit (Event.agentCall srpmFile
              (filepathBase srpmFile ++ ".test.log") outArch true dependencies))).1.isSome,
           world := (parseCheckSection env
            (agent.BuildPackage v.world.agentCallCount srpmFile
              (filepathBase srpmFile ++ ".test.log") outArch true dependencies).2.1
            (v.world.emit (Event.agentCall srpmFile
              (filepathBase srpmFile ++ ".test.log") outArch true dependencies))).2 }) := by
      simp [testOperation, callBuildPackage, hr]
    rw [hop]
    obtain ⟨hs, hc, ex, htr, hex⟩ := parseCheckSection_world env
      (agent.BuildPackage v.world.agentCallCount srpmFile
        (filepathBase srpmFile ++ ".test.log") outArch true dependencies).2.1
      (v.world.emit (Event.agentCall srpmFile (filepathBase srpmFile ++ ".test.log")
        outArch true dependencies))
    exact ⟨hs, hc.trans hcount, rfl, ex, by rw [htr]; simp [World.emit], hex⟩

lemma testOperation_check_fails (env : Env) (agent : BuildAgent) (srpmFile outArch : String)
    (dependencies : List String) (v : TestVars)
    (hagent : (agent.BuildPackage v.world.agentCallCount srpmFile
      (filepathBase srpmFile ++ ".test.log") outArch true dependencies).2.2 = none)
    (hparse : ∀ file w1, (parseCheckSection env file w1).1 ≠ none) :
    (testOperation env agent srpmFile outArch dependencies v).1 ≠ none ∧
      (testOperation env agent srpmFile outArch dependencies v).2.checkFailed = true := by
  have hp := hparse
    (agent.BuildPackage v.world.agentCallCount srpmFile
      (filepathBase srpmFile ++ ".test.log") outArch true dependencies).2.1
    (v.world.emit (Event.agentCall srpmFile (filepathBase srpmFile ++ ".test.log") outArch
      true dependencies))
  obtain ⟨e, he⟩ := Option.ne_none_iff_exists'.mp hp
  simp [testOperation, callBuildPackage, hagent, he]

lemma retryLoop_test_all_checks_fail (env : Env) (agent : BuildAgent)
    (srpmFile outArch : String) (dependencies : List String)
    (hagent : ∀ t, (agent.BuildPackage t srpmFile (filepathBase srpmFile ++ ".test.log")
      outArch true dependencies).2.2 = none)
    (hparse : ∀ file w1, (parseCheckSection env file w1).1 ≠ none) :
    ∀ (m : Nat) (last : Option Error) (v : TestVars),
      (retryLoop (testOperation env agent srpmFile outArch dependencies) testSleep (m + 1)
          last v).1 ≠ none ∧
        (retryLoop (testOperation env agent srpmFile outArch dependencies) testSleep (m + 1)
          last v).2.checkFailed = true ∧
        (retryLoop (testOperation env agent srpmFile outArch dependencies) testSleep (m + 1)
          last v).2.logFile =
            (agent.BuildPackage (v.world.agentCallCount + m) srpmFile
              (filepathBase srpmFile ++ ".test.log") outArch true dependencies).2.1 ∧
        (retryLoop (testOperation env agent srpmFile outArch dependencies) testSleep (m + 1)
          last v).2.world.agentCallCount = v.world.agentCallCount + (m + 1) := by
  intro m
  induction m with
  | zero =>
    intro last v
    obtain ⟨hne, hcf⟩ := testOperation_check_fails env agent srpmFile outArch dependencies v
      (hagent _) hparse
    obtain ⟨-, hcount, hlog, -⟩ := testOperation_world env agent srpmFile outArch dependencies v
    rw [retryLoop]
    rcases hop : testOperation env agent srpmFile outArch dependencies v with ⟨x, s1⟩
    rw [hop] at hne hcf hcount hlog
    cases x with
    | none => exact absurd rfl hne
    | some e => exact ⟨by simp, by simpa using hcf, by simpa using hlog, by simpa using hcount⟩
  | succ m ih =>
    intro last v
    obtain ⟨hne, -⟩ := testOperation_check_fails env agent srpmFile outArch dependencies v
      (hagent _) hparse
    obtain ⟨-, hcount, -, -⟩ := testOperation_world env agent srpmFile outArch dependencies v
    rw [retryLoop]
    rcases hop : testOperation env agent srpmFile outArch dependencies v with ⟨x, s1⟩
    rw [hop] at hne hcount
    cases x with
    | none => exact absurd rfl hne
    | some e =>
      simp only [Nat.add_one_ne_zero, if_false]
      have hc1 : (testSleep s1).world.agentCallCount = v.world.agentCallCount + 1 := by
        simp only [testSleep, World.agentCallCount_emit]
        simpa [Event.isAgentCall] using hcount
      obtain ⟨h1, h2, h3, h4⟩ := ih (some e) (testSleep s1)
      refine ⟨h1, h2, ?_, ?_⟩
      · rw [h3, hc1, show v.world.agentCallCount + 1 + m = v.world.agentCallCount + (m + 1) by
          omega]
      · rw [h4, hc1]
        omega

lemma testSRPMFile_all_checks_fail (env : Env) (agent : BuildAgent) (checkAttempts : Int)
    (srpmFile outArch : String) (dependencies : List String) (w : World)
    (hagent : ∀ t, (agent.BuildPackage t srpmFile (filepathBase srpmFile ++ ".test.log")
      outArch true dependencies).2.2 = none)
    (hparse : ∀ file w1, (parseCheckSection env file w1).1 ≠ none) :
    (testSRPMFile env agent checkAttempts srpmFile outArch dependencies w).1.2 = none ∧
      (1 ≤ checkAttempts →
        (testSRPMFile env agent checkAttempts srpmFile outArch dependencies w).1.1 =
          (agent.BuildPackage (w.agentCallCount + (checkAttempts.toNat - 1)) srpmFile
            (filepathBase srpmFile ++ ".test.log") outArch true dependencies).2.1 ∧
        (testSRPMFile env agent checkAttempts srpmFile outArch dependencies
          w).2.agentCallCount = w.agentCallCount + checkAttempts.toNat) := by
  rw [testSRPMFile_eq]
  by_cases h0 : checkAttempts.toNat = 0
  · refine ⟨by simp [h0, retryLoop], fun h => ?_⟩
    omega
  · obtain ⟨m, hm⟩ := Nat.exists_eq_succ_of_ne_zero h0
    obtain ⟨h1, h2, h3, h4⟩ := retryLoop_test_all_checks_fail env agent srpmFile outArch
      dependencies hagent hparse m none { logFile := "", checkFailed := false, world := w }
    rw [hm]
    refine ⟨?_, fun _ => ⟨?_, ?_⟩⟩
    · simp only [h2, Bool.and_true]
      rw [if_pos (Option.isSome_iff_ne_none.mpr h1)]
    · simpa using h3
    · simpa using h4

lemma retryLoop_test_trace (env : Env) (agent : BuildAgent) (srpmFile outArch : String)
    (dependencies : List String) :
    ∀ (m : Nat) (last : Option Error) (v : TestVars),
      ∃ ex,
        (retryLoop (testOperation env agent srpmFile outArch dependencies) testSleep m last
            v).2.world.trace = v.world.trace ++ ex ∧
        (∀ e ∈ ex, Event.isAgentCall e = true →
          e = Event.agentCall srpmFile (filepathBase srpmFile ++ ".test.log") outArch true
            dependencies) ∧
        (0 < m → ∃ rest,
          ex = Event.agentCall srpmFile (filepathBase srpmFile ++ ".test.log") outArch true
            dependencies :: rest) := by
  intro m
  induction m with
  | zero =>
    intro last v
    exact ⟨[], by simp [retryLoop], by simp, fun h => absurd h (lt_irrefl _)⟩
  | succ m ih =>
    intro last v
    obtain ⟨-, -, -, ex1, htr1, hex1⟩ := testOperation_world env agent srpmFile outArch
      dependencies v
    have hmem1 : ∀ e ∈ Event.agentCall srpmFile (filepathBase srpmFile ++ ".test.log") outArch
        true dependencies :: ex1, Event.isAgentCall e = true →
        e = Event.agentCall srpmFile (filepathBase srpmFile ++ ".test.log") outArch true
          dependencies := by
      intro e he hcall
      rcases List.mem_cons.mp he with h | h
      · exact h
      · rw [hex1 e h] at hcall
        exact absurd hcall (by simp)
    rw [retryLoop]
    rcases hop : testOperation env agent srpmFile outArch dependencies v with ⟨x, s1⟩
    rw [hop] at htr1
    cases x with
    | none => exact ⟨_, htr1, hmem1, fun _ => ⟨ex1, rfl⟩⟩
    | some e =>
      by_cases hm : m = 0
      · simp only [hm, if_true]
        exact ⟨_, htr1, hmem1, fun _ => ⟨ex1, rfl⟩⟩
      · simp only [hm, if_false]
        obtain ⟨ex2, htr2, hex2, -⟩ := ih (some e) (testSleep s1)
        refine ⟨Event.agentCall srpmFile (filepathBase srpmFile ++ ".test.log") outArch true
          dependencies :: (ex1 ++ Event.sleep :: ex2), ?_, ?_, fun _ => ⟨_, rfl⟩⟩
        · rw [htr2]
          simp only [testSleep, World.emit]
          simp only at htr1
          rw [htr1]
          simp
        · intro e' he' hcall
          rcases List.mem_cons.mp he' with h | h
          · exact h
          · rcases List.mem_append.mp h with h | h
            · exact hmem1 e' (List.mem_cons_of_mem _ h) hcall
            · rcases List.mem_cons.mp h with h | h
              · rw [h] at hcall
                exact absurd hcall (by simp [Event.isAgentCall])
              · exact hex2 e' h hcall

/-- C13 as stated fails in its second half: with an attempt limit of zero and
`canUseCache = false` the test path of a Test node that is not ignored invokes no agent:
the record holds the dependency resolution only and the returned error is nil. -/
theorem C13_counterexample :
    (exampleWorld.store testRunRequest.Node).Type_ = NodeType.TypeTest ∧
    ignoreListContains [] (exampleWorld.store testRunRequest.Node).VersionedPkg = false ∧
    testRunRequest.CanUseCache = false ∧
    (buildTestNode exampleEnv testRunRequest.Node testRunRequest.PkgGraph exampleAgent
        testRunRequest.CanUseCache 0 [] exampleWorld).2.trace = [Event.resolveDeps 3] ∧
    (buildTestNode exampleEnv testRunRequest.Node testRunRequest.PkgGraph exampleAgent
        testRunRequest.CanUseCache 0 [] exampleWorld).2.agentCallCount = 0 ∧
    (buildTestNode exampleEnv testRunRequest.Node testRunRequest.PkgGraph exampleAgent
        testRunRequest.CanUseCache 0 [] exampleWorld).1.err = none := by
  decide

/-- C13, amended. Test-path cache skip: for a node that is not on the ignore list, with
`canUseCache = true` `buildTestNode` returns `ignored = false`, an empty log file and a
nil error and leaves the world as it was, so the agent is not invoked and no log is
opened.  With `canUseCache = false` it resolves the dependencies and returns the log file
and error of `testSRPMFile`; every agent invocation recorded is in test mode
(`runCheck = true`) on the node's `SrpmPath`, `Architecture` and dependency list, and
with an attempt limit of at least one the agent is invoked right after the dependency
resolution. -/
theorem C13_test_cache_skip (env : Env) (node : Nat) (pkgGraph : PkgGraph)
    (agent : BuildAgent) (checkAttempts : Int) (ignoredPackages : List PackageVer) (w : World)
    (hignore : (w.store node).VersionedPkg ∉ ignoredPackages) :
    buildTestNode env node pkgGraph agent true checkAttempts ignoredPackages w =
        ({ ignored := false, logFile := "", err := none }, w) ∧
    buildTestNode env node pkgGraph agent false checkAttempts ignoredPackages w =
        ({ ignored := false,
           logFile := (testSRPMFile env agent checkAttempts (w.store node).SrpmPath
              (w.store node).Architecture (getBuildDependencies env node pkgGraph w.store)
              (w.emit (Event.resolveDeps node))).1.1,
           err := (testSRPMFile env agent checkAttempts (w.store node).SrpmPath
              (w.store node).Architecture (getBuildDependencies env node pkgGraph w.store)
              (w.emit (Event.resolveDeps node))).1.2 },
         (testSRPMFile env agent checkAttempts (w.store node).SrpmPath
              (w.store node).Architecture (getBuildDependencies env node pkgGraph w.store)
              (w.emit (Event.resolveDeps node))).2) ∧
    ∃ ex,
      (buildTestNode env node pkgGraph agent false checkAttempts ignoredPackages w).2.trace =
        w.trace ++ Event.resolveDeps node :: ex ∧
      (∀ e ∈ ex, Event.isAgentCall e = true →
        e = Event.agentCall (w.store node).SrpmPath
          (filepathBase (w.store node).SrpmPath ++ ".test.log") (w.store node).Architecture
          true (getBuildDependencies env node pkgGraph w.store)) ∧
      (1 ≤ checkAttempts → ∃ rest,
        ex = Event.agentCall (w.store node).SrpmPath
          (filepathBase (w.store node).SrpmPath ++ ".test.log") (w.store node).Architecture
          true (getBuildDependencies env node pkgGraph w.store) :: rest) := by
  have hc : ignoreListContains ignoredPackages (w.store node).VersionedPkg = false := by
    rw [Bool.eq_false_iff]
    exact fun h => hignore ((ignoreListContains_iff _ _).mp h)
  have hrun : buildTestNode env node pkgGraph agent false checkAttempts ignoredPackages w =
      ({ ignored := false,
         logFile := (testSRPMFile env agent checkAttempts (w.store node).SrpmPath
            (w.store node).Architecture (getBuildDependencies env node pkgGraph w.store)
            (w.emit (Event.resolveDeps node))).1.1,
         err := (testSRPMFile env agent checkAttempts (w.store node).SrpmPath
            (w.store node).Architecture (getBuildDependencies env node pkgGraph w.store)
            (w.emit (Event.resolveDeps node))).1.2 },
       (testSRPMFile env agent checkAttempts (w.store node).SrpmPath
            (w.store node).Architecture (getBuildDependencies env node pkgGraph w.store)
            (w.emit (Event.resolveDeps node))).2) := by
    unfold buildTestNode
    simp [hc]
  refine ⟨?_, hrun, ?_⟩
  · unfold buildTestNode
    simp [hc]
  · obtain ⟨ex, htr, hex, hfirst⟩ := retryLoop_test_trace env agent (w.store node).SrpmPath
      (w.store node).Architecture (getBuildDependencies env node pkgGraph w.store)
      checkAttempts.toNat none
      { logFile := "", checkFailed := false, world := w.emit (Event.resolveDeps node) }
    refine ⟨ex, ?_, hex, fun h => hfirst (by omega)⟩
    rw [hrun, testSRPMFile_eq]
    simp only
    rw [htr]
    simp [World.emit]

/-- C13, amended, at a concrete input: the test node 3 with an empty ignore list and an
attempt limit of two: the cache skip, and the agent invoked in test mode right after the
dependency resolution when the cache may not be used. -/
theorem C13_test_cache_skip_witness :
    buildTestNode exampleEnv 3 { edges := [] } exampleAgent true 2 [] exampleWorld =
        ({ ignored := false, logFile := "", err := none }, exampleWorld) ∧
    ∃ rest,
      (buildTestNode exampleEnv 3 { edges := [] } exampleAgent false 2 [] exampleWorld).2.trace =
        exampleWorld.trace ++ Event.resolveDeps 3 ::
          Event.agentCall (exampleWorld.store 3).SrpmPath
            (filepathBase (exampleWorld.store 3).SrpmPath ++ ".test.log")
            (exampleWorld.store 3).Architecture true
            (getBuildDependencies exampleEnv 3 { edges := [] } exampleWorld.store) :: rest :=
  have h := C13_test_cache_skip exampleEnv 3 { edges := [] } exampleAgent 2 [] exampleWorld
    (List.not_mem_nil _)
  ⟨h.1, by
    obtain ⟨ex, htr, -, hfirst⟩ := h.2.2
    obtain ⟨rest, hrest⟩ := hfirst (by decide)
    exact ⟨rest, by rw [htr, hrest]⟩⟩

lemma parseCheckSection_fails_of_unreadable (env : Env)
    (hopen : ∀ t file, ∃ e, env.openLog t file = Except.error e) :
    ∀ file w1, (parseCheckSection env file w1).1 ≠ none := by
  intro file w1
  obtain ⟨e, he⟩ := hopen w1.agentCallCount file
  simp [parseCheckSection, he]

lemma workerBody_test_err_none (env : Env) (agent : BuildAgent)
    (buildAttempts checkAttempts : Int) (ignoredPackages : List PackageVer)
    (req : BuildRequest) (channels : BuildChannels) (w : World)
    (htype : (w.store req.Node).Type_ = NodeType.TypeTest)
    (hagent : ∀ t, (agent.BuildPackage t (w.store req.Node).SrpmPath
      (filepathBase (w.store req.Node).SrpmPath ++ ".test.log") (w.store req.Node).Architecture
      true (getBuildDependencies env req.Node req.PkgGraph w.store)).2.2 = none)
    (hparse : ∀ file w1, (parseCheckSection env file w1).1 ≠ none) :
    ∃ res,
      (workerBody env agent buildAttempts checkAttempts ignoredPackages req channels
        w).1.Results = channels.Results ++ [res] ∧ res.Err = none := by
  refine ⟨_, by rw [workerBody_test env agent buildAttempts checkAttempts ignoredPackages req
    channels w htype], ?_⟩
  show (buildTestNode env req.Node req.PkgGraph agent req.CanUseCache checkAttempts
    ignoredPackages (w.emit (Event.receive req))).1.err = none
  unfold buildTestNode
  simp only
  split
  · rfl
  · split
    · rfl
    · exact (testSRPMFile_all_checks_fail env agent checkAttempts _ _ _ _ hagent hparse).1

/-- C20 fails on the code: whenever every agent invocation in test mode succeeds and no
log can be opened, `testSRPMFile` returns a nil error, for every attempt limit and from
every world: the error of opening the log sets `checkFailed` and is then cleared like a
check-section failure; the worker's result for such a Test request has `Err = nil`. -/
theorem C20_open_failure_is_cleared (env : Env) (agent : BuildAgent)
    (buildAttempts checkAttempts : Int) (ignoredPackages : List PackageVer)
    (req : BuildRequest) (channels : BuildChannels) (w : World)
    (hagent : ∀ t, (agent.BuildPackage t (w.store req.Node).SrpmPath
      (filepathBase (w.store req.Node).SrpmPath ++ ".test.log") (w.store req.Node).Architecture
      true (getBuildDependencies env req.Node req.PkgGraph w.store)).2.2 = none)
    (hopen : ∀ t file, ∃ e, env.openLog t file = Except.error e) :
    (∀ w1 : World,
      (testSRPMFile env agent checkAttempts (w.store req.Node).SrpmPath
          (w.store req.Node).Architecture
          (getBuildDependencies env req.Node req.PkgGraph w.store) w1).1.2 = none) ∧
    ((w.store req.Node).Type_ = NodeType.TypeTest →
      ∃ res,
        (workerBody env agent buildAttempts checkAttempts ignoredPackages req channels
          w).1.Results = channels.Results ++ [res] ∧ res.Err = none) := by
  have hparse := parseCheckSection_fails_of_unreadable env hopen
  exact ⟨fun w1 => (testSRPMFile_all_checks_fail env agent checkAttempts _ _ _ w1 hagent
      hparse).1,
    fun htype => workerBody_test_err_none env agent buildAttempts checkAttempts
      ignoredPackages req channels w htype hagent hparse⟩

/-- C20 at the failing input: the agent succeeds, the log it names cannot be opened, the
attempt limit is one; `testSRPMFile` returns a nil error. -/
theorem C20_open_failure_is_cleared_witness :
    (testSRPMFile exampleEnv exampleAgent 1 (exampleWorld.store testRunRequest.Node).SrpmPath
      (exampleWorld.store testRunRequest.Node).Architecture
      (getBuildDependencies exampleEnv testRunRequest.Node testRunRequest.PkgGraph
        exampleWorld.store) exampleWorld).1.2 = none :=
  (C20_open_failure_is_cleared exampleEnv exampleAgent 1 1 [] testRunRequest idleChannels
    exampleWorld (fun _ => rfl) (fun _ _ => ⟨_, rfl⟩)).1 exampleWorld

/-! ## Dependency resolution: proofs -/

lemma collectDependencies_mem (env : Env) (store : Nat → PkgNode) (node : Nat) :
    ∀ (l : List Nat) (lookup : List String) (p : String),
      p ∈ collectDependencies env store node l lookup ↔
        p ∈ lookup ∨ ∃ n ∈ l, (store n).RpmPath = p ∧ p ≠ "" ∧ p ≠ env.NoRPMPath ∧
          p ≠ (store node).RpmPath := by
  intro l
  induction l with
  | nil => intro lookup p; simp [collectDependencies]
  | cons a rest ih =>
    intro lookup p
    unfold collectDependencies
    simp only
    split
    · rename_i hskip
      rw [ih]
      constructor
      · rintro (h | ⟨n, hn, h⟩)
        · exact Or.inl h
        · exact Or.inr ⟨n, List.mem_cons_of_mem _ hn, h⟩
      · rintro (h | ⟨n, hn, hp, h1, h2, h3⟩)
        · exact Or.inl h
        · rcases List.mem_cons.mp hn with rfl | hn'
          · exfalso
            rw [hp] at hskip
            rcases hskip with h | h | h
            · exact h1 h
            · exact h2 h
            · exact h3 h
          · exact Or.inr ⟨n, hn', hp, h1, h2, h3⟩
    · rename_i hkeep
      have hk : (store a).RpmPath ≠ "" ∧ (store a).RpmPath ≠ env.NoRPMPath ∧
          (store a).RpmPath ≠ (store node).RpmPath := by
        refine ⟨fun h => hkeep (Or.inl h), fun h => hkeep (Or.inr (Or.inl h)),
          fun h => hkeep (Or.inr (Or.inr h))⟩
      split
      · rename_i hin
        rw [ih]
        constructor
        · rintro (h | ⟨n, hn, h⟩)
          · exact Or.inl h
          · exact Or.inr ⟨n, List.mem_cons_of_mem _ hn, h⟩
        · rintro (h | ⟨n, hn, hp, h⟩)
          · exact Or.inl h
          · rcases List.mem_cons.mp hn with rfl | hn'
            · exact Or.inl (hp ▸ hin)
            · exact Or.inr ⟨n, hn', hp, h⟩
      · rw [ih]
        constructor
        · rintro (h | ⟨n, hn, h⟩)
          · rcases List.mem_append.mp h with h | h
            · exact Or.inl h
            · rw [List.mem_singleton] at h
              exact Or.inr ⟨a, List.mem_cons_self _ _, h.symm, h ▸ hk.1, h ▸ hk.2.1,
                h ▸ hk.2.2⟩
          · exact Or.inr ⟨n, List.mem_cons_of_mem _ hn, h⟩
        · rintro (h | ⟨n, hn, hp, h⟩)
          · exact Or.inl (List.mem_append_left _ h)
          · rcases List.mem_cons.mp hn with rfl | hn'
            · exact Or.inl (List.mem_append_right _ (by simp [hp]))
            · exact Or.inr ⟨n, hn', hp, h⟩

lemma collectDependencies_nodup (env : Env) (store : Nat → PkgNode) (node : Nat) :
    ∀ (l : List Nat) (lookup : List String), lookup.Nodup →
      (collectDependencies env store node l lookup).Nodup := by
  intro l
  induction l with
  | nil => intro lookup h; simpa [collectDependencies] using h
  | cons a rest ih =>
    intro lookup h
    unfold collectDependencies
    simp only
    split
    · exact ih lookup h
    · split
      · exact ih lookup h
      · rename_i hnot
        apply ih
        rw [List.nodup_append]
        exact ⟨h, List.nodup_singleton _, by
          intro x hx hx'
          rw [List.mem_singleton] at hx'
          exact hnot (hx' ▸ hx)⟩

/-- C14. Whatever the graph, the node store and the requesting node, the list returned by
`getBuildDependencies` has no duplicate path and contains neither the empty string, nor
the `NoRPMPath` sentinel, nor the requesting node's own `RpmPath` (even if visited nodes
carry that path). -/
theorem C14_dependencies_are_clean (env : Env) (node : Nat) (pkgGraph : PkgGraph)
    (store : Nat → PkgNode) :
    (getBuildDependencies env node pkgGraph store).Nodup ∧
      "" ∉ getBuildDependencies env node pkgGraph store ∧
      env.NoRPMPath ∉ getBuildDependencies env node pkgGraph store ∧
      (store node).RpmPath ∉ getBuildDependencies env node pkgGraph store := by
  unfold getBuildDependencies
  simp only
  refine ⟨collectDependencies_nodup env store node _ [] List.nodup_nil, ?_, ?_, ?_⟩
  · intro h
    rw [collectDependencies_mem] at h
    rcases h with h | ⟨n, -, -, h1, -, -⟩
    · simp at h
    · exact h1 rfl
  · intro h
    rw [collectDependencies_mem] at h
    rcases h with h | ⟨n, -, -, -, h2, -⟩
    · simp at h
    · exact h2 rfl
  · intro h
    rw [collectDependencies_mem] at h
    rcases h with h | ⟨n, -, -, -, -, h3⟩
    · simp at h
    · exact h3 rfl

lemma PkgGraph.mem_From (g : PkgGraph) (a b : Nat) : b ∈ g.From a ↔ (a, b) ∈ g.edges := by
  unfold PkgGraph.From
  simp only [List.mem_map, List.mem_filter, beq_iff_eq]
  constructor
  · rintro ⟨⟨x, y⟩, ⟨hmem, hx⟩, hy⟩
    simp only at hx hy
    subst hx hy
    exact hmem
  · intro h
    exact ⟨(a, b), ⟨h, rfl⟩, rfl⟩

lemma enqueueSuccessors_spec (traverse : Nat → Nat → Bool) (t : Nat) :
    ∀ (succs queue visited : List Nat),
      ∃ new, enqueueSuccessors traverse t succs (queue, visited) =
          (queue ++ new, visited ++ new) ∧
        new.Nodup ∧
        (∀ x ∈ new, x ∈ succs ∧ traverse t x = true ∧ x ∉ visited) ∧
        (∀ b ∈ succs, traverse t b = true → b ∈ visited ++ new) := by
  intro succs
  induction succs with
  | nil =>
    intro queue visited
    exact ⟨[], by simp [enqueueSuccessors], List.nodup_nil, by simp, by simp⟩
  | cons s rest ih =>
    intro queue visited
    have hstep : enqueueSuccessors traverse t (s :: rest) (queue, visited) =
        enqueueSuccessors traverse t rest
          (if (!traverse t s) = true then (queue, visited)
           else if s ∈ visited then (queue, visited)
           else (queue ++ [s], visited ++ [s])) := by
      simp [enqueueSuccessors, List.foldl_cons]
    rw [hstep]
    by_cases htr : traverse t s = true
    · by_cases hvis : s ∈ visited
      · simp only [htr, Bool.not_true, Bool.false_eq_true, if_false, hvis, if_true]
        obtain ⟨new, heq, hnd, hnew, hall⟩ := ih queue visited
        refine ⟨new, heq, hnd, fun x hx => ⟨List.mem_cons_of_mem _ (hnew x hx).1,
          (hnew x hx).2⟩, ?_⟩
        intro b hb hbt
        rcases List.mem_cons.mp hb with rfl | hb'
        · exact List.mem_append_left _ hvis
        · exact hall b hb' hbt
      · simp only [htr, Bool.not_true, Bool.false_eq_true, if_false, hvis]
        obtain ⟨new, heq, hnd, hnew, hall⟩ := ih (queue ++ [s]) (visited ++ [s])
        refine ⟨s :: new, ?_, ?_, ?_, ?_⟩
        · rw [heq]
          simp
        · rw [List.nodup_cons]
          refine ⟨fun hs => ?_, hnd⟩
          exact (hnew s hs).2.2 (List.mem_append_right _ (List.mem_singleton_self s))
        · intro x hx
          rcases List.mem_cons.mp hx with rfl | hx'
          · exact ⟨List.mem_cons_self _ _, htr, hvis⟩
          · obtain ⟨h1, h2, h3⟩ := hnew x hx'
            exact ⟨List.mem_cons_of_mem _ h1, h2, fun h => h3 (List.mem_append_left _ h)⟩
        · intro b hb hbt
          rcases List.mem_cons.mp hb with rfl | hb'
          · simp
          · have := hall b hb' hbt
            simpa [List.append_assoc] using this
    · have hf : traverse t s = false := by simpa using htr
      simp only [hf, Bool.not_false, if_true]
      obtain ⟨new, heq, hnd, hnew, hall⟩ := ih queue visited
      refine ⟨new, heq, hnd, fun x hx => ⟨List.mem_cons_of_mem _ (hnew x hx).1,
        (hnew x hx).2⟩, ?_⟩
      intro b hb hbt
      rcases List.mem_cons.mp hb with rfl | hb'
      · rw [hf] at hbt
        exact absurd hbt (by simp)
      · exact hall b hb' hbt

lemma closed_visited_iff_reachable (E : Nat → Nat → Prop) (start : Nat) (done : List Nat)
    (hstart : start ∈ done)
    (hsound : ∀ v ∈ done, Relation.ReflTransGen E start v)
    (hclosed : ∀ a ∈ done, ∀ b, E a b → b ∈ done) (n : Nat) :
    n ∈ done ↔ Relation.ReflTransGen E start n := by
  constructor
  · exact hsound n
  · intro h
    induction h with
    | refl => exact hstart
    | tail _ hbc ih => exact hclosed _ ih _ hbc

lemma breadthFirstLoop_spec (g : PkgGraph) (traverse : Nat → Nat → Bool)
    (E : Nat → Nat → Prop) (hE : ∀ a b, E a b ↔ (b ∈ g.From a ∧ traverse a b = true))
    (start : Nat) :
    ∀ (fuel : Nat) (queue visited done : List Nat),
      visited = done ++ queue → visited.Nodup → start ∈ visited →
      (∀ v ∈ visited, Relation.ReflTransGen E start v) →
      (∀ a ∈ done, ∀ b, E a b → b ∈ visited) →
      (∀ v ∈ visited, v ∈ start :: g.edges.map Prod.snd) →
      g.edges.length + 1 ≤ fuel + done.length →
      ∀ n, n ∈ done ++ breadthFirstLoop g traverse fuel queue visited ↔
        Relation.ReflTransGen E start n := by
  intro fuel
  induction fuel with
  | zero =>
    intro queue visited done hvis hnd hstart hsound hclosed hbound hfuel n
    have hlen : visited.length ≤ g.edges.length + 1 := by
      have := (List.subperm_of_subset hnd hbound).length_le
      simpa using this
    have hq : queue = [] := by
      have h1 : visited.length = done.length + queue.length := by
        rw [hvis, List.length_append]
      exact List.eq_nil_of_length_eq_zero (by omega)
    subst hq
    simp only [List.append_nil] at hvis
    subst hvis
    simp only [breadthFirstLoop, List.append_nil]
    exact closed_visited_iff_reachable E start visited hstart hsound hclosed n
  | succ fuel ih =>
    intro queue visited done hvis hnd hstart hsound hclosed hbound hfuel n
    cases queue with
    | nil =>
      simp only [List.append_nil] at hvis
      subst hvis
      simp only [breadthFirstLoop, List.append_nil]
      exact closed_visited_iff_reachable E start visited hstart hsound hclosed n
    | cons t queue =>
      obtain ⟨new, heq, hnewnd, hnew, hall⟩ :=
        enqueueSuccessors_spec traverse t (g.From t) queue visited
      have ht : t ∈ visited := by
        rw [hvis]
        exact List.mem_append_right _ (List.mem_cons_self _ _)
      have hstep : breadthFirstLoop g traverse (fuel + 1) (t :: queue) visited =
          t :: breadthFirstLoop g traverse fuel (queue ++ new) (visited ++ new) := by
        simp [breadthFirstLoop, heq]
      rw [hstep]
      have key := ih (queue ++ new) (visited ++ new) (done ++ [t])
        (by rw [hvis]; simp)
        (by
          rw [List.nodup_append]
          exact ⟨hnd, hnewnd, fun x hx hx' => (hnew x hx').2.2 hx⟩)
        (List.mem_append_left _ hstart)
        (by
          intro v hv
          rcases List.mem_append.mp hv with h | h
          · exact hsound v h
          · exact Relation.ReflTransGen.tail (hsound t ht)
              ((hE t v).mpr ⟨(hnew v h).1, (hnew v h).2.1⟩))
        (by
          intro a ha b hab
          rcases List.mem_append.mp ha with h | h
          · exact List.mem_append_left _ (hclosed a h b hab)
          · rw [List.mem_singleton] at h
            subst h
            exact hall b ((hE a b).mp hab).1 ((hE a b).mp hab).2)
        (by
          intro v hv
          rcases List.mem_append.mp hv with h | h
          · exact hbound v h
          · have hmem := (PkgGraph.mem_From g t v).mp (hnew v h).1
            exact List.mem_cons_of_mem _ (List.mem_map.mpr ⟨(t, v), hmem, rfl⟩))
        (by simp only [List.length_append, List.length_singleton]; omega)
        n
      rw [← key]
      simp

lemma breadthFirstWalk_mem (g : PkgGraph) (traverse : Nat → Nat → Bool)
    (E : Nat → Nat → Prop) (hE : ∀ a b, E a b ↔ (b ∈ g.From a ∧ traverse a b = true))
    (start n : Nat) :
    n ∈ breadthFirstWalk g traverse start ↔ Relation.ReflTransGen E start n := by
  have h := breadthFirstLoop_spec g traverse E hE start (g.edges.length + 1) [start] [start] []
    rfl (List.nodup_singleton _) (List.mem_singleton_self _)
    (by
      intro v hv
      rw [List.mem_singleton] at hv
      subst hv
      exact Relation.ReflTransGen.refl)
    (by simp)
    (by
      intro v hv
      rw [List.mem_singleton] at hv
      subst hv
      exact List.mem_cons_self _ _)
    (by simp) n
  simpa [breadthFirstWalk] using h

lemma followsEdge_iff (store : Nat → PkgNode) (g : PkgGraph) (a b : Nat) :
    followsEdge store g a b ↔ (b ∈ g.From a ∧ traverseFilter store a b = true) := by
  simp [followsEdge, PkgGraph.mem_From, traverseFilter]

lemma getBuildDependencies_eq (env : Env) (node : Nat) (pkgGraph : PkgGraph)
    (store : Nat → PkgNode) :
    getBuildDependencies env node pkgGraph store =
      collectDependencies env store node
        (breadthFirstWalk pkgGraph (traverseFilter store) node) [] :=
  rfl

lemma getBuildDependencies_mem (env : Env) (node : Nat) (pkgGraph : PkgGraph)
    (store : Nat → PkgNode) (p : String) :
    p ∈ getBuildDependencies env node pkgGraph store ↔
      ∃ n, reachesAvoidingBuildNodes store pkgGraph node n ∧ (store n).RpmPath = p ∧
        p ≠ "" ∧ p ≠ env.NoRPMPath ∧ p ≠ (store node).RpmPath := by
  rw [getBuildDependencies_eq, collectDependencies_mem]
  constructor
  · rintro (h | ⟨n, hn, h⟩)
    · simp at h
    · exact ⟨n, (breadthFirstWalk_mem pkgGraph (traverseFilter store)
        (followsEdge store pkgGraph) (followsEdge_iff store pkgGraph) node n).mp hn, h⟩
  · rintro ⟨n, hn, h⟩
    exact Or.inr ⟨n, (breadthFirstWalk_mem pkgGraph (traverseFilter store)
      (followsEdge store pkgGraph) (followsEdge_iff store pkgGraph) node n).mpr hn, h⟩

lemma reachesAvoidingBuildNodes_type (store : Nat → PkgNode) (g : PkgGraph) (node n : Nat)
    (h : reachesAvoidingBuildNodes store g node n) :
    n = node ∨ (store n).Type_ ≠ NodeType.TypeLocalBuild := by
  cases h with
  | refl => exact Or.inl rfl
  | tail _ hlast => exact Or.inr hlast.2

/-- C15. `getBuildDependencies` agrees with its reference definition: the nodes handed to
the walk callback are exactly the requesting node and the nodes reachable from it along
edges none of whose targets is a LocalBuild node, and the paths returned are exactly the
artifact paths of those nodes that are non-empty, not `NoRPMPath` and different from the
requesting node's own path.  A node that is reachable only through a LocalBuild node is
therefore not visited. -/
theorem C15_dependencies_match_reference (env : Env) (node : Nat) (pkgGraph : PkgGraph)
    (store : Nat → PkgNode) :
    (∀ n, n ∈ breadthFirstWalk pkgGraph (traverseFilter store) node ↔
      reachesAvoidingBuildNodes store pkgGraph node n) ∧
    (∀ p, p ∈ getBuildDependencies env node pkgGraph store ↔
      p ∈ referenceDependencies env store pkgGraph node) ∧
    { p | p ∈ getBuildDependencies env node pkgGraph store } =
      referenceDependencies env store pkgGraph node := by
  have hmem : ∀ p, p ∈ getBuildDependencies env node pkgGraph store ↔
      p ∈ referenceDependencies env store pkgGraph node := by
    intro p
    rw [getBuildDependencies_mem]
    rfl
  refine ⟨fun n => breadthFirstWalk_mem pkgGraph (traverseFilter store)
    (followsEdge store pkgGraph) (followsEdge_iff store pkgGraph) node n, hmem, ?_⟩
  ext p
  exact hmem p

/-- C16 as stated fails: node 0 has an edge to the LocalBuild node 1, whose artifact path
is non-empty, not the sentinel and not that of node 0, yet the result does not contain
it; the result is empty. -/
theorem C16_counterexample :
    (0, 1) ∈ dependencyGraph.edges ∧
    (dependencyStore 1).Type_ = NodeType.TypeLocalBuild ∧
    (dependencyStore 1).RpmPath ≠ "" ∧
    (dependencyStore 1).RpmPath ≠ exampleEnv.NoRPMPath ∧
    (dependencyStore 1).RpmPath ≠ (dependencyStore 0).RpmPath ∧
    (dependencyStore 1).RpmPath ∉
      getBuildDependencies exampleEnv 0 dependencyGraph dependencyStore ∧
    getBuildDependencies exampleEnv 0 dependencyGraph dependencyStore = [] := by
  decide

/-- C16, amended. When the requesting node has an edge to a LocalBuild node `B` whose
artifact path is non-empty, not `NoRPMPath` and different from the requesting node's, the
traversal does not enter `B`: `B` is not handed to the walk callback, no node that is
reachable only through LocalBuild nodes is, and the artifact path of `B` is in the result
exactly when some visited node other than `B`, reached without entering a LocalBuild
node, carries the same path. -/
theorem C16_build_node_is_skipped (env : Env) (node : Nat) (pkgGraph : PkgGraph)
    (store : Nat → PkgNode) (B : Nat)
    (hedge : (node, B) ∈ pkgGraph.edges)
    (hB : (store B).Type_ = NodeType.TypeLocalBuild)
    (hne : (store B).RpmPath ≠ "") (hsentinel : (store B).RpmPath ≠ env.NoRPMPath)
    (hown : (store B).RpmPath ≠ (store node).RpmPath) :
    B ∉ breadthFirstWalk pkgGraph (traverseFilter store) node ∧
    (∀ m, ¬ reachesAvoidingBuildNodes store pkgGraph node m →
      m ∉ breadthFirstWalk pkgGraph (traverseFilter store) node) ∧
    ((store B).RpmPath ∈ getBuildDependencies env node pkgGraph store ↔
      ∃ n, n ≠ B ∧ (store n).Type_ ≠ NodeType.TypeLocalBuild ∧
        reachesAvoidingBuildNodes store pkgGraph node n ∧
        (store n).RpmPath = (store B).RpmPath) := by
  have _ := hedge
  have hwalk := fun n => breadthFirstWalk_mem pkgGraph (traverseFilter store)
    (followsEdge store pkgGraph) (followsEdge_iff store pkgGraph) node n
  have hBnode : B ≠ node := fun h => hown (by rw [h])
  refine ⟨?_, ?_, ?_⟩
  · intro hmem
    rcases reachesAvoidingBuildNodes_type store pkgGraph node B ((hwalk B).mp hmem) with h | h
    · exact hBnode h
    · exact h hB
  · intro m hm hmem
    exact hm ((hwalk m).mp hmem)
  · rw [getBuildDependencies_mem]
    constructor
    · rintro ⟨n, hreach, hpath, -, -, -⟩
      rcases reachesAvoidingBuildNodes_type store pkgGraph node n hreach with h | h
      · exact absurd (by rw [← hpath, h]) hown
      · exact ⟨n, fun hnB => h (hnB ▸ hB), h, hreach, hpath⟩
    · rintro ⟨n, -, -, hreach, hpath⟩
      exact ⟨n, hreach, hpath, hne, hsentinel, hown⟩

/-- C16, amended, at a concrete input: node 0 with its edge to the build node 1. -/
theorem C16_build_node_is_skipped_witness :
    1 ∉ breadthFirstWalk dependencyGraph (traverseFilter dependencyStore) 0 :=
  (C16_build_node_is_skipped exampleEnv 0 dependencyGraph dependencyStore 1
    (by decide) (by decide) (by decide) (by decide) (by decide)).1

/-! ## Cache flags: proofs -/

lemma buildBuildNode_ignored (env : Env) (node : Nat) (pkgGraph : PkgGraph)
    (agent : BuildAgent) (canUseCache : Bool) (buildAttempts : Int)
    (ignoredPackages : List PackageVer) (w : World)
    (hignore : (w.store node).VersionedPkg ∈ ignoredPackages) :
    buildBuildNode env node pkgGraph agent canUseCache buildAttempts ignoredPackages w =
      ({ usedCache := (env.IsSRPMPrebuilt w.agentCallCount (w.store node).SrpmPath pkgGraph
           w.store).1,
         ignored := true,
         builtFiles := (env.IsSRPMPrebuilt w.agentCallCount (w.store node).SrpmPath pkgGraph
           w.store).2.1,
         logFile := "", err := none },
       { store := w.store,
         trace := w.trace ++ [Event.cacheQuery (w.store node).SrpmPath] }) := by
  have hc := (ignoreListContains_iff ignoredPackages (w.store node).VersionedPkg).mpr hignore
  unfold buildBuildNode
  simp [hc, World.emit]

/-- C25. For a node on the ignore list, `buildBuildNode` returns `ignored = true` together
with `usedCache` and `builtFiles` exactly as the cache query reports them, whatever
`canUseCache` is: with a valid cache the result has `ignored = true` and
`usedCache = true` even when the caller passed `canUseCache = false`.  The error is nil,
the log file empty and only the cache query is recorded. -/
theorem C25_ignored_keeps_cache_answer (env : Env) (node : Nat) (pkgGraph : PkgGraph)
    (agent : BuildAgent) (canUseCache : Bool) (buildAttempts : Int)
    (ignoredPackages : List PackageVer) (w : World)
    (hignore : (w.store node).VersionedPkg ∈ ignoredPackages) :
    buildBuildNode env node pkgGraph agent canUseCache buildAttempts ignoredPackages w =
        ({ usedCache := (env.IsSRPMPrebuilt w.agentCallCount (w.store node).SrpmPath pkgGraph
             w.store).1,
           ignored := true,
           builtFiles := (env.IsSRPMPrebuilt w.agentCallCount (w.store node).SrpmPath pkgGraph
             w.store).2.1,
           logFile := "", err := none },
         { store := w.store,
           trace := w.trace ++ [Event.cacheQuery (w.store node).SrpmPath] }) ∧
    ((env.IsSRPMPrebuilt w.agentCallCount (w.store node).SrpmPath pkgGraph w.store).1 = true →
      (buildBuildNode env node pkgGraph agent false buildAttempts ignoredPackages
          w).1.ignored = true ∧
      (buildBuildNode env node pkgGraph agent false buildAttempts ignoredPackages
          w).1.usedCache = true) := by
  refine ⟨buildBuildNode_ignored env node pkgGraph agent canUseCache buildAttempts
    ignoredPackages w hignore, fun hvalid => ?_⟩
  rw [buildBuildNode_ignored env node pkgGraph agent false buildAttempts ignoredPackages w
    hignore]
  exact ⟨rfl, hvalid⟩

/-- C25 at a concrete input: the build node 0 is on the ignore list, the cache is valid
and the caller forbids cache use. -/
theorem C25_ignored_keeps_cache_answer_witness :
    (buildBuildNode cachedEnv 0 { edges := [] } exampleAgent false 3
        [{ Name := "pkg", Version := "1.0" }] exampleWorld).1.ignored = true ∧
    (buildBuildNode cachedEnv 0 { edges := [] } exampleAgent false 3
        [{ Name := "pkg", Version := "1.0" }] exampleWorld).1.usedCache = true :=
  (C25_ignored_keeps_cache_answer cachedEnv 0 { edges := [] } exampleAgent false 3
    [{ Name := "pkg", Version := "1.0" }] exampleWorld
    (by simp [exampleWorld, exampleStore, exampleNode])).2 rfl

lemma buildBuildNode_usedCache (env : Env) (node : Nat) (pkgGraph : PkgGraph)
    (agent : BuildAgent) (canUseCache : Bool) (buildAttempts : Int)
    (ignoredPackages : List PackageVer) (w : World) :
    (buildBuildNode env node pkgGraph agent canUseCache buildAttempts ignoredPackages
        w).1.usedCache =
      if (w.store node).VersionedPkg ∈ ignoredPackages then
        (env.IsSRPMPrebuilt w.agentCallCount (w.store node).SrpmPath pkgGraph w.store).1
      else
        (canUseCache &&
          (env.IsSRPMPrebuilt w.agentCallCount (w.store node).SrpmPath pkgGraph w.store).1) := by
  by_cases hmem : (w.store node).VersionedPkg ∈ ignoredPackages
  · rw [buildBuildNode_ignored env node pkgGraph agent canUseCache buildAttempts
      ignoredPackages w hmem, if_pos hmem]
  · rw [if_neg hmem]
    have hc : ignoreListContains ignoredPackages (w.store node).VersionedPkg = false := by
      rw [Bool.eq_false_iff]
      exact fun h => hmem ((ignoreListContains_iff _ _).mp h)
    unfold buildBuildNode
    simp only [hc, Bool.false_eq_true, if_false]
    split
    · rename_i h
      simp only [Bool.and_eq_true] at h
      simp [h.1, h.2]
    · rename_i h
      simp only [Bool.and_eq_true, not_and] at h
      cases hcu : canUseCache
      · simp
      · simp [h hcu]

/-- C26. The result that the worker publishes for a Test request has `UsedCache = false`
and an empty `BuiltFiles` list, whatever the request's `CanUseCache` is and whether or
not the test was skipped.  `UsedCache` repeats `CanUseCache` for the five pass-through
types only: for a LocalBuild request it is the cache query's validity (combined with
`CanUseCache` unless the node is ignored), and for every other type it is false. -/
theorem C26_test_result_has_no_cache_flag (env : Env) (agent : BuildAgent)
    (buildAttempts checkAttempts : Int) (ignoredPackages : List PackageVer)
    (req : BuildRequest) (channels : BuildChannels) (w : World) :
    ∃ res,
      (workerBody env agent buildAttempts checkAttempts ignoredPackages req channels
        w).1.Results = channels.Results ++ [res] ∧
      ((w.store req.Node).Type_ = NodeType.TypeTest →
        res.UsedCache = false ∧ res.BuiltFiles = []) ∧
      ((w.store req.Node).Type_.isPassThrough = true → res.UsedCache = req.CanUseCache) ∧
      ((w.store req.Node).Type_ = NodeType.TypeLocalBuild →
        res.UsedCache =
          if (w.store req.Node).VersionedPkg ∈ ignoredPackages then
            (env.IsSRPMPrebuilt w.agentCallCount (w.store req.Node).SrpmPath req.PkgGraph
              w.store).1
          else
            (req.CanUseCache &&
              (env.IsSRPMPrebuilt w.agentCallCount (w.store req.Node).SrpmPath req.PkgGraph
                w.store).1)) ∧
      ((w.store req.Node).Type_ ≠ NodeType.TypeLocalBuild →
        (w.store req.Node).Type_.isPassThrough = false → res.UsedCache = false) := by
  by_cases hb : (w.store req.Node).Type_ = NodeType.TypeLocalBuild
  · have hbody := workerBody_localBuild env agent buildAttempts checkAttempts ignoredPackages
      req channels w hb
    refine ⟨_, by rw [hbody], ?_, ?_, ?_, ?_⟩
    · intro ht
      rw [hb] at ht
      exact absurd ht (by decide)
    · intro hp
      rw [hb] at hp
      exact absurd hp (by decide)
    · intro _
      have hcount : (w.emit (Event.receive req)).agentCallCount = w.agentCallCount := by
        simp [World.agentCallCount_emit, Event.isAgentCall]
      have h := buildBuildNode_usedCache env req.Node req.PkgGraph agent req.CanUseCache
        buildAttempts ignoredPackages (w.emit (Event.receive req))
      rw [hcount] at h
      exact h
    · intro h
      exact absurd hb h
  · by_cases ht : (w.store req.Node).Type_ = NodeType.TypeTest
    · have hbody := workerBody_test env agent buildAttempts checkAttempts ignoredPackages
        req channels w ht
      refine ⟨_, by rw [hbody], ?_, ?_, ?_, ?_⟩
      · intro _
        exact ⟨rfl, rfl⟩
      · intro hp
        rw [ht] at hp
        exact absurd hp (by decide)
      · intro h
        exact absurd h hb
      · intro _ _
        rfl
    · obtain ⟨res, hbody, hres⟩ := workerBody_untracked env agent buildAttempts checkAttempts
        ignoredPackages req channels w hb ht
      refine ⟨res, by rw [hbody], fun h => absurd h ht, ?_, fun h => absurd h hb, ?_⟩
      · intro hp
        rw [hres, if_pos hp]
      · intro _ hp
        rw [hres, hp]
        rfl

/-- C26 at a concrete input: a request for the test node 3 that may use the cache, so the
test is skipped; the published result has `UsedCache = false` and no built files. -/
theorem C26_test_result_has_no_cache_flag_witness :
    (exampleWorld.store skippedTestRequest.Node).Type_ = NodeType.TypeTest ∧
    skippedTestRequest.CanUseCache = true ∧
    ∃ res,
      (workerBody exampleEnv exampleAgent 1 1 [] skippedTestRequest idleChannels
        exampleWorld).1.Results = idleChannels.Results ++ [res] ∧
      res.UsedCache = false ∧ res.BuiltFiles = [] :=
  ⟨rfl, rfl,
    (C26_test_result_has_no_cache_flag exampleEnv exampleAgent 1 1 [] skippedTestRequest
      idleChannels exampleWorld).elim
      (fun res h => ⟨res, h.1, (h.2.1 rfl).1, (h.2.1 rfl).2⟩)⟩

lemma collectDependencies_congr (env1 env2 : Env) (hsentinel : env1.NoRPMPath = env2.NoRPMPath)
    (store : Nat → PkgNode) (node : Nat) :
    ∀ (l : List Nat) (lookup : List String),
      collectDependencies env1 store node l lookup =
        collectDependencies env2 store node l lookup := by
  intro l
  induction l with
  | nil => intro lookup; rfl
  | cons a rest ih =>
    intro lookup
    unfold collectDependencies
    simp only [hsentinel, ih]

lemma getBuildDependencies_congr (env1 env2 : Env)
    (hsentinel : env1.NoRPMPath = env2.NoRPMPath) (node : Nat) (pkgGraph : PkgGraph)
    (store : Nat → PkgNode) :
    getBuildDependencies env1 node pkgGraph store =
      getBuildDependencies env2 node pkgGraph store := by
  rw [getBuildDependencies_eq, getBuildDependencies_eq]
  exact collectDependencies_congr env1 env2 hsentinel store node _ _

/-- C23. Partial-build detection never changes the outcome.  Two environments with the
same `NoRPMPath` whose cache queries agree on validity and on the existing artifacts,
and differ at most in the missing artifacts, give the same results of `buildBuildNode`
and the same world afterwards, so the same agent calls.  On the rebuild path (node not
ignored; cache use forbidden or cache invalid) the returned `builtFiles`, `logFile` and
error are those of the retried agent call, not the cache query's, and the error is nil
when the agent's first call succeeds, whatever artifacts the cache query listed. -/
theorem C23_partial_build_is_outcome_neutral (env1 env2 : Env) (node : Nat)
    (pkgGraph : PkgGraph) (agent : BuildAgent) (canUseCache : Bool) (buildAttempts : Int)
    (ignoredPackages : List PackageVer) (w : World)
    (hsentinel : env1.NoRPMPath = env2.NoRPMPath)
    (hvalid : (env1.IsSRPMPrebuilt w.agentCallCount (w.store node).SrpmPath pkgGraph
        w.store).1 =
      (env2.IsSRPMPrebuilt w.agentCallCount (w.store node).SrpmPath pkgGraph w.store).1)
    (hexisting : (env1.IsSRPMPrebuilt w.agentCallCount (w.store node).SrpmPath pkgGraph
        w.store).2.1 =
      (env2.IsSRPMPrebuilt w.agentCallCount (w.store node).SrpmPath pkgGraph w.store).2.1) :
    buildBuildNode env1 node pkgGraph agent canUseCache buildAttempts ignoredPackages w =
        buildBuildNode env2 node pkgGraph agent canUseCache buildAttempts ignoredPackages w ∧
    ((w.store node).VersionedPkg ∉ ignoredPackages →
      (canUseCache = false ∨
        (env1.IsSRPMPrebuilt w.agentCallCount (w.store node).SrpmPath pkgGraph
          w.store).1 = false) →
      (buildBuildNode env1 node pkgGraph agent canUseCache buildAttempts ignoredPackages
          w).1 =
        { usedCache := false, ignored := false,
          builtFiles := (buildSRPMFile agent buildAttempts (w.store node).SrpmPath
            (w.store node).Architecture (getBuildDependencies env1 node pkgGraph w.store)
            { store := w.store,
              trace := w.trace ++ [Event.cacheQuery (w.store node).SrpmPath,
                Event.resolveDeps node] }).1.1,
          logFile := (buildSRPMFile agent buildAttempts (w.store node).SrpmPath
            (w.store node).Architecture (getBuildDependencies env1 node pkgGraph w.store)
            { store := w.store,
              trace := w.trace ++ [Event.cacheQuery (w.store node).SrpmPath,
                Event.resolveDeps node] }).1.2.1,
          err := (buildSRPMFile agent buildAttempts (w.store node).SrpmPath
            (w.store node).Architecture (getBuildDependencies env1 node pkgGraph w.store)
            { store := w.store,
              trace := w.trace ++ [Event.cacheQuery (w.store node).SrpmPath,
                Event.resolveDeps node] }).1.2.2 } ∧
      ((agent.BuildPackage w.agentCallCount (w.store node).SrpmPath
          (filepathBase (w.store node).SrpmPath ++ ".log") (w.store node).Architecture false
          (getBuildDependencies env1 node pkgGraph w.store)).2.2 = none →
        (buildBuildNode env1 node pkgGraph agent canUseCache buildAttempts ignoredPackages
          w).1.err = none)) := by
  constructor
  · unfold buildBuildNode
    simp only [hvalid, hexisting, World.emit,
      getBuildDependencies_congr env1 env2 hsentinel node pkgGraph w.store]
  · intro hignore hrebuild
    have hb := buildBuildNode_rebuild env1 node pkgGraph agent canUseCache buildAttempts
      ignoredPackages w hignore hrebuild
    refine ⟨by rw [hb], fun hok => ?_⟩
    rw [hb]
    apply buildSRPMFile_first_call_succeeds
    have hcount : World.agentCallCount
        { store := w.store,
          trace := w.trace ++ [Event.cacheQuery (w.store node).SrpmPath,
            Event.resolveDeps node] } = w.agentCallCount := by
      simp [World.agentCallCount, List.countP_append, List.countP_cons, Event.isAgentCall]
    rw [hcount]
    exact hok

/-- C23 at a concrete input: two cache queries that both report a valid cache with the
same existing artifact and differ in the missing artifacts, with cache use forbidden. -/
theorem C23_partial_build_is_outcome_neutral_witness :
    buildBuildNode cachedEnv 0 { edges := [] } exampleAgent false 3 [] exampleWorld =
      buildBuildNode partialCacheEnv 0 { edges := [] } exampleAgent false 3 [] exampleWorld :=
  (C23_partial_build_is_outcome_neutral cachedEnv partialCacheEnv 0 { edges := [] }
    exampleAgent false 3 [] exampleWorld rfl rfl rfl).1

/-! ## Retries in the test path: proofs -/

lemma testOperation_nil_or_checkFailed (env : Env) (agent : BuildAgent)
    (srpmFile outArch : String) (dependencies : List String) (v : TestVars)
    (hv : v.checkFailed = true ∨
      (agent.BuildPackage v.world.agentCallCount srpmFile
        (filepathBase srpmFile ++ ".test.log") outArch true dependencies).2.2 = none) :
    (testOperation env agent srpmFile outArch dependencies v).1 = none ∨
      (testOperation env agent srpmFile outArch dependencies v).2.checkFailed = true := by
  cases hr : (agent.BuildPackage v.world.agentCallCount srpmFile
      (filepathBase srpmFile ++ ".test.log") outArch true dependencies).2.2 with
  | some e =>
    rcases hv with hv | hv
    · right
      simp [testOperation, callBuildPackage, hr, hv]
    · rw [hr] at hv
      exact absurd hv (by simp)
  | none =>
    cases hp : (parseCheckSection env
        (agent.BuildPackage v.world.agentCallCount srpmFile
          (filepathBase srpmFile ++ ".test.log") outArch true dependencies).2.1
        (v.world.emit (Event.agentCall srpmFile (filepathBase srpmFile ++ ".test.log") outArch
          true dependencies))).1 with
    | none =>
      left
      simp [testOperation, callBuildPackage, hr, hp]
    | some e =>
      right
      simp [testOperation, callBuildPackage, hr, hp]

lemma retryLoop_test_nil_or_checkFailed (env : Env) (agent : BuildAgent)
    (srpmFile outArch : String) (dependencies : List String) :
    ∀ (m : Nat) (last : Option Error) (v : TestVars),
      (v.checkFailed = true ∨
        (agent.BuildPackage v.world.agentCallCount srpmFile
          (filepathBase srpmFile ++ ".test.log") outArch true dependencies).2.2 = none) →
      (retryLoop (testOperation env agent srpmFile outArch dependencies) testSleep (m + 1)
          last v).1 = none ∨
        (retryLoop (testOperation env agent srpmFile outArch dependencies) testSleep (m + 1)
          last v).2.checkFailed = true := by
  intro m
  induction m with
  | zero =>
    intro last v hv
    have hop := testOperation_nil_or_checkFailed env agent srpmFile outArch dependencies v hv
    rw [retryLoop]
    rcases hres : testOperation env agent srpmFile outArch dependencies v with ⟨x, s1⟩
    rw [hres] at hop
    cases x with
    | none => exact Or.inl rfl
    | some e => simpa using hop
  | succ m ih =>
    intro last v hv
    have hop := testOperation_nil_or_checkFailed env agent srpmFile outArch dependencies v hv
    rw [retryLoop]
    rcases hres : testOperation env agent srpmFile outArch dependencies v with ⟨x, s1⟩
    rw [hres] at hop
    cases x with
    | none => exact Or.inl rfl
    | some e =>
      simp only [Nat.add_one_ne_zero, if_false]
      exact ih (some e) (testSleep s1) (Or.inl (by simpa [testSleep] using hop))

lemma retryLoop_test_agent_fails (env : Env) (agent : BuildAgent)
    (srpmFile outArch : String) (dependencies : List String) :
    ∀ (m : Nat) (last : Option Error) (v : TestVars),
      (∀ j, j < m + 1 →
        (agent.BuildPackage (v.world.agentCallCount + j) srpmFile
          (filepathBase srpmFile ++ ".test.log") outArch true dependencies).2.2 ≠ none) →
      (retryLoop (testOperation env agent srpmFile outArch dependencies) testSleep (m + 1)
          last v).1 ≠ none ∧
        (retryLoop (testOperation env agent srpmFile outArch dependencies) testSleep (m + 1)
          last v).2.checkFailed = v.checkFailed := by
  intro m
  induction m with
  | zero =>
    intro last v hfail
    have h0 := hfail 0 (by omega)
    simp only [Nat.add_zero] at h0
    obtain ⟨e, he⟩ := Option.ne_none_iff_exists'.mp h0
    rw [retryLoop]
    simp [testOperation, callBuildPackage, he]
  | succ m ih =>
    intro last v hfail
    have h0 := hfail 0 (by omega)
    simp only [Nat.add_zero] at h0
    obtain ⟨e, he⟩ := Option.ne_none_iff_exists'.mp h0
    obtain ⟨-, hcount, -, -⟩ := testOperation_world env agent srpmFile outArch dependencies v
    have hop : testOperation env agent srpmFile outArch dependencies v =
        (some e, (testOperation env agent srpmFile outArch dependencies v).2) := by
      simp [testOperation, callBuildPackage, he]
    have hcf : (testOperation env agent srpmFile outArch dependencies v).2.checkFailed =
        v.checkFailed := by
      simp [testOperation, callBuildPackage, he]
    rw [retryLoop, hop]
    simp only [Nat.add_one_ne_zero, if_false]
    have hc1 : (testSleep (testOperation env agent srpmFile outArch dependencies
        v).2).world.agentCallCount = v.world.agentCallCount + 1 := by
      simp only [testSleep, World.agentCallCount_emit]
      simpa [Event.isAgentCall] using hcount
    obtain ⟨h1, h2⟩ := ih (some e)
      (testSleep (testOperation env agent srpmFile outArch dependencies v).2)
      (by
        intro j hj
        rw [hc1]
        have := hfail (j + 1) (by omega)
        rwa [show v.world.agentCallCount + 1 + j = v.world.agentCallCount + (j + 1) by omega])
    refine ⟨h1, ?_⟩
    rw [h2]
    simpa [testSleep] using hcf

lemma testSRPMFile_err_cleared (env : Env) (agent : BuildAgent) (checkAttempts : Int)
    (srpmFile outArch : String) (dependencies : List String) (w : World)
    (hflag : (retryLoop (testOperation env agent srpmFile outArch dependencies) testSleep
      checkAttempts.toNat none
      { logFile := "", checkFailed := false, world := w }).2.checkFailed = true) :
    (testSRPMFile env agent checkAttempts srpmFile outArch dependencies w).1.2 = none := by
  rw [testSRPMFile_eq]
  simp only [hflag, Bool.and_true]
  cases (retryLoop (testOperation env agent srpmFile outArch dependencies) testSleep
      checkAttempts.toNat none { logFile := "", checkFailed := false, world := w }).1 <;> simp

/-- C21 fails on the code.  For an attempt limit of at least one: if the first agent
invocation succeeds, `testSRPMFile` returns a nil error whatever the later invocations
do.  Either some attempt passes, or the first attempt fails in its check section and sets
`checkFailed`, which no failing attempt resets; so when every later attempt, the final
one included, fails in the agent itself, the agent's error is cleared.  Only when every
attempt fails in the agent, so that no attempt reaches the check section, is the
returned error non-nil. -/
theorem C21_stale_check_flag_clears_agent_error (env : Env) (agent : BuildAgent)
    (checkAttempts : Int) (srpmFile outArch : String) (dependencies : List String) (w : World)
    (hattempts : 1 ≤ checkAttempts) :
    ((agent.BuildPackage w.agentCallCount srpmFile (filepathBase srpmFile ++ ".test.log")
        outArch true dependencies).2.2 = none →
      (testSRPMFile env agent checkAttempts srpmFile outArch dependencies w).1.2 = none) ∧
    ((∀ j : Nat, (j : Int) < checkAttempts →
        (agent.BuildPackage (w.agentCallCount + j) srpmFile
          (filepathBase srpmFile ++ ".test.log") outArch true dependencies).2.2 ≠ none) →
      (testSRPMFile env agent checkAttempts srpmFile outArch dependencies w).1.2 ≠ none) := by
  obtain ⟨m, hm⟩ : ∃ m, checkAttempts.toNat = m + 1 :=
    Nat.exists_eq_succ_of_ne_zero (by omega)
  constructor
  · intro hfirst
    rcases retryLoop_test_nil_or_checkFailed env agent srpmFile outArch dependencies m none
      { logFile := "", checkFailed := false, world := w } (Or.inr hfirst) with h | h
    · rw [testSRPMFile_eq, hm]
      simp only [h, Option.isSome_none, Bool.false_and, Bool.false_eq_true, if_false]
    · exact testSRPMFile_err_cleared env agent checkAttempts srpmFile outArch dependencies w
        (by rw [hm]; exact h)
  · intro hfail
    obtain ⟨h1, h2⟩ := retryLoop_test_agent_fails env agent srpmFile outArch dependencies m
      none { logFile := "", checkFailed := false, world := w }
      (fun j hj => hfail j (by omega))
    rw [testSRPMFile_eq, hm]
    simp only [h2, Bool.and_false, Bool.false_eq_true, if_false]
    exact h1

/-- C21 at the failing input: the attempt limit is two, the first agent call succeeds and
its check section fails, the second agent call returns an error; `testSRPMFile` returns
a nil error. -/
theorem C21_stale_check_flag_clears_agent_error_witness :
    (parseCheckSection failingCheckEnv "pkg.src.rpm.test.log"
        (exampleWorld.emit (Event.agentCall "/SRPMS/pkg.src.rpm" "pkg.src.rpm.test.log"
          "x86_64" true []))).1 ≠ none ∧
    (onceWorkingAgent.BuildPackage (exampleWorld.agentCallCount + 1) "/SRPMS/pkg.src.rpm"
        (filepathBase "/SRPMS/pkg.src.rpm" ++ ".test.log") "x86_64" true []).2.2 ≠ none ∧
    (testSRPMFile failingCheckEnv onceWorkingAgent 2 "/SRPMS/pkg.src.rpm" "x86_64" []
        exampleWorld).1.2 = none :=
  ⟨by decide, by decide,
   (C21_stale_check_flag_clears_agent_error failingCheckEnv onceWorkingAgent 2
      "/SRPMS/pkg.src.rpm" "x86_64" [] exampleWorld (by decide)).1 rfl⟩

/-! ## Log naming: proofs -/

lemma startsWith_iff (p l : List Char) : startsWith p l = true ↔ ∃ r, l = p ++ r := by
  induction p generalizing l with
  | nil => simp [startsWith]
  | cons a p ih =>
    cases l with
    | nil => simp [startsWith]
    | cons b l =>
      simp only [startsWith, Bool.and_eq_true, beq_iff_eq, ih, List.cons_append,
        List.cons.injEq]
      constructor
      · rintro ⟨rfl, r, rfl⟩
        exact ⟨r, rfl, rfl⟩
      · rintro ⟨r, rfl, rfl⟩
        exact ⟨rfl, r, rfl⟩

lemma stringsTrimSuffix_append (q suffix : String) :
    stringsTrimSuffix (q ++ suffix) suffix = q := by
  have hs : startsWith suffix.data.reverse (q ++ suffix).data.reverse = true := by
    rw [startsWith_iff]
    exact ⟨q.data.reverse, by rw [String.data_append, List.reverse_append]⟩
  unfold stringsTrimSuffix
  rw [if_pos hs]
  apply String.ext
  show List.take ((q ++ suffix).data.length - suffix.data.length) (q ++ suffix).data = q.data
  rw [String.data_append, List.length_append, Nat.add_sub_cancel, List.take_left]

lemma stringsTrimSuffix_of_no_suffix (p suffix : String)
    (h : ¬ ∃ q : String, p = q ++ suffix) : stringsTrimSuffix p suffix = p := by
  unfold stringsTrimSuffix
  split
  · rename_i hs
    exfalso
    rw [startsWith_iff] at hs
    obtain ⟨r, hr⟩ := hs
    apply h
    refine ⟨String.mk r.reverse, ?_⟩
    apply String.ext
    rw [String.data_append]
    have := congrArg List.reverse hr
    simpa using this
  · rfl

lemma attemptEvents_mem (call e : Event) :
    ∀ n, e ∈ attemptEvents call n → e = call ∨ e = Event.sleep := by
  intro n
  induction n with
  | zero => intro h; simp [attemptEvents] at h
  | succ n ih =>
    cases n with
    | zero =>
      intro h
      rw [attemptEvents_one, List.mem_singleton] at h
      exact Or.inl h
    | succ m =>
      intro h
      rw [attemptEvents_succ_succ] at h
      rcases List.mem_cons.mp h with h | h
      · exact Or.inl h
      · rcases List.mem_cons.mp h with h | h
        · exact Or.inr h
        · exact ih h

/-- C24. Log naming.  The archive path for a failed test on log path `p` at timestamp
`env.unixMilli t` is `p` without one trailing ".test.log" (`p` itself when it does not
end in ".test.log"), followed by "-FAILED_TEST-", the decimal rendering of the
timestamp and ".log"; this is the destination to which `parseCheckSection` copies the log
when the first marker line that its scanner yields lacks "EXIT STATUS 0", and every copy
that `parseCheckSection` makes is a copy of its log to this destination.  Every agent
invocation of `buildSRPMFile` passes the log base name `filepathBase srpmFile ++ ".log"`,
and every one of `testSRPMFile` passes `filepathBase srpmFile ++ ".test.log"`. -/
theorem C24_log_naming (env : Env) (t : Nat) :
    (∀ q : String,
      failedLogName env t (q ++ ".test.log") =
        q ++ "-FAILED_TEST-" ++ toString (env.unixMilli t) ++ ".log") ∧
    (∀ p : String, (¬ ∃ q : String, p = q ++ ".test.log") →
      failedLogName env t p = p ++ "-FAILED_TEST-" ++ toString (env.unixMilli t) ++ ".log") ∧
    (∀ n : Nat, env.unixMilli t = Int.ofNat n → toString (env.unixMilli t) = toString n) ∧
    (∀ (logFile : String) (lines : List String) (line : String) (w : World),
      w.agentCallCount = t → env.openLog t logFile = Except.ok lines →
      (scannerLines lines).find? isCheckDone = some line → isExitStatusZero line = false →
      (parseCheckSection env logFile w).2.trace =
        w.trace ++ [Event.openLog logFile,
          Event.copyLog logFile (failedLogName env t logFile)]) ∧
    (∀ (logFile : String) (w : World), w.agentCallCount = t →
      ∃ ex, (parseCheckSection env logFile w).2.trace = w.trace ++ ex ∧
        ∀ src dst, Event.copyLog src dst ∈ ex →
          src = logFile ∧ dst = failedLogName env t logFile) ∧
    (∀ (agent : BuildAgent) (buildAttempts : Int) (srpmFile outArch : String)
        (dependencies : List String) (w : World),
      ∃ ex, (buildSRPMFile agent buildAttempts srpmFile outArch dependencies w).2.trace =
          w.trace ++ ex ∧
        ∀ e ∈ ex, Event.isAgentCall e = true →
          e = Event.agentCall srpmFile (filepathBase srpmFile ++ ".log") outArch false
            dependencies) ∧
    (∀ (agent : BuildAgent) (checkAttempts : Int) (srpmFile outArch : String)
        (dependencies : List String) (w : World),
      ∃ ex, (testSRPMFile env agent checkAttempts srpmFile outArch dependencies w).2.trace =
          w.trace ++ ex ∧
        ∀ e ∈ ex, Event.isAgentCall e = true →
          e = Event.agentCall srpmFile (filepathBase srpmFile ++ ".test.log") outArch true
            dependencies) := by
  refine ⟨?_, ?_, ?_, ?_, ?_, ?_, ?_⟩
  · intro q
    unfold failedLogName
    rw [stringsTrimSuffix_append]
  · intro p hp
    unfold failedLogName
    rw [stringsTrimSuffix_of_no_suffix p ".test.log" hp]
  · intro n hn
    rw [hn]
    rfl
  · intro logFile lines line w hw hopen hfind hz
    subst hw
    rw [parseCheckSection_opened env logFile lines w hopen, hfind]
    simp [hz, World.emit]
  · intro logFile w hw
    subst hw
    cases hopen : env.openLog w.agentCallCount logFile with
    | error e =>
      refine ⟨[Event.openLog logFile], by simp [parseCheckSection, hopen, World.emit], ?_⟩
      intro src dst h
      simp at h
    | ok lines =>
      rw [parseCheckSection_opened env logFile lines w hopen]
      cases (scannerLines lines).find? isCheckDone with
      | none =>
        refine ⟨[Event.openLog logFile], rfl, ?_⟩
        intro src dst h
        simp at h
      | some line =>
        by_cases hz : isExitStatusZero line = true
        · simp only [hz, if_true]
          refine ⟨[Event.openLog logFile], rfl, ?_⟩
          intro src dst h
          simp at h
        · simp only [hz, if_false]
          refine ⟨[Event.openLog logFile,
            Event.copyLog logFile (failedLogName env w.agentCallCount logFile)],
            by simp [World.emit], ?_⟩
          intro src dst h
          simpa using h
  · intro agent buildAttempts srpmFile outArch dependencies w
    obtain ⟨n, -, -, hw⟩ := buildSRPMFile_world agent buildAttempts srpmFile outArch
      dependencies w
    refine ⟨_, by rw [hw], ?_⟩
    intro e he hcall
    rcases attemptEvents_mem _ e n he with h | h
    · exact h
    · rw [h] at hcall
      exact absurd hcall (by simp [Event.isAgentCall])
  · intro agent checkAttempts srpmFile outArch dependencies w
    obtain ⟨ex, htr, hex, -⟩ := retryLoop_test_trace env agent srpmFile outArch dependencies
      checkAttempts.toNat none { logFile := "", checkFailed := false, world := w }
    refine ⟨ex, ?_, hex⟩
    rw [testSRPMFile_eq]
    exact htr

/-- C24 at concrete inputs: a test log path and a path without the test suffix, and the
base name of a source package path. -/
theorem C24_log_naming_witness :
    failedLogName exampleEnv 0 ("/logs/pkg.src.rpm" ++ ".test.log") =
        "/logs/pkg.src.rpm" ++ "-FAILED_TEST-" ++ toString (exampleEnv.unixMilli 0) ++ ".log" ∧
      filepathBase "/SRPMS/pkg.src.rpm" = "pkg.src.rpm" :=
  ⟨(C24_log_naming exampleEnv 0).1 "/logs/pkg.src.rpm", by decide⟩

end schedulerutils
